import Mathlib

/-! HarfBuzz: the CPAL color-palette table view and the layout query engine

A shallow embedding of `src/hb-ot-color-cpal-table.hh`, with the color unpacking of
`colr_cpal_rendering` in `src/dump-font.cc`, and of the script, language and feature
queries of `src/hb-ot-layout.cc`.

Memory model.  A table view in the C++ code is a pointer into a byte blob.  Here
memory is a total map from addresses to bytes and the blob under validation is
the address range `[start, end_)` of the sanitize context.  Reading an address
outside the blob is therefore possible in the model (it yields whatever the
memory holds there), and "this read stays inside the blob" is an explicit
statement about addresses.  Addresses are natural numbers: pointer arithmetic
does not wrap (a 64-bit address space).  Machine integers are natural numbers;
every value read from the table is bounded by its field width.
-/

namespace OT

/-! ## Memory and the primitive big-endian integer types -/

/-- Byte-addressed memory: the content of every address. -/
abbrev Memory := Nat → Nat

/-- The byte stored at address `a`, a value below 256. -/
def Memory.byte (mem : Memory) (a : Nat) : Nat := mem a % 256

/-- Modelled from the spec: the integer type `HBUINT16` of `hb-open-type-private.hh`,
a header that is not among the sources.  The spec fixes the layout as "bit-exact,
big-endian throughout": the value of the two bytes at `a`, high byte first. -/
def HBUINT16.get (mem : Memory) (a : Nat) : Nat :=
  mem.byte a * 256 + mem.byte (a + 1)

/-- Modelled from the spec: the integer type `HBUINT32` of `hb-open-type-private.hh`,
a header that is not among the sources.  Big-endian value of the four bytes at `a`. -/
def HBUINT32.get (mem : Memory) (a : Nat) : Nat :=
  mem.byte a * 16777216 + mem.byte (a + 1) * 65536 + mem.byte (a + 2) * 256 + mem.byte (a + 3)

/-- `HBUINT16::static_size`, the `sizeof (HBUINT16)` of `CPAL::get_size`. -/
def HBUINT16.static_size : Nat := 2

/-- `HBUINT32::static_size`. -/
def HBUINT32.static_size : Nat := 4

/-! ## The sanitizer context -/

/-- The sanitize context: the blob being validated is the address range
`[start, end_)`. -/
structure hb_sanitize_context_t where
  /-- Address of the first byte of the blob. -/
  start : Nat
  /-- Address one past the last byte of the blob. -/
  end_ : Nat
  deriving DecidableEq, Repr

/-- Modelled from the spec: `hb_sanitize_context_t::check_range` of
`hb-open-type-private.hh`, a header that is not among the sources.  The spec's
sanitizer "confirms (a) the base structure fits within the blob": the `len`
bytes at `base` lie inside `[start, end_)`. -/
def hb_sanitize_context_t.check_range (c : hb_sanitize_context_t) (base len : Nat) : Bool :=
  decide (c.start ≤ base) && decide (base ≤ c.end_) && decide (len ≤ c.end_ - base)

/-- Modelled from the spec: `hb_sanitize_context_t::check_struct`, which range-checks
the fixed part (`min_size`, the first argument of `DEFINE_SIZE_STATIC` /
`DEFINE_SIZE_ARRAY`) of the structure at `obj`. -/
def hb_sanitize_context_t.check_struct (c : hb_sanitize_context_t) (obj min_size : Nat) : Bool :=
  c.check_range obj min_size

/-- Modelled from the spec: `hb_sanitize_context_t::check_array`, the range check of
`len` records of `record_size` bytes each at `base`; the byte count must fit an
`unsigned int`. -/
def hb_sanitize_context_t.check_array (c : hb_sanitize_context_t)
    (base record_size len : Nat) : Bool :=
  decide (record_size * len < 4294967296) && c.check_range base (record_size * len)

/-! ## Offsets and unsized arrays

`this+offsetField` in the C++ code dereferences an `OffsetTo<>`: a zero offset
designates the static null object, every other offset the address `base + offset`.
A possibly-null object pointer is an `Option Nat`; `none` is the null object, which
lives in static storage outside every blob and reads as zero bytes. -/

/-- Modelled from the spec: `operator +` of a base pointer and an `OffsetTo<>`
(`hb-open-type-private.hh`, not among the sources): the spec's "offset from table
base", an offset of `0` meaning that the object is absent (the null object). -/
def OffsetTo.deref (base offset : Nat) : Option Nat :=
  if offset = 0 then none else some (base + offset)

/-- Modelled from the spec: `UnsizedArrayOf<Type>::sanitize (c, count)`: the `count`
elements of `static_size` bytes each must be a range inside the blob ("every offset
field inside resolves to a range still within the blob").  The null object is not
inside the blob. -/
def UnsizedArrayOf.sanitize (c : hb_sanitize_context_t) (arrayZ : Option Nat)
    (static_size count : Nat) : Bool :=
  match arrayZ with
  | none => false
  | some p => c.check_array p static_size count

/-- Address of element `i` of an unsized array of `static_size`-byte elements
(`none` for the null object). -/
def UnsizedArrayOf.addr (arrayZ : Option Nat) (static_size i : Nat) : Option Nat :=
  arrayZ.map fun p => p + static_size * i

/-- `UnsizedArrayOf<HBUINT16>::operator []`: element `i`, read without any bounds
check; the null object reads as zero. -/
def UnsizedArrayOf.getU16 (mem : Memory) (arrayZ : Option Nat) (i : Nat) : Nat :=
  match UnsizedArrayOf.addr arrayZ HBUINT16.static_size i with
  | none => 0
  | some a => HBUINT16.get mem a

/-- `UnsizedArrayOf<HBUINT32>::operator []`: element `i`, read without any bounds
check; the null object reads as zero. -/
def UnsizedArrayOf.getU32 (mem : Memory) (arrayZ : Option Nat) (i : Nat) : Nat :=
  match UnsizedArrayOf.addr arrayZ HBUINT32.static_size i with
  | none => 0
  | some a => HBUINT32.get mem a

/-! ## CPALV1Tail -/

namespace CPALV1Tail

/-- `DEFINE_SIZE_STATIC (12)`. -/
def min_size : Nat := 12

/-- Field `paletteFlagsZ` (offset 0 of the tail). -/
def paletteFlagsZ (mem : Memory) (tail : Nat) : Nat := HBUINT32.get mem tail

/-- Field `paletteLabelZ` (offset 4 of the tail). -/
def paletteLabelZ (mem : Memory) (tail : Nat) : Nat := HBUINT32.get mem (tail + 4)

/-- Field `paletteEntryLabelZ` (offset 8 of the tail). -/
def paletteEntryLabelZ (mem : Memory) (tail : Nat) : Nat := HBUINT32.get mem (tail + 8)

/-- `CPALV1Tail::sanitize (c, base, palettes)`. -/
def sanitize (c : hb_sanitize_context_t) (mem : Memory) (tail base palettes : Nat) : Bool :=
  c.check_struct tail min_size &&
  UnsizedArrayOf.sanitize c (OffsetTo.deref base (paletteFlagsZ mem tail))
    HBUINT32.static_size palettes &&
  UnsizedArrayOf.sanitize c (OffsetTo.deref base (paletteLabelZ mem tail))
    HBUINT16.static_size palettes &&
  UnsizedArrayOf.sanitize c (OffsetTo.deref base (paletteEntryLabelZ mem tail))
    HBUINT16.static_size palettes

/-- `CPALV1Tail::get_palette_name_id (base, palette)`. -/
def get_palette_name_id (mem : Memory) (tail base palette : Nat) : Nat :=
  UnsizedArrayOf.getU16 mem (OffsetTo.deref base (paletteLabelZ mem tail)) palette

end CPALV1Tail

/-! ## CPAL -/

namespace CPAL

/-- `DEFINE_SIZE_ARRAY (12, colorRecordIndicesZ)`. -/
def min_size : Nat := 12

/-- Field `version`. -/
def version (mem : Memory) (this : Nat) : Nat := HBUINT16.get mem this

/-- Field `numPaletteEntries`. -/
def numPaletteEntries (mem : Memory) (this : Nat) : Nat := HBUINT16.get mem (this + 2)

/-- Field `numPalettes`. -/
def numPalettes (mem : Memory) (this : Nat) : Nat := HBUINT16.get mem (this + 4)

/-- Field `numColorRecords`. -/
def numColorRecords (mem : Memory) (this : Nat) : Nat := HBUINT16.get mem (this + 6)

/-- Field `colorRecordsZ`. -/
def colorRecordsZ (mem : Memory) (this : Nat) : Nat := HBUINT32.get mem (this + 8)

/-- Element `i` of the trailing array `colorRecordIndicesZ`, read without any
bounds check. -/
def colorRecordIndicesZ (mem : Memory) (this i : Nat) : Nat :=
  UnsizedArrayOf.getU16 mem (some (this + min_size)) i

/-- `CPAL::get_size`. -/
def get_size (mem : Memory) (this : Nat) : Nat :=
  min_size + numPalettes mem this * HBUINT16.static_size

/-- `this+colorRecordsZ`: the color-record array. -/
def color_records (mem : Memory) (this : Nat) : Option Nat :=
  OffsetTo.deref this (colorRecordsZ mem this)

/-- `CPAL::sanitize`. -/
def sanitize (c : hb_sanitize_context_t) (mem : Memory) (this : Nat) : Bool :=
  if !(c.check_struct this min_size &&
       UnsizedArrayOf.sanitize c (color_records mem this) HBUINT32.static_size
         (numColorRecords mem this)) then
    false
  else if (List.range (numPalettes mem this)).any fun i =>
      decide (colorRecordIndicesZ mem this i + numPaletteEntries mem this
                > numColorRecords mem this) then
    false
  else if version mem this = 0 then
    true
  else
    CPALV1Tail.sanitize c mem (this + get_size mem this) this (numPalettes mem this)

/-- `CPAL::get_palette_name_id`. -/
def get_palette_name_id (mem : Memory) (this palette : Nat) : Nat :=
  if version mem this = 0 ∨ palette ≥ numPalettes mem this then
    0xFFFF
  else
    CPALV1Tail.get_palette_name_id mem (this + get_size mem this) this palette

/-- `CPAL::get_color_record_argb`. -/
def get_color_record_argb (mem : Memory) (this color_index palette : Nat) : Nat :=
  if color_index ≥ numPaletteEntries mem this ∨ palette ≥ numPalettes mem this then
    0
  else
    UnsizedArrayOf.getU32 mem (color_records mem this)
      (colorRecordIndicesZ mem this palette + color_index)

/-- The copy loop of `CPAL::get_palette_colors`
(`for (i = start_offset; i < numPaletteEntries && num_results < *color_count; ++i)`),
from the state `(i, num_results, colors)`; it returns the final `num_results` and
output buffer.  The output buffer is addressed by slot number. -/
def get_palette_colors.loop (mem : Memory) (color_records : Option Nat)
    (palette_offset numPaletteEntries color_count : Nat)
    (i num_results : Nat) (colors : Nat → Nat) : Nat × (Nat → Nat) :=
  if i < numPaletteEntries ∧ num_results < color_count then
    get_palette_colors.loop mem color_records palette_offset numPaletteEntries color_count
      (i + 1) (num_results + 1)
      (Function.update colors num_results
        (UnsizedArrayOf.getU32 mem color_records (palette_offset + i)))
  else
    (num_results, colors)
termination_by numPaletteEntries - i
decreasing_by omega

/-- What a call of `CPAL::get_palette_colors` leaves behind: the returned value and
the two caller-owned objects it may write to (`none` for a null pointer). -/
structure PaletteColors where
  /-- The function's return value. -/
  ret : Nat
  /-- `*color_count` after the call. -/
  color_count : Option Nat
  /-- The buffer `colors` after the call, by slot number. -/
  colors : Option (Nat → Nat)

/-- `CPAL::get_palette_colors`. -/
def get_palette_colors (mem : Memory) (this palette start_offset : Nat)
    (color_count : Option Nat) (colors : Option (Nat → Nat)) : PaletteColors :=
  if palette ≥ numPalettes mem this then
    { ret := 0, color_count := color_count.map fun _ => 0, colors := colors }
  else
    match color_count, colors with
    | some cnt, some buf =>
      let r := get_palette_colors.loop mem (color_records mem this)
        (colorRecordIndicesZ mem this palette) (numPaletteEntries mem this) cnt
        start_offset 0 buf
      { ret := numPaletteEntries mem this, color_count := some r.1, colors := some r.2 }
    | some _, none =>
      { ret := numPaletteEntries mem this, color_count := some 0, colors := none }
    | none, colors =>
      { ret := numPaletteEntries mem this, color_count := none, colors := colors }

end CPAL

/-! ## Paging through a palette

The enumeration pattern that the spec states for every paged query, applied to
`get_palette_colors`: call from `start_offset = 0` with a buffer of capacity `n`,
collect the copied batch, advance `start_offset` by the copied count, and stop at the
first call that copies nothing.  This is the caller's loop of the spec, not a function
of the library. -/

/-- The paging loop over `CPAL::get_palette_colors` with capacity `n`, from
`start_offset`, making at most `fuel` calls.  It returns the concatenation of the
copied batches, or `none` when `fuel` calls were not enough to reach a call that
copies nothing. -/
def CPAL.paged_palette_colors (mem : Memory) (this palette n : Nat) :
    Nat → Nat → (Nat → Nat) → Option (List Nat)
  | 0, _, _ => none
  | fuel + 1, start_offset, buf =>
    let r := CPAL.get_palette_colors mem this palette start_offset (some n) (some buf)
    match r.color_count, r.colors with
    | some copied, some buf' =>
      if copied = 0 then
        some []
      else
        (CPAL.paged_palette_colors mem this palette n fuel (start_offset + copied) buf').map
          fun rest => (List.range copied).map buf' ++ rest
    | _, _ => none

/-! ## dump-font.cc: how `colr_cpal_rendering` unpacks a color -/

namespace colr_cpal_rendering

/-- `int alpha = color & 0xFF;` -/
def alpha (color : Nat) : Nat := color &&& 0xFF

/-- `int r = (color >> 8) & 0xFF;` -/
def r (color : Nat) : Nat := (color >>> 8) &&& 0xFF

/-- `int g = (color >> 16) & 0xFF;` -/
def g (color : Nat) : Nat := (color >>> 16) &&& 0xFF

/-- `int b = (color >> 24) & 0xFF;` -/
def b (color : Nat) : Nat := (color >>> 24) &&& 0xFF

end colr_cpal_rendering

/-! ## A concrete table used to exercise the definitions -/

/-- A memory holding `bytes` from address `0` on (and zero elsewhere). -/
def memOfBytes (bytes : List Nat) : Memory := fun a => bytes.getD a 0

/-- A version-0 CPAL table of 28 bytes: 2 entries per palette, 2 palettes, 3 color
records at offset 16, palette start indices 0 and 1, and the color records
`01 02 03 04`, `05 06 07 08`, `09 0A 0B 0C`. -/
def sampleTable : List Nat :=
  [0, 0,  0, 2,  0, 2,  0, 3,  0, 0, 0, 16,  0, 0,  0, 1,
   1, 2, 3, 4,  5, 6, 7, 8,  9, 10, 11, 12]

/-- The sample table in memory at address 0. -/
def sampleMem : Memory := memOfBytes sampleTable

/-- The sanitize context of the sample blob. -/
def sampleCtx : hb_sanitize_context_t := { start := 0, end_ := 28 }

/-- A version-0 CPAL table of 18 bytes whose only palette starts at color record
65535: 2 entries per palette, 1 palette, 1 color record at offset 14. -/
def wrapTable : List Nat :=
  [0, 0,  0, 2,  0, 1,  0, 1,  0, 0, 0, 14,  255, 255,  1, 2, 3, 4]

/-- The table `wrapTable` in memory at address 0. -/
def wrapMem : Memory := memOfBytes wrapTable

/-- The sanitize context of the blob `wrapTable`. -/
def wrapCtx : hb_sanitize_context_t := { start := 0, end_ := 18 }

/-- A version-1 CPAL table of 38 bytes: 1 palette of 1 entry, 1 color record at offset
26, the tail at offset 14 with the palette flags at offset 30, the palette labels at
offset 34 (label of palette 0: name id 257) and the entry labels at offset 36. -/
def v1Table : List Nat :=
  [0, 1,  0, 1,  0, 1,  0, 1,  0, 0, 0, 26,  0, 0,
   0, 0, 0, 30,  0, 0, 0, 34,  0, 0, 0, 36,
   1, 2, 3, 4,  0, 0, 0, 0,  1, 1,  1, 2]

/-- The table `v1Table` in memory at address 0. -/
def v1Mem : Memory := memOfBytes v1Table

/-- The sanitize context of the blob `v1Table`. -/
def v1Ctx : hb_sanitize_context_t := { start := 0, end_ := 38 }

/-- The table `v1Table` without a palette flags array: the same 38 bytes except that
the `paletteFlagsZ` offset of the tail is 0 ("Set to 0 if no array is provided"). -/
def v1NoFlagsTable : List Nat :=
  [0, 1,  0, 1,  0, 1,  0, 1,  0, 0, 0, 26,  0, 0,
   0, 0, 0, 0,  0, 0, 0, 34,  0, 0, 0, 36,
   1, 2, 3, 4,  0, 0, 0, 0,  1, 1,  1, 2]

/-- The table `v1NoFlagsTable` in memory at address 0. -/
def v1NoFlagsMem : Memory := memOfBytes v1NoFlagsTable

/-- A blob of 12 bytes that holds a version-0 CPAL header and nothing else: 0 entries
per palette, 1 palette, 0 color records, `colorRecordsZ` = 12. -/
def headerOnlyTable : List Nat :=
  [0, 0,  0, 0,  0, 1,  0, 0,  0, 0, 0, 12]

/-- The 12-byte blob in memory at address 0. -/
def headerOnlyMem : Memory := memOfBytes headerOnlyTable

/-- The sanitize context of the 12-byte blob. -/
def headerOnlyCtx : hb_sanitize_context_t := { start := 0, end_ := 12 }

/-- A blob of 12 zero bytes: a version-0 CPAL header with no palette, no color record
and `colorRecordsZ` = 0. -/
def zeroHeaderTable : List Nat :=
  [0, 0,  0, 0,  0, 0,  0, 0,  0, 0, 0, 0]

/-- The 12 zero bytes in memory at address 0. -/
def zeroHeaderMem : Memory := memOfBytes zeroHeaderTable

/-- Modelled from the spec: `Null (OT::CPAL)`, the table that stands in for a CPAL table
that failed validation ("the table is rejected entirely at validation (treated as
empty: `paletteCount() == 0`)"): zero bytes, here a memory of zeros read at address
0. -/
def CPAL.Null : Memory := fun _ => 0

end OT

/-! # hb-ot-layout.cc: the layout query engine

The functions of `src/hb-ot-layout.cc` query the GSUB and GPOS tables through the
table views of `hb-ot-layout-common.hh` and `hb-ot-layout-gsubgpos.hh`, headers that
are not among the sources.  The views are modelled from the data model of the spec
(section 3): a table is the ordered list of its tagged scripts and the ordered ("flat")
list of its tagged features; a script is an optional default language system and an
ordered list of tagged language systems; a language system is a required-feature index
and an ordered list of feature indices.

An output parameter `unsigned int *p` is an `Option Nat`: `none` is the null pointer,
`some v` a pointer to a cell holding `v`; a function returns the state of the cell
after the call. -/

/-- `hb_tag_t`: a 4-byte tag, as the 32-bit number of its bytes. -/
abbrev hb_tag_t := Nat

/-- Modelled from the spec: the macro `HB_TAG` of `hb-common.h` (not among the
sources), the spec's "4-byte code": the four characters, the first one in the most
significant byte. -/
def HB_TAG (c1 c2 c3 c4 : Char) : hb_tag_t :=
  (c1.toNat % 256) * 16777216 + (c2.toNat % 256) * 65536 + (c3.toNat % 256) * 256
    + c4.toNat % 256

/-- Modelled from the spec: `HB_TAG_NONE` of `hb-common.h`, the all-zero tag. -/
def HB_TAG_NONE : hb_tag_t := 0

/-- Modelled from the spec: `HB_OT_TAG_DEFAULT_SCRIPT` of `hb-ot-layout.h` (not among
the sources): the well-known default tag, `DFLT` ("try finding 'DFLT'" in
`hb_ot_layout_table_find_script`). -/
def HB_OT_TAG_DEFAULT_SCRIPT : hb_tag_t := HB_TAG 'D' 'F' 'L' 'T'

/-- Modelled from the spec: `HB_OT_TAG_DEFAULT_LANGUAGE` of `hb-ot-layout.h` (not among
the sources): the lowercase variant `dflt` ("try with 'dflt'" in
`hb_ot_layout_table_find_script`, "try finding 'dflt'" in
`hb_ot_layout_script_select_language`). -/
def HB_OT_TAG_DEFAULT_LANGUAGE : hb_tag_t := HB_TAG 'd' 'f' 'l' 't'

/-- `#define HB_OT_TAG_LATIN_SCRIPT HB_TAG ('l', 'a', 't', 'n')`. -/
def HB_OT_TAG_LATIN_SCRIPT : hb_tag_t := HB_TAG 'l' 'a' 't' 'n'

/-- Modelled from the spec: `HB_OT_TAG_GSUB` of `hb-ot-layout.h` (not among the
sources), the tag of the glyph substitution table. -/
def HB_OT_TAG_GSUB : hb_tag_t := HB_TAG 'G' 'S' 'U' 'B'

/-- Modelled from the spec: `HB_OT_TAG_GPOS` of `hb-ot-layout.h` (not among the
sources), the tag of the glyph positioning table. -/
def HB_OT_TAG_GPOS : hb_tag_t := HB_TAG 'G' 'P' 'O' 'S'

/-- Modelled from the spec: `HB_OT_LAYOUT_NO_SCRIPT_INDEX` of `hb-ot-layout.h`, the
"reserved sentinel index" `0xFFFF`. -/
def HB_OT_LAYOUT_NO_SCRIPT_INDEX : Nat := 0xFFFF

/-- Modelled from the spec: `HB_OT_LAYOUT_NO_FEATURE_INDEX` of `hb-ot-layout.h`, the
"reserved sentinel index" `0xFFFF`. -/
def HB_OT_LAYOUT_NO_FEATURE_INDEX : Nat := 0xFFFF

/-- Modelled from the spec: `HB_OT_LAYOUT_DEFAULT_LANGUAGE_INDEX` of `hb-ot-layout.h`,
the "reserved sentinel index" `0xFFFF`. -/
def HB_OT_LAYOUT_DEFAULT_LANGUAGE_INDEX : Nat := 0xFFFF

/-- The statement `if (p) *p = v;` on an output parameter. -/
def store {α : Type} (p : Option α) (v : α) : Option α := p.map fun _ => v

namespace OT

/-- Modelled from the spec: `Index::NOT_FOUND_INDEX` of `hb-ot-layout-common.hh`; the
`static_assert`s of `hb-ot-layout.cc` equate it with the three sentinels above. -/
def Index.NOT_FOUND_INDEX : Nat := 0xFFFF

/-- Modelled from the spec: the view `LangSys` of `hb-ot-layout-common.hh`: an
"optional required-feature index + ordered sequence of feature indices (indices into
the owning table's flat feature list)". -/
structure LangSys where
  /-- The required feature index, `0xFFFF` when there is none. -/
  reqFeatureIndex : Nat
  /-- The feature indices, in table order. -/
  featureIndex : List Nat
  deriving DecidableEq, Repr

/-- Modelled from the spec: the view `Script` of `hb-ot-layout-common.hh`: an "ordered
sequence of (tag, LanguageSystem) entries + optional default LanguageSystem". -/
structure Script where
  /-- The default language system, when the script has one. -/
  defaultLangSys : Option LangSys
  /-- The tagged language systems, in table order. -/
  langSys : List (hb_tag_t × LangSys)
  deriving DecidableEq, Repr

/-- Modelled from the spec: the view `FeatureParamsSize` of `hb-ot-layout-common.hh`,
with the five fields that `hb_ot_layout_get_size_params` reads. -/
structure FeatureParamsSize where
  /-- Field `designSize`. -/
  designSize : Nat
  /-- Field `subfamilyID`. -/
  subfamilyID : Nat
  /-- Field `subfamilyNameID`. -/
  subfamilyNameID : Nat
  /-- Field `rangeStart`. -/
  rangeStart : Nat
  /-- Field `rangeEnd`. -/
  rangeEnd : Nat
  deriving DecidableEq, Repr

/-- Modelled from the spec: the view `FeatureParamsStylisticSet` of
`hb-ot-layout-common.hh` ("stylistic-set name id"), with the field that
`hb_ot_layout_feature_get_name_ids` reads. -/
structure FeatureParamsStylisticSet where
  /-- Field `uiNameID`. -/
  uiNameID : Nat
  deriving DecidableEq, Repr

/-- Modelled from the spec: the view `FeatureParamsCharacterVariants` of
`hb-ot-layout-common.hh` ("character-variant metadata with a list of Unicode
codepoints"), with the fields that `hb-ot-layout.cc` reads. -/
structure FeatureParamsCharacterVariants where
  /-- Field `featUILableNameID`. -/
  featUILableNameID : Nat
  /-- Field `featUITooltipTextNameID`. -/
  featUITooltipTextNameID : Nat
  /-- Field `sampleTextNameID`. -/
  sampleTextNameID : Nat
  /-- Field `numNamedParameters`. -/
  numNamedParameters : Nat
  /-- Field `firstParamUILabelNameID`. -/
  firstParamUILabelNameID : Nat
  /-- Field `characters`: the listed Unicode codepoints (`characters.len` is the length
  of the list). -/
  characters : List Nat
  deriving DecidableEq, Repr

/-- Modelled from the spec: the view `FeatureParams` of `hb-ot-layout-common.hh`: the
"opaque parameter blob" of a feature, a union that can be read as size parameters, as
stylistic-set parameters or as character-variant parameters. -/
structure FeatureParams where
  /-- The blob read as size parameters. -/
  size : FeatureParamsSize
  /-- The blob read as stylistic-set parameters. -/
  stylisticSet : FeatureParamsStylisticSet
  /-- The blob read as character-variant parameters. -/
  characterVariants : FeatureParamsCharacterVariants
  deriving DecidableEq, Repr

/-- Modelled from the spec: the view `Feature` of `hb-ot-layout-common.hh`: an "ordered
sequence of lookup indices (indices into the owning table's flat lookup list)", which
"may carry type-specific parameters". -/
structure Feature where
  /-- The lookup indices, in table order. -/
  lookupIndex : List Nat
  /-- The feature parameters, `none` when the feature has none (a zero offset, that is
  `Null (OT::FeatureParams)`). -/
  featureParams : Option FeatureParams := none
  deriving DecidableEq, Repr

/-- Modelled from the spec: the view `GSUBGPOS` of `hb-ot-layout-gsubgpos.hh`: the
tagged scripts and the flat list of tagged features of a GSUB or GPOS table. -/
structure GSUBGPOS where
  /-- The scripts with their tags, in table order. -/
  scriptList : List (hb_tag_t × Script)
  /-- The features with their tags, in table order. -/
  featureList : List (hb_tag_t × Feature)
  /-- The number of lookups in the flat lookup list. -/
  lookupCount : Nat := 0
  deriving DecidableEq, Repr

/-- Modelled from the spec: `Null(OT::LangSys)`, the "empty/absent" language system:
no required feature and no feature. -/
def LangSys.Null : LangSys := { reqFeatureIndex := 0xFFFF, featureIndex := [] }

/-- Modelled from the spec: `Null(OT::Script)`, the "empty/absent" script. -/
def Script.Null : Script := { defaultLangSys := none, langSys := [] }

/-- Modelled from the spec: `Null(OT::GSUBGPOS)`, the canonical "empty" table that the
caller substitutes for a table that is absent or failed validation: no script and no
feature. -/
def GSUBGPOS.Null : GSUBGPOS := { scriptList := [], featureList := [] }

/-- What a tag lookup leaves behind: the boolean returned and the index cell. -/
structure Found where
  /-- The function's return value. -/
  ret : Bool
  /-- The output index after the call (`none` for a null pointer). -/
  index : Option Nat
  deriving DecidableEq, Repr

/-- The position of the first record of `records` tagged `tag` ("tags within a table
are looked up by exact 4-byte match; case-sensitive"). -/
def RecordArrayOf.search {α : Type} : List (hb_tag_t × α) → hb_tag_t → Option Nat
  | [], _ => none
  | r :: rs, tag =>
    if r.1 = tag then some 0 else (RecordArrayOf.search rs tag).map fun i => i + 1

/-- Modelled from the spec: `RecordArrayOf<Type>::find_index (tag, index)` of
`hb-ot-layout-common.hh`: on an exact match it stores the position of the record and
returns true, otherwise it stores `Index::NOT_FOUND_INDEX` and returns false. -/
def RecordArrayOf.find_index {α : Type} (records : List (hb_tag_t × α)) (tag : hb_tag_t)
    (index : Option Nat) : Found :=
  match RecordArrayOf.search records tag with
  | some i => { ret := true, index := store index i }
  | none => { ret := false, index := store index Index.NOT_FOUND_INDEX }

/-- What a paged tag enumeration leaves behind. -/
structure PagedTags where
  /-- The function's return value: the total number of records. -/
  ret : Nat
  /-- The in/out count after the call (`none` for a null pointer). -/
  count : Option Nat
  /-- The output buffer after the call, by slot number (`none` for a null pointer). -/
  tags : Option (Nat → hb_tag_t)

/-- Modelled from the spec: `RecordArrayOf<Type>::get_tags` of
`hb-ot-layout-common.hh`, the "paged enumeration pattern": it "takes a start offset and
an in/out capacity; it always reports the true total count available (even if larger
than the buffer), and copies only as many as fit". -/
def RecordArrayOf.get_tags {α : Type} (records : List (hb_tag_t × α)) (start_offset : Nat)
    (record_count : Option Nat) (record_tags : Option (Nat → hb_tag_t)) : PagedTags :=
  match record_count with
  | none => { ret := records.length, count := none, tags := record_tags }
  | some capacity =>
    let count := min (records.length - start_offset) capacity
    { ret := records.length
      count := some count
      tags := record_tags.map fun buf k =>
        if k < count then ((records.map Prod.fst).getD (start_offset + k) HB_TAG_NONE)
        else buf k }

/-- Modelled from the spec: `GSUBGPOS::find_script_index`. -/
def GSUBGPOS.find_script_index (g : GSUBGPOS) (tag : hb_tag_t) (index : Option Nat) : Found :=
  RecordArrayOf.find_index g.scriptList tag index

/-- Modelled from the spec: `GSUBGPOS::get_script`; an index out of range gives the
null script. -/
def GSUBGPOS.get_script (g : GSUBGPOS) (i : Nat) : Script :=
  ((g.scriptList.map Prod.snd).get? i).getD Script.Null

/-- Modelled from the spec: `GSUBGPOS::get_script_tags`. -/
def GSUBGPOS.get_script_tags (g : GSUBGPOS) (start_offset : Nat)
    (script_count : Option Nat) (script_tags : Option (Nat → hb_tag_t)) : PagedTags :=
  RecordArrayOf.get_tags g.scriptList start_offset script_count script_tags

/-- Modelled from the spec: `GSUBGPOS::get_feature_count`. -/
def GSUBGPOS.get_feature_count (g : GSUBGPOS) : Nat := g.featureList.length

/-- Modelled from the spec: `GSUBGPOS::get_feature_tag`; the not-found index and an
index out of range give the zero tag ("returns a sentinel not found/zero value"). -/
def GSUBGPOS.get_feature_tag (g : GSUBGPOS) (i : Nat) : hb_tag_t :=
  if i = Index.NOT_FOUND_INDEX then HB_TAG_NONE
  else (g.featureList.map Prod.fst).getD i HB_TAG_NONE

/-- Modelled from the spec: `GSUBGPOS::get_feature_tags`. -/
def GSUBGPOS.get_feature_tags (g : GSUBGPOS) (start_offset : Nat)
    (feature_count : Option Nat) (feature_tags : Option (Nat → hb_tag_t)) : PagedTags :=
  RecordArrayOf.get_tags g.featureList start_offset feature_count feature_tags

/-- Modelled from the spec: `Script::find_lang_sys_index`. -/
def Script.find_lang_sys_index (s : Script) (tag : hb_tag_t) (index : Option Nat) : Found :=
  RecordArrayOf.find_index s.langSys tag index

/-- Modelled from the spec: `Script::get_lang_sys`: the default language system for the
index `NOT_FOUND_INDEX`, the null language system for an absent one. -/
def Script.get_lang_sys (s : Script) (i : Nat) : LangSys :=
  if i = Index.NOT_FOUND_INDEX then s.defaultLangSys.getD LangSys.Null
  else ((s.langSys.map Prod.snd).get? i).getD LangSys.Null

/-- Modelled from the spec: `LangSys::get_feature_count`. -/
def LangSys.get_feature_count (l : LangSys) : Nat := l.featureIndex.length

/-- Modelled from the spec: `LangSys::get_feature_index`. -/
def LangSys.get_feature_index (l : LangSys) (i : Nat) : Nat :=
  l.featureIndex.getD i Index.NOT_FOUND_INDEX

/-- Modelled from the spec: `Null (OT::Feature)`, the "empty/absent" feature. -/
def Feature.Null : Feature := { lookupIndex := [], featureParams := none }

/-- Modelled from the spec: `Null (OT::FeatureParamsCharacterVariants)`, the
"empty/absent" character-variant parameters: zero fields and no character. -/
def FeatureParamsCharacterVariants.Null : FeatureParamsCharacterVariants :=
  { featUILableNameID := 0, featUITooltipTextNameID := 0, sampleTextNameID := 0,
    numNamedParameters := 0, firstParamUILabelNameID := 0, characters := [] }

/-- Modelled from the spec: `GSUBGPOS::get_feature`; an index out of range gives the
null feature. -/
def GSUBGPOS.get_feature (g : GSUBGPOS) (i : Nat) : Feature :=
  ((g.featureList.map Prod.snd).get? i).getD Feature.Null

/-- Modelled from the spec: `GSUBGPOS::get_lookup_count`. -/
def GSUBGPOS.get_lookup_count (g : GSUBGPOS) : Nat := g.lookupCount

/-- Modelled from the spec: `Feature::get_feature_params`; `none` is
`Null (OT::FeatureParams)`. -/
def Feature.get_feature_params (f : Feature) : Option FeatureParams := f.featureParams

/-- Modelled from the spec: `FeatureParams::get_stylistic_set_params (tag)`: the blob
is interpreted "according to its tag prefix": the stylistic-set view when the two
leading bytes of the tag are `ss`, the null object (`none`) otherwise. -/
def FeatureParams.get_stylistic_set_params (fp : FeatureParams) (tag : hb_tag_t) :
    Option FeatureParamsStylisticSet :=
  if tag / 65536 = HB_TAG 's' 's' (Char.ofNat 0) (Char.ofNat 0) / 65536 then
    some fp.stylisticSet
  else none

/-- Modelled from the spec: `FeatureParams::get_character_variants_params (tag)`: the
character-variant view when the two leading bytes of the tag are `cv`, the null object
(`none`) otherwise. -/
def FeatureParams.get_character_variants_params (fp : FeatureParams) (tag : hb_tag_t) :
    Option FeatureParamsCharacterVariants :=
  if tag / 65536 = HB_TAG 'c' 'v' (Char.ofNat 0) (Char.ofNat 0) / 65536 then
    some fp.characterVariants
  else none

/-- Modelled from the spec: the accelerator of a GSUB / GPOS table
(`hb-ot-layout-gsubgpos.hh`): the table view and its cached lookup count. -/
structure GSUBGPOS.accelerator_t where
  /-- The table view. -/
  table : GSUBGPOS
  /-- The number of lookups of the table. -/
  lookup_count : Nat
  deriving DecidableEq, Repr

end OT

/-- Modelled from the spec: the per-face layout data of `hb-ot-face.hh` (not among the
sources), as far as `hb-ot-layout.cc` reads it. -/
structure hb_ot_face_data_t where
  /-- The GSUB accelerator. -/
  GSUB : OT.GSUBGPOS.accelerator_t
  /-- The GPOS accelerator. -/
  GPOS : OT.GSUBGPOS.accelerator_t
  deriving DecidableEq, Repr

/-- Modelled from the spec: a font face, as far as `hb-ot-layout.cc` reads it:
`hb_ot_shaper_face_data_ensure (face)` succeeds exactly when the layout data is
there, and `hb_ot_face_data (face)` is that data. -/
structure hb_face_t where
  /-- The layout data, `none` when `hb_ot_shaper_face_data_ensure` fails. -/
  shaper_data : Option hb_ot_face_data_t
  deriving DecidableEq, Repr

/-- `_get_gsub`. -/
def _get_gsub (face : hb_face_t) : OT.GSUBGPOS :=
  match face.shaper_data with
  | none => OT.GSUBGPOS.Null
  | some data => data.GSUB.table

/-- `_get_gpos`. -/
def _get_gpos (face : hb_face_t) : OT.GSUBGPOS :=
  match face.shaper_data with
  | none => OT.GSUBGPOS.Null
  | some data => data.GPOS.table

/-- `get_gsubgpos_table`. -/
def get_gsubgpos_table (face : hb_face_t) (table_tag : hb_tag_t) : OT.GSUBGPOS :=
  if table_tag = HB_OT_TAG_GSUB then _get_gsub face
  else if table_tag = HB_OT_TAG_GPOS then _get_gpos face
  else OT.GSUBGPOS.Null

/-- `hb_ot_layout_table_get_script_tags`. -/
def hb_ot_layout_table_get_script_tags (face : hb_face_t) (table_tag : hb_tag_t)
    (start_offset : Nat) (script_count : Option Nat) (script_tags : Option (Nat → hb_tag_t)) :
    OT.PagedTags :=
  (get_gsubgpos_table face table_tag).get_script_tags start_offset script_count script_tags

/-- `hb_ot_layout_table_find_script`. -/
def hb_ot_layout_table_find_script (face : hb_face_t) (table_tag script_tag : hb_tag_t)
    (script_index : Option Nat) : OT.Found :=
  let g := get_gsubgpos_table face table_tag
  let r1 := g.find_script_index script_tag script_index
  if r1.ret then { ret := true, index := r1.index }
  else
    let r2 := g.find_script_index HB_OT_TAG_DEFAULT_SCRIPT r1.index
    if r2.ret then { ret := false, index := r2.index }
    else
      let r3 := g.find_script_index HB_OT_TAG_DEFAULT_LANGUAGE r2.index
      if r3.ret then { ret := false, index := r3.index }
      else
        let r4 := g.find_script_index HB_OT_TAG_LATIN_SCRIPT r3.index
        if r4.ret then { ret := false, index := r4.index }
        else { ret := false, index := store r4.index HB_OT_LAYOUT_NO_SCRIPT_INDEX }

/-- What `hb_ot_layout_table_select_script` leaves behind. -/
structure SelectedScript where
  /-- The function's return value. -/
  ret : Bool
  /-- `*script_index` after the call (`none` for a null pointer). -/
  script_index : Option Nat
  /-- `*chosen_script` after the call (`none` for a null pointer). -/
  chosen_script : Option hb_tag_t
  deriving DecidableEq, Repr

/-- The body of `hb_ot_layout_table_select_script` on the table `g`: the loop over the
`script_count` tags of `script_tags` still to try, then the fallbacks. -/
def hb_ot_layout_table_select_script.body (g : OT.GSUBGPOS) :
    List hb_tag_t → Option Nat → Option hb_tag_t → SelectedScript
  | tag :: rest, script_index, chosen_script =>
    let r := g.find_script_index tag script_index
    if r.ret then
      { ret := true, script_index := r.index, chosen_script := store chosen_script tag }
    else
      hb_ot_layout_table_select_script.body g rest r.index chosen_script
  | [], script_index, chosen_script =>
    let r2 := g.find_script_index HB_OT_TAG_DEFAULT_SCRIPT script_index
    if r2.ret then
      { ret := false, script_index := r2.index,
        chosen_script := store chosen_script HB_OT_TAG_DEFAULT_SCRIPT }
    else
      let r3 := g.find_script_index HB_OT_TAG_DEFAULT_LANGUAGE r2.index
      if r3.ret then
        { ret := false, script_index := r3.index,
          chosen_script := store chosen_script HB_OT_TAG_DEFAULT_LANGUAGE }
      else
        let r4 := g.find_script_index HB_OT_TAG_LATIN_SCRIPT r3.index
        if r4.ret then
          { ret := false, script_index := r4.index,
            chosen_script := store chosen_script HB_OT_TAG_LATIN_SCRIPT }
        else
          { ret := false, script_index := store r4.index HB_OT_LAYOUT_NO_SCRIPT_INDEX,
            chosen_script := store chosen_script HB_OT_LAYOUT_NO_SCRIPT_INDEX }

/-- `hb_ot_layout_table_select_script`; the array `script_tags` of `script_count` tags is
the list `script_tags`. -/
def hb_ot_layout_table_select_script (face : hb_face_t) (table_tag : hb_tag_t)
    (script_tags : List hb_tag_t) (script_index : Option Nat)
    (chosen_script : Option hb_tag_t) : SelectedScript :=
  hb_ot_layout_table_select_script.body (get_gsubgpos_table face table_tag)
    script_tags script_index chosen_script

/-- `hb_ot_layout_table_get_feature_tags`. -/
def hb_ot_layout_table_get_feature_tags (face : hb_face_t) (table_tag : hb_tag_t)
    (start_offset : Nat) (feature_count : Option Nat)
    (feature_tags : Option (Nat → hb_tag_t)) : OT.PagedTags :=
  (get_gsubgpos_table face table_tag).get_feature_tags start_offset feature_count feature_tags

/-- The loop of `hb_ot_layout_table_find_feature` from index `i` with `remaining`
iterations to go: the first `i` whose feature tag is `feature_tag`. -/
def hb_ot_layout_table_find_feature.loop (g : OT.GSUBGPOS) (feature_tag : hb_tag_t) :
    Nat → Nat → Option Nat
  | _, 0 => none
  | i, remaining + 1 =>
    if feature_tag = g.get_feature_tag i then some i
    else hb_ot_layout_table_find_feature.loop g feature_tag (i + 1) remaining

/-- `hb_ot_layout_table_find_feature`. -/
def hb_ot_layout_table_find_feature (face : hb_face_t) (table_tag feature_tag : hb_tag_t)
    (feature_index : Option Nat) : OT.Found :=
  let g := get_gsubgpos_table face table_tag
  let num_features := g.get_feature_count
  match hb_ot_layout_table_find_feature.loop g feature_tag 0 num_features with
  | some i => { ret := true, index := store feature_index i }
  | none => { ret := false, index := store feature_index HB_OT_LAYOUT_NO_FEATURE_INDEX }

/-- The body of `hb_ot_layout_script_select_language` on the script `s`: the loop over
the `language_count` tags of `language_tags` still to try, then the fallback. -/
def hb_ot_layout_script_select_language.body (s : OT.Script) :
    List hb_tag_t → Option Nat → OT.Found
  | tag :: rest, language_index =>
    let r := s.find_lang_sys_index tag language_index
    if r.ret then { ret := true, index := r.index }
    else hb_ot_layout_script_select_language.body s rest r.index
  | [], language_index =>
    let r := s.find_lang_sys_index HB_OT_TAG_DEFAULT_LANGUAGE language_index
    if r.ret then { ret := false, index := r.index }
    else { ret := false, index := store r.index HB_OT_LAYOUT_DEFAULT_LANGUAGE_INDEX }

/-- `hb_ot_layout_script_select_language`; the array `language_tags` of `language_count`
tags is the list `language_tags`. -/
def hb_ot_layout_script_select_language (face : hb_face_t) (table_tag : hb_tag_t)
    (script_index : Nat) (language_tags : List hb_tag_t) (language_index : Option Nat) :
    OT.Found :=
  hb_ot_layout_script_select_language.body
    ((get_gsubgpos_table face table_tag).get_script script_index) language_tags language_index

/-- `hb_ot_layout_script_find_language`. -/
def hb_ot_layout_script_find_language (face : hb_face_t) (table_tag : hb_tag_t)
    (script_index : Nat) (language_tag : hb_tag_t) (language_index : Option Nat) : OT.Found :=
  hb_ot_layout_script_select_language face table_tag script_index [language_tag]
    language_index

/-- The loop of `hb_ot_layout_language_find_feature` from position `i` with `remaining`
iterations to go: the feature index stored at the first position whose feature has
the tag `feature_tag`. -/
def hb_ot_layout_language_find_feature.loop (g : OT.GSUBGPOS) (l : OT.LangSys)
    (feature_tag : hb_tag_t) : Nat → Nat → Option Nat
  | _, 0 => none
  | i, remaining + 1 =>
    let f_index := l.get_feature_index i
    if feature_tag = g.get_feature_tag f_index then some f_index
    else hb_ot_layout_language_find_feature.loop g l feature_tag (i + 1) remaining

/-- `hb_ot_layout_language_find_feature`. -/
def hb_ot_layout_language_find_feature (face : hb_face_t) (table_tag : hb_tag_t)
    (script_index language_index : Nat) (feature_tag : hb_tag_t)
    (feature_index : Option Nat) : OT.Found :=
  let g := get_gsubgpos_table face table_tag
  let l := (g.get_script script_index).get_lang_sys language_index
  let num_features := l.get_feature_count
  match hb_ot_layout_language_find_feature.loop g l feature_tag 0 num_features with
  | some f_index => { ret := true, index := store feature_index f_index }
  | none => { ret := false, index := store feature_index HB_OT_LAYOUT_NO_FEATURE_INDEX }

/-- `hb_ot_layout_table_get_lookup_count`. -/
def hb_ot_layout_table_get_lookup_count (face : hb_face_t) (table_tag : hb_tag_t) : Nat :=
  match face.shaper_data with
  | none => 0
  | some data =>
    if table_tag = HB_OT_TAG_GSUB then data.GSUB.lookup_count
    else if table_tag = HB_OT_TAG_GPOS then data.GPOS.lookup_count
    else 0

/-! ## Feature parameters -/

/-- Modelled from the spec: `HB_NAME_ID_INVALID` of `hb-ot-name.h` (not among the
sources), the "not present" name id `0xFFFF`. -/
def HB_NAME_ID_INVALID : Nat := 0xFFFF

/-- What `hb_ot_layout_feature_get_name_ids` leaves behind: the boolean returned and the
five output cells (`none` for a null pointer). -/
structure FeatureNameIds where
  /-- The function's return value. -/
  ret : Bool
  /-- `*label_id` after the call. -/
  label_id : Option Nat
  /-- `*tooltip_id` after the call. -/
  tooltip_id : Option Nat
  /-- `*sample_id` after the call. -/
  sample_id : Option Nat
  /-- `*num_named_parameters` after the call. -/
  num_named_parameters : Option Nat
  /-- `*first_param_id` after the call. -/
  first_param_id : Option Nat
  deriving DecidableEq, Repr

/-- `hb_ot_layout_feature_get_name_ids`.  The two pointer comparisons with the null
objects are the two `match`es on `none`. -/
def hb_ot_layout_feature_get_name_ids (face : hb_face_t) (table_tag : hb_tag_t)
    (feature_index : Nat)
    (label_id tooltip_id sample_id num_named_parameters first_param_id : Option Nat) :
    FeatureNameIds :=
  let g := get_gsubgpos_table face table_tag
  let feature_tag := g.get_feature_tag feature_index
  let f := g.get_feature feature_index
  let not_found : FeatureNameIds :=
    { ret := false
      label_id := store label_id HB_NAME_ID_INVALID
      tooltip_id := store tooltip_id HB_NAME_ID_INVALID
      sample_id := store sample_id HB_NAME_ID_INVALID
      num_named_parameters := store num_named_parameters 0
      first_param_id := store first_param_id HB_NAME_ID_INVALID }
  match f.get_feature_params with
  | none => not_found
  | some feature_params =>
    match feature_params.get_stylistic_set_params feature_tag with
    | some ss_params =>
      { ret := true
        label_id := store label_id ss_params.uiNameID
        tooltip_id := store tooltip_id HB_NAME_ID_INVALID
        sample_id := store sample_id HB_NAME_ID_INVALID
        num_named_parameters := store num_named_parameters 0
        first_param_id := store first_param_id HB_NAME_ID_INVALID }
    | none =>
      match feature_params.get_character_variants_params feature_tag with
      | some cv_params =>
        { ret := true
          label_id := store label_id cv_params.featUILableNameID
          tooltip_id := store tooltip_id cv_params.featUITooltipTextNameID
          sample_id := store sample_id cv_params.sampleTextNameID
          num_named_parameters := store num_named_parameters cv_params.numNamedParameters
          first_param_id := store first_param_id cv_params.firstParamUILabelNameID }
      | none => not_found

/-- What `hb_ot_layout_feature_get_characters` leaves behind. -/
structure FeatureCharacters where
  /-- The function's return value. -/
  ret : Nat
  /-- `*char_count` after the call (`none` for a null pointer). -/
  char_count : Option Nat
  /-- The buffer `characters` after the call, by slot number (`none` for a null
  pointer). -/
  characters : Option (Nat → Nat)

/-- The copy loop of `hb_ot_layout_feature_get_characters`
(`for (i = 0; i < len; ++i) characters[i] = cv_params.characters[start_offset + i];`)
from index `i` with `remaining` iterations to go. -/
def hb_ot_layout_feature_get_characters.loop (list : List Nat) (start_offset : Nat) :
    Nat → Nat → (Nat → Nat) → (Nat → Nat)
  | _, 0, characters => characters
  | i, remaining + 1, characters =>
    hb_ot_layout_feature_get_characters.loop list start_offset (i + 1) remaining
      (Function.update characters i (list.getD (start_offset + i) 0))

/-- `hb_ot_layout_feature_get_characters`.  The character-variant parameters of a
feature without parameters, or with a tag that is not `cvXX`, are those of a null
object: an empty character list. -/
def hb_ot_layout_feature_get_characters (face : hb_face_t) (table_tag : hb_tag_t)
    (feature_index start_offset : Nat) (char_count : Option Nat)
    (characters : Option (Nat → Nat)) : FeatureCharacters :=
  let g := get_gsubgpos_table face table_tag
  let feature_tag := g.get_feature_tag feature_index
  let f := g.get_feature feature_index
  let cv_params : OT.FeatureParamsCharacterVariants :=
    match f.get_feature_params with
    | none => OT.FeatureParamsCharacterVariants.Null
    | some feature_params =>
      (feature_params.get_character_variants_params feature_tag).getD
        OT.FeatureParamsCharacterVariants.Null
  match char_count, characters with
  | some n, some buf =>
    if start_offset < cv_params.characters.length then
      let len := min (cv_params.characters.length - start_offset) n
      { ret := cv_params.characters.length
        char_count := some len
        characters := some
          (hb_ot_layout_feature_get_characters.loop cv_params.characters start_offset 0 len
            buf) }
    else
      { ret := cv_params.characters.length, char_count := some 0, characters := some buf }
  | some _, none =>
    { ret := cv_params.characters.length, char_count := some 0, characters := none }
  | none, characters =>
    { ret := cv_params.characters.length, char_count := none, characters := characters }

/-- The character list of a feature in the words of the documentation of
`hb_ot_layout_feature_get_characters`: the "characters listed by designer under feature
parameters" of a `cvXX` feature, and no character for a feature that has no parameters
or whose tag does not start with `cv`. -/
def feature_character_list (face : hb_face_t) (table_tag : hb_tag_t) (feature_index : Nat) :
    List Nat :=
  match ((get_gsubgpos_table face table_tag).get_feature feature_index).featureParams with
  | none => []
  | some feature_params =>
    if (get_gsubgpos_table face table_tag).get_feature_tag feature_index / 65536 = 0x6376 then
      feature_params.characterVariants.characters
    else []

/-- The paging loop that the documentation of `hb_ot_layout_feature_get_characters`
describes, with capacity `n`, from `start_offset`, making at most `fuel` calls: call,
collect the copied batch, and call again `n` characters further as long as the call
returned a full batch of `n`.  It returns the concatenation of the batches, or `none`
when `fuel` calls were not enough.  This is the caller's loop, not a function of the
library. -/
def paged_feature_characters (face : hb_face_t) (table_tag : hb_tag_t)
    (feature_index n : Nat) : Nat → Nat → (Nat → Nat) → Option (List Nat)
  | 0, _, _ => none
  | fuel + 1, start_offset, buf =>
    let r := hb_ot_layout_feature_get_characters face table_tag feature_index start_offset
      (some n) (some buf)
    match r.char_count, r.characters with
    | some count, some buf' =>
      if count < n then
        some ((List.range count).map buf')
      else
        (paged_feature_characters face table_tag feature_index n fuel (start_offset + count)
          buf').map fun rest => (List.range count).map buf' ++ rest
    | _, _ => none

/-! ## Glyph closure -/

/-- Modelled from the spec: `hb_set_t` of `hb-set.hh` (not among the sources), a finite
set of glyph or lookup indices; `get_population` is its cardinality and `hb_set_next`
enumerates its members in increasing order. -/
abbrev hb_set_t := Finset Nat

/-- Modelled from the spec: `hb_set_t::get_population`. -/
def hb_set_get_population (s : hb_set_t) : Nat := s.card

/-- Modelled from the spec: `hb_map_t` of `hb-map.hh` (not among the sources), as the
list of its key-value pairs. -/
abbrev hb_map_t := List (Nat × Nat)

/-- Modelled from the spec: `OT::hb_closure_context_t` of `hb-ot-layout-gsubgpos.hh`
(not among the sources): the glyph set that the closure grows and the map of the
lookups already done. -/
structure OT.hb_closure_context_t where
  /-- The glyph set `glyphs`. -/
  glyphs : hb_set_t
  /-- The map `done_lookups`. -/
  done_lookups : hb_map_t

/-- The lookup indices that one pass of `hb_ot_layout_lookups_substitute_closure`
visits, in order: the members of `lookups` in increasing order (`hb_set_next`) when a
set is given, the indices `0 .. gsub.get_lookup_count () - 1` when `lookups` is null. -/
def hb_ot_layout_lookups_substitute_closure.indices (gsub : OT.GSUBGPOS)
    (lookups : Option hb_set_t) : List Nat :=
  match lookups with
  | some lookups => lookups.sort (· ≤ ·)
  | none => List.range gsub.get_lookup_count

/-- One pass of `hb_ot_layout_lookups_substitute_closure`: the body of the `do` loop
without the counter.  `closure lookup_index c` is the effect of
`gsub.get_lookup (lookup_index).closure (&c, lookup_index)` on the context, a
parameter: the per-lookup closure operation is not among the sources. -/
def hb_ot_layout_lookups_substitute_closure.pass
    (closure : Nat → OT.hb_closure_context_t → OT.hb_closure_context_t)
    (gsub : OT.GSUBGPOS) (lookups : Option hb_set_t) (c : OT.hb_closure_context_t) :
    OT.hb_closure_context_t :=
  (hb_ot_layout_lookups_substitute_closure.indices gsub lookups).foldl
    (fun c lookup_index => closure lookup_index c) c

/-- The `do ... while` loop of `hb_ot_layout_lookups_substitute_closure` from the state
`(c, iteration_count)`; it returns the final context and the final `iteration_count`,
which is the number of passes made so far.  `HB_CLOSURE_MAX_STAGES` is a constant of a
header that is not among the sources, hence a parameter. -/
def hb_ot_layout_lookups_substitute_closure.loop (HB_CLOSURE_MAX_STAGES : Nat)
    (closure : Nat → OT.hb_closure_context_t → OT.hb_closure_context_t)
    (gsub : OT.GSUBGPOS) (lookups : Option hb_set_t)
    (c : OT.hb_closure_context_t) (iteration_count : Nat) : OT.hb_closure_context_t × Nat :=
  if iteration_count + 1 ≤ HB_CLOSURE_MAX_STAGES ∧
      hb_set_get_population c.glyphs ≠ hb_set_get_population
        (hb_ot_layout_lookups_substitute_closure.pass closure gsub lookups c).glyphs then
    hb_ot_layout_lookups_substitute_closure.loop HB_CLOSURE_MAX_STAGES closure gsub lookups
      (hb_ot_layout_lookups_substitute_closure.pass closure gsub lookups c)
      (iteration_count + 1)
  else
    (hb_ot_layout_lookups_substitute_closure.pass closure gsub lookups c, iteration_count + 1)
termination_by HB_CLOSURE_MAX_STAGES + 1 - iteration_count
decreasing_by omega

/-- `hb_ot_layout_lookups_substitute_closure`: the glyph set after the call. -/
def hb_ot_layout_lookups_substitute_closure (HB_CLOSURE_MAX_STAGES : Nat)
    (closure : Nat → OT.hb_closure_context_t → OT.hb_closure_context_t)
    (face : hb_face_t) (lookups : Option hb_set_t) (glyphs : hb_set_t) : hb_set_t :=
  (hb_ot_layout_lookups_substitute_closure.loop HB_CLOSURE_MAX_STAGES closure
    (_get_gsub face) lookups { glyphs := glyphs, done_lookups := [] } 0).1.glyphs

/-- The number of passes that `hb_ot_layout_lookups_substitute_closure` makes: the
final value of its local variable `iteration_count`. -/
def hb_ot_layout_lookups_substitute_closure.passes (HB_CLOSURE_MAX_STAGES : Nat)
    (closure : Nat → OT.hb_closure_context_t → OT.hb_closure_context_t)
    (face : hb_face_t) (lookups : Option hb_set_t) (glyphs : hb_set_t) : Nat :=
  (hb_ot_layout_lookups_substitute_closure.loop HB_CLOSURE_MAX_STAGES closure
    (_get_gsub face) lookups { glyphs := glyphs, done_lookups := [] } 0).2

/-- The closure operation of a lookup that substitutes every glyph `g` by the glyph
`g + 1` (a chain of single substitutions): it adds the successor of every glyph of the
set. -/
def chainClosure (_lookup_index : Nat) (c : OT.hb_closure_context_t) :
    OT.hb_closure_context_t :=
  { c with glyphs := c.glyphs ∪ c.glyphs.image fun g => g + 1 }

/-- A face whose GSUB table has the single lookup 0. -/
def chainFace : hb_face_t :=
  { shaper_data := some
      { GSUB := { table := { scriptList := [], featureList := [], lookupCount := 1 },
                  lookup_count := 1 }
        GPOS := { table := OT.GSUBGPOS.Null, lookup_count := 0 } } }

/-! ## The GDEF blacklist -/

/-- The macro `ENCODE(x,y,z)` of `_hb_ot_blacklist_gdef`:
`((int64_t) (x) << 32 | (int64_t) (y) << 16 | (z))`, a 64-bit value. -/
def _hb_ot_blacklist_gdef.ENCODE (x y z : Nat) : Nat :=
  ((x <<< 32) % 18446744073709551616) ||| ((y <<< 16) % 18446744073709551616) ||| z

/-- The triples `(gdef_len, gsub_len, gpos_len)` of the `case` labels of
`_hb_ot_blacklist_gdef`, in source order. -/
def _hb_ot_blacklist_gdef.table : List (Nat × Nat × Nat) :=
  [(442, 2874, 42038), (430, 2874, 40662), (442, 2874, 39116), (430, 2874, 39374),
   (490, 3046, 41638), (478, 3046, 41902), (898, 12554, 46470), (910, 12566, 47732),
   (928, 23298, 59332), (940, 23310, 60732), (964, 23836, 60072), (976, 23832, 61456),
   (994, 24474, 60336), (1006, 24470, 61740), (1006, 24576, 61346), (1018, 24572, 62828),
   (1006, 24576, 61352), (1018, 24572, 62834), (832, 7324, 47162), (844, 7302, 45474),
   (180, 13054, 7254), (192, 12638, 7254), (192, 12690, 7254), (188, 248, 3852),
   (188, 264, 3426), (1058, 47032, 11818), (1046, 47030, 12600), (1058, 71796, 16770),
   (1046, 71790, 17862), (1046, 71788, 17112), (1058, 71794, 17514),
   (1330, 109904, 57938), (1330, 109904, 58972), (1004, 59092, 14836)]

/-- `_hb_ot_blacklist_gdef`: the `switch` on `ENCODE (gdef_len, gsub_len, gpos_len)`
returns true when the value is that of one of the `case` labels. -/
def _hb_ot_blacklist_gdef (gdef_len gsub_len gpos_len : Nat) : Bool :=
  _hb_ot_blacklist_gdef.table.any fun t =>
    _hb_ot_blacklist_gdef.ENCODE gdef_len gsub_len gpos_len
      == _hb_ot_blacklist_gdef.ENCODE t.1 t.2.1 t.2.2

/-! ## Choosing a script from a zero-terminated list

A `const hb_tag_t *` that points to a zero-terminated array is the list of the words
from the pointer on; the words after the list read as zero. -/

/-- The scan `for (t = script_tags; *t; t++);` of `hb_ot_layout_table_choose_script`:
the number `t - script_tags` of tags before the first zero. -/
def hb_ot_layout_table_choose_script.count : List hb_tag_t → Nat
  | [] => 0
  | t :: rest => if t = 0 then 0 else hb_ot_layout_table_choose_script.count rest + 1

/-- `hb_ot_layout_table_choose_script`. -/
def hb_ot_layout_table_choose_script (face : hb_face_t) (table_tag : hb_tag_t)
    (script_tags : List hb_tag_t) (script_index : Option Nat)
    (chosen_script : Option hb_tag_t) : SelectedScript :=
  let script_count := hb_ot_layout_table_choose_script.count script_tags
  hb_ot_layout_table_select_script face table_tag (script_tags.take script_count)
    script_index chosen_script

/-! ## The size parameters -/

/-- Modelled from the spec: `Null (OT::FeatureParamsSize)`, the "empty/absent" size
parameters: all fields zero. -/
def OT.FeatureParamsSize.Null : OT.FeatureParamsSize :=
  { designSize := 0, subfamilyID := 0, subfamilyNameID := 0, rangeStart := 0, rangeEnd := 0 }

/-- Modelled from the spec: `FeatureParams::get_size_params (tag)` on the feature
parameters of a feature (`none` for `Null (OT::FeatureParams)`): the size view when the
tag is `size`, the null object otherwise. -/
def OT.FeatureParams.get_size_params (fp : Option OT.FeatureParams) (tag : hb_tag_t) :
    OT.FeatureParamsSize :=
  match fp with
  | none => OT.FeatureParamsSize.Null
  | some fp => if tag = HB_TAG 's' 'i' 'z' 'e' then fp.size else OT.FeatureParamsSize.Null

/-- What `hb_ot_layout_get_size_params` leaves behind: the boolean returned and the five
output cells (`none` for a null pointer). -/
structure SizeParams where
  /-- The function's return value. -/
  ret : Bool
  /-- `*design_size` after the call. -/
  design_size : Option Nat
  /-- `*subfamily_id` after the call. -/
  subfamily_id : Option Nat
  /-- `*subfamily_name_id` after the call. -/
  subfamily_name_id : Option Nat
  /-- `*range_start` after the call. -/
  range_start : Option Nat
  /-- `*range_end` after the call. -/
  range_end : Option Nat
  deriving DecidableEq, Repr

/-- The loop of `hb_ot_layout_get_size_params` from index `i` with `remaining`
iterations to go: the size parameters at which it returns true, if any. -/
def hb_ot_layout_get_size_params.loop (gpos : OT.GSUBGPOS) :
    Nat → Nat → Option OT.FeatureParamsSize
  | _, 0 => none
  | i, remaining + 1 =>
    let tag := HB_TAG 's' 'i' 'z' 'e'
    if tag = gpos.get_feature_tag i then
      let f := gpos.get_feature i
      let params := OT.FeatureParams.get_size_params f.get_feature_params tag
      if params.designSize ≠ 0 then some params
      else hb_ot_layout_get_size_params.loop gpos (i + 1) remaining
    else hb_ot_layout_get_size_params.loop gpos (i + 1) remaining

/-- `hb_ot_layout_get_size_params`. -/
def hb_ot_layout_get_size_params (face : hb_face_t)
    (design_size subfamily_id subfamily_name_id range_start range_end : Option Nat) :
    SizeParams :=
  let gpos := _get_gpos face
  let num_features := gpos.get_feature_count
  match hb_ot_layout_get_size_params.loop gpos 0 num_features with
  | some params =>
    { ret := true
      design_size := store design_size params.designSize
      subfamily_id := store subfamily_id params.subfamilyID
      subfamily_name_id := store subfamily_name_id params.subfamilyNameID
      range_start := store range_start params.rangeStart
      range_end := store range_end params.rangeEnd }
  | none =>
    { ret := false
      design_size := store design_size 0
      subfamily_id := store subfamily_id 0
      subfamily_name_id := store subfamily_name_id 0
      range_start := store range_start 0
      range_end := store range_end 0 }

/-- The size parameters that make `hb_ot_layout_get_size_params` succeed at feature
`i`, in the words of its contract: the feature is tagged `size` and its size parameters
have a nonzero `designSize`. -/
def size_feature_params (gpos : OT.GSUBGPOS) (i : Nat) : Option OT.FeatureParamsSize :=
  if gpos.get_feature_tag i = HB_TAG 's' 'i' 'z' 'e' then
    match (gpos.get_feature i).featureParams with
    | some fp => if fp.size.designSize ≠ 0 then some fp.size else none
    | none => none
  else none

/-! ## Collecting features and lookups -/

/-- Modelled from the spec: `HB_OT_LAYOUT_NO_VARIATIONS_INDEX` of `hb-ot-layout.h` (not
among the sources). -/
def HB_OT_LAYOUT_NO_VARIATIONS_INDEX : Nat := 0xFFFFFFFF

/-- What a paged index enumeration leaves behind. -/
structure PagedIndexes where
  /-- The function's return value: the total number of indices. -/
  ret : Nat
  /-- The in/out count after the call (`none` for a null pointer). -/
  count : Option Nat
  /-- The output buffer after the call, by slot number (`none` for a null pointer). -/
  indexes : Option (Nat → Nat)

/-- Modelled from the spec: `Feature::get_lookup_indexes` of `hb-ot-layout-common.hh`,
the "paged enumeration pattern" over the lookup indices of the feature: it reports the
total, and copies `min (total - start_offset, capacity)` indices from `start_offset`
on. -/
def OT.Feature.get_lookup_indexes (f : OT.Feature) (start_offset : Nat)
    (lookup_count : Option Nat) (lookup_indexes : Option (Nat → Nat)) : PagedIndexes :=
  match lookup_count with
  | none => { ret := f.lookupIndex.length, count := none, indexes := lookup_indexes }
  | some capacity =>
    let count := min (f.lookupIndex.length - start_offset) capacity
    { ret := f.lookupIndex.length
      count := some count
      indexes := lookup_indexes.map fun buf k =>
        if k < count then f.lookupIndex.getD (start_offset + k) 0 else buf k }

/-- Modelled from the spec: `GSUBGPOS::get_feature_variation (feature_index,
variations_index)`.  The tables of the model have no feature variations, so the
feature is the one of the feature list. -/
def OT.GSUBGPOS.get_feature_variation (g : OT.GSUBGPOS) (feature_index _variations_index : Nat) :
    OT.Feature :=
  g.get_feature feature_index

/-- `hb_ot_layout_feature_with_variations_get_lookups`. -/
def hb_ot_layout_feature_with_variations_get_lookups (face : hb_face_t) (table_tag : hb_tag_t)
    (feature_index variations_index start_offset : Nat) (lookup_count : Option Nat)
    (lookup_indexes : Option (Nat → Nat)) : PagedIndexes :=
  let g := get_gsubgpos_table face table_tag
  let f := g.get_feature_variation feature_index variations_index
  f.get_lookup_indexes start_offset lookup_count lookup_indexes

/-- `hb_ot_layout_feature_get_lookups`. -/
def hb_ot_layout_feature_get_lookups (face : hb_face_t) (table_tag : hb_tag_t)
    (feature_index start_offset : Nat) (lookup_count : Option Nat)
    (lookup_indexes : Option (Nat → Nat)) : PagedIndexes :=
  hb_ot_layout_feature_with_variations_get_lookups face table_tag feature_index
    HB_OT_LAYOUT_NO_VARIATIONS_INDEX start_offset lookup_count lookup_indexes

/-- Modelled from the spec: `hb_set_t::add`. -/
def hb_set_add (s : hb_set_t) (g : Nat) : hb_set_t := insert g s

/-- The inner loop `for (i = 0; i < len; i++) lookup_indexes->add (lookup_indices[i]);`
of `_hb_ot_layout_collect_lookups_lookups`. -/
def _hb_ot_layout_collect_lookups_lookups.add_all (lookup_indices : Nat → Nat) (len : Nat)
    (lookup_indexes : hb_set_t) : hb_set_t :=
  (List.range len).foldl (fun s i => hb_set_add s (lookup_indices i)) lookup_indexes

/-- The `do ... while (len == ARRAY_LENGTH (lookup_indices))` loop of
`_hb_ot_layout_collect_lookups_lookups` from the state `(offset, lookup_indices,
lookup_indexes)`, making at most `fuel` iterations; `none` when `fuel` iterations did
not reach the end of the loop.  The array has 32 slots.  The number of lookups of a
feature is a 16-bit field, so `offset` stays far below `2^32`. -/
def _hb_ot_layout_collect_lookups_lookups.loop (face : hb_face_t) (table_tag : hb_tag_t)
    (feature_index : Nat) : Nat → Nat → (Nat → Nat) → hb_set_t → Option hb_set_t
  | 0, _, _, _ => none
  | fuel + 1, offset, lookup_indices, lookup_indexes =>
    let r := hb_ot_layout_feature_get_lookups face table_tag feature_index offset
      (some 32) (some lookup_indices)
    let len := r.count.getD 32
    let lookup_indices := r.indexes.getD lookup_indices
    let lookup_indexes :=
      _hb_ot_layout_collect_lookups_lookups.add_all lookup_indices len lookup_indexes
    if len = 32 then
      _hb_ot_layout_collect_lookups_lookups.loop face table_tag feature_index fuel
        (offset + len) lookup_indices lookup_indexes
    else some lookup_indexes

/-- `_hb_ot_layout_collect_lookups_lookups`: the set `lookup_indexes` after the call,
`none` when the loop did not end within `fuel` iterations.  The local array
`lookup_indices` starts with whatever the stack holds, here zeros. -/
def _hb_ot_layout_collect_lookups_lookups (face : hb_face_t) (table_tag : hb_tag_t)
    (feature_index : Nat) (fuel : Nat) (lookup_indexes : hb_set_t) : Option hb_set_t :=
  _hb_ot_layout_collect_lookups_lookups.loop face table_tag feature_index fuel 0
    (fun _ => 0) lookup_indexes

/-- Modelled from the spec: `LangSys::has_required_feature`: the language system has an
"optional required-feature index", absent when the field is `0xFFFF`. -/
def OT.LangSys.has_required_feature (l : OT.LangSys) : Bool := l.reqFeatureIndex != 0xFFFF

/-- Modelled from the spec: `LangSys::get_required_feature_index`. -/
def OT.LangSys.get_required_feature_index (l : OT.LangSys) : Nat :=
  if l.reqFeatureIndex = 0xFFFF then OT.Index.NOT_FOUND_INDEX else l.reqFeatureIndex

/-- Modelled from the spec: `LangSys::add_feature_indexes_to`: every feature index of
the language system is added to the set. -/
def OT.LangSys.add_feature_indexes_to (l : OT.LangSys) (feature_indexes : hb_set_t) :
    hb_set_t :=
  l.featureIndex.foldl hb_set_add feature_indexes

/-- Modelled from the spec: `Script::get_lang_sys_tags`. -/
def OT.Script.get_lang_sys_tags (s : OT.Script) (start_offset : Nat)
    (language_count : Option Nat) (language_tags : Option (Nat → hb_tag_t)) : OT.PagedTags :=
  OT.RecordArrayOf.get_tags s.langSys start_offset language_count language_tags

/-- `hb_ot_layout_script_get_language_tags`. -/
def hb_ot_layout_script_get_language_tags (face : hb_face_t) (table_tag : hb_tag_t)
    (script_index start_offset : Nat) (language_count : Option Nat)
    (language_tags : Option (Nat → hb_tag_t)) : OT.PagedTags :=
  ((get_gsubgpos_table face table_tag).get_script script_index).get_lang_sys_tags
    start_offset language_count language_tags

/-- What `hb_ot_layout_language_get_required_feature` leaves behind. -/
structure RequiredFeature where
  /-- The function's return value. -/
  ret : Bool
  /-- `*feature_index` after the call (`none` for a null pointer). -/
  feature_index : Option Nat
  /-- `*feature_tag` after the call (`none` for a null pointer). -/
  feature_tag : Option hb_tag_t
  deriving DecidableEq, Repr

/-- `hb_ot_layout_language_get_required_feature`. -/
def hb_ot_layout_language_get_required_feature (face : hb_face_t) (table_tag : hb_tag_t)
    (script_index language_index : Nat) (feature_index : Option Nat)
    (feature_tag : Option hb_tag_t) : RequiredFeature :=
  let g := get_gsubgpos_table face table_tag
  let l := (g.get_script script_index).get_lang_sys language_index
  let index := l.get_required_feature_index
  { ret := l.has_required_feature
    feature_index := store feature_index index
    feature_tag := store feature_tag (g.get_feature_tag index) }

/-- `_hb_ot_layout_language_add_feature_indexes_to`. -/
def _hb_ot_layout_language_add_feature_indexes_to (face : hb_face_t) (table_tag : hb_tag_t)
    (script_index language_index : Nat) (feature_indexes : hb_set_t) : hb_set_t :=
  let g := get_gsubgpos_table face table_tag
  let l := (g.get_script script_index).get_lang_sys language_index
  l.add_feature_indexes_to feature_indexes

/-- The loop `for (; *features; features++)` of
`_hb_ot_layout_collect_features_features` over the array `features`, up to its first
zero.  The local `feature_index` is a cell holding whatever the stack holds, here 0. -/
def _hb_ot_layout_collect_features_features.loop (face : hb_face_t) (table_tag : hb_tag_t)
    (script_index language_index : Nat) : List hb_tag_t → hb_set_t → hb_set_t
  | [], feature_indexes => feature_indexes
  | tag :: features, feature_indexes =>
    if tag = 0 then feature_indexes
    else
      let r := hb_ot_layout_language_find_feature face table_tag script_index language_index
        tag (some 0)
      _hb_ot_layout_collect_features_features.loop face table_tag script_index
        language_index features
        (if r.ret then hb_set_add feature_indexes (r.index.getD 0) else feature_indexes)

/-- `_hb_ot_layout_collect_features_features`; `features` is `none` for a null pointer.
The local `required_feature_index` is a cell holding whatever the stack holds, here
0. -/
def _hb_ot_layout_collect_features_features (face : hb_face_t) (table_tag : hb_tag_t)
    (script_index language_index : Nat) (features : Option (List hb_tag_t))
    (feature_indexes : hb_set_t) : hb_set_t :=
  match features with
  | none =>
    let r := hb_ot_layout_language_get_required_feature face table_tag script_index
      language_index (some 0) none
    let feature_indexes :=
      if r.ret then hb_set_add feature_indexes (r.feature_index.getD 0) else feature_indexes
    _hb_ot_layout_language_add_feature_indexes_to face table_tag script_index language_index
      feature_indexes
  | some features =>
    _hb_ot_layout_collect_features_features.loop face table_tag script_index language_index
      features feature_indexes

/-- The loop over all languages of `_hb_ot_layout_collect_features_languages`
(`languages` null) from `language_index` with `remaining` iterations to go. -/
def _hb_ot_layout_collect_features_languages.all (face : hb_face_t) (table_tag : hb_tag_t)
    (script_index : Nat) (features : Option (List hb_tag_t)) :
    Nat → Nat → hb_set_t → hb_set_t
  | _, 0, feature_indexes => feature_indexes
  | language_index, remaining + 1, feature_indexes =>
    _hb_ot_layout_collect_features_languages.all face table_tag script_index features
      (language_index + 1) remaining
      (_hb_ot_layout_collect_features_features face table_tag script_index language_index
        features feature_indexes)

/-- The loop `for (; *languages; languages++)` of
`_hb_ot_layout_collect_features_languages` over the array `languages`, up to its first
zero. -/
def _hb_ot_layout_collect_features_languages.loop (face : hb_face_t) (table_tag : hb_tag_t)
    (script_index : Nat) (features : Option (List hb_tag_t)) :
    List hb_tag_t → hb_set_t → hb_set_t
  | [], feature_indexes => feature_indexes
  | tag :: languages, feature_indexes =>
    if tag = 0 then feature_indexes
    else
      let r := hb_ot_layout_script_select_language face table_tag script_index [tag] (some 0)
      _hb_ot_layout_collect_features_languages.loop face table_tag script_index features
        languages
        (if r.ret then
          _hb_ot_layout_collect_features_features face table_tag script_index
            (r.index.getD 0) features feature_indexes
         else feature_indexes)

/-- `_hb_ot_layout_collect_features_languages`; `languages` is `none` for a null
pointer. -/
def _hb_ot_layout_collect_features_languages (face : hb_face_t) (table_tag : hb_tag_t)
    (script_index : Nat) (languages features : Option (List hb_tag_t))
    (feature_indexes : hb_set_t) : hb_set_t :=
  let feature_indexes := _hb_ot_layout_collect_features_features face table_tag script_index
    HB_OT_LAYOUT_DEFAULT_LANGUAGE_INDEX features feature_indexes
  match languages with
  | none =>
    let count := (hb_ot_layout_script_get_language_tags face table_tag script_index 0
      none none).ret
    _hb_ot_layout_collect_features_languages.all face table_tag script_index features 0 count
      feature_indexes
  | some languages =>
    _hb_ot_layout_collect_features_languages.loop face table_tag script_index features
      languages feature_indexes

/-- The loop over all scripts of `hb_ot_layout_collect_features` (`scripts` null) from
`script_index` with `remaining` iterations to go. -/
def hb_ot_layout_collect_features.all (face : hb_face_t) (table_tag : hb_tag_t)
    (languages features : Option (List hb_tag_t)) : Nat → Nat → hb_set_t → hb_set_t
  | _, 0, feature_indexes => feature_indexes
  | script_index, remaining + 1, feature_indexes =>
    hb_ot_layout_collect_features.all face table_tag languages features (script_index + 1)
      remaining
      (_hb_ot_layout_collect_features_languages face table_tag script_index languages
        features feature_indexes)

/-- The loop `for (; *scripts; scripts++)` of `hb_ot_layout_collect_features` over the
array `scripts`, up to its first zero. -/
def hb_ot_layout_collect_features.loop (face : hb_face_t) (table_tag : hb_tag_t)
    (languages features : Option (List hb_tag_t)) : List hb_tag_t → hb_set_t → hb_set_t
  | [], feature_indexes => feature_indexes
  | tag :: scripts, feature_indexes =>
    if tag = 0 then feature_indexes
    else
      let r := hb_ot_layout_table_find_script face table_tag tag (some 0)
      hb_ot_layout_collect_features.loop face table_tag languages features scripts
        (if r.ret then
          _hb_ot_layout_collect_features_languages face table_tag (r.index.getD 0) languages
            features feature_indexes
         else feature_indexes)

/-- `hb_ot_layout_collect_features`; `scripts`, `languages` and `features` are `none`
for null pointers. -/
def hb_ot_layout_collect_features (face : hb_face_t) (table_tag : hb_tag_t)
    (scripts languages features : Option (List hb_tag_t)) (feature_indexes : hb_set_t) :
    hb_set_t :=
  match scripts with
  | none =>
    let count := (hb_ot_layout_table_get_script_tags face table_tag 0 none none).ret
    hb_ot_layout_collect_features.all face table_tag languages features 0 count
      feature_indexes
  | some scripts =>
    hb_ot_layout_collect_features.loop face table_tag languages features scripts
      feature_indexes

/-- The loop of `hb_ot_layout_collect_lookups` over the members of `feature_indexes` in
increasing order (`hb_set_next`). -/
def hb_ot_layout_collect_lookups.loop (face : hb_face_t) (table_tag : hb_tag_t)
    (fuel : Nat) : List Nat → hb_set_t → Option hb_set_t
  | [], lookup_indexes => some lookup_indexes
  | feature_index :: rest, lookup_indexes =>
    match _hb_ot_layout_collect_lookups_lookups face table_tag feature_index fuel
        lookup_indexes with
    | none => none
    | some lookup_indexes =>
      hb_ot_layout_collect_lookups.loop face table_tag fuel rest lookup_indexes

/-- `hb_ot_layout_collect_lookups`: the set `lookup_indexes` after the call, `none` when
a paging loop did not end within `fuel` iterations. -/
def hb_ot_layout_collect_lookups (face : hb_face_t) (table_tag : hb_tag_t)
    (scripts languages features : Option (List hb_tag_t)) (fuel : Nat)
    (lookup_indexes : hb_set_t) : Option hb_set_t :=
  let feature_indexes := hb_ot_layout_collect_features face table_tag scripts languages
    features ∅
  hb_ot_layout_collect_lookups.loop face table_tag fuel
    (feature_indexes.sort (fun a b => a ≤ b)) lookup_indexes

/-! ## Applying lookups to a buffer

The glyph buffer (`hb-buffer.hh`), the apply context, the lookups and their
accelerators (`hb-ot-layout-gsubgpos.hh`) are not among the sources.  They are modelled
from section 4.4 of the spec: "a glyph-sequence buffer with a current position cursor
and a secondary output accumulator".  What a lookup does when it is applied at the
cursor (`accel.apply`), its fast-reject filter (`accel.may_have`) and the
glyph-property check of the context are parameters. -/

/-- Modelled from the spec: `hb_glyph_info_t`, a glyph of the buffer with its feature
mask. -/
structure hb_glyph_info_t where
  /-- The glyph index. -/
  codepoint : Nat
  /-- The feature mask of the glyph. -/
  mask : Nat
  deriving DecidableEq, Repr

/-- Modelled from the spec: `hb_buffer_t`: the glyph sequence `info` (its length is
`len`), the cursor `idx`, the output accumulator `out_info`, whether the accumulator is
in use, and the allocation-success flag. -/
structure hb_buffer_t where
  /-- The glyph sequence. -/
  info : List hb_glyph_info_t
  /-- The cursor, an `unsigned int`. -/
  idx : Nat
  /-- The output accumulator. -/
  out_info : List hb_glyph_info_t
  /-- Whether glyphs are being accumulated in `out_info`. -/
  have_output : Bool
  /-- False after an allocation failure. -/
  successful : Bool
  deriving DecidableEq, Repr

/-- Field `len` of the buffer. -/
def hb_buffer_t.len (b : hb_buffer_t) : Nat := b.info.length

/-- Modelled from the spec: `hb_buffer_t::cur ()`, the glyph at the cursor. -/
def hb_buffer_t.cur (b : hb_buffer_t) : hb_glyph_info_t :=
  b.info.getD b.idx { codepoint := 0, mask := 0 }

/-- Modelled from the spec: `hb_buffer_t::next_glyph ()`: the glyph at the cursor goes
to the output accumulator when there is one, and the cursor advances by one. -/
def hb_buffer_t.next_glyph (b : hb_buffer_t) : hb_buffer_t :=
  { b with
    out_info := if b.have_output then b.out_info ++ [b.cur] else b.out_info
    idx := b.idx + 1 }

/-- Modelled from the spec: `hb_buffer_t::clear_output ()`: an empty output accumulator
is set up. -/
def hb_buffer_t.clear_output (b : hb_buffer_t) : hb_buffer_t :=
  { b with have_output := true, out_info := [] }

/-- Modelled from the spec: `hb_buffer_t::remove_output ()`: the output accumulator is
given up. -/
def hb_buffer_t.remove_output (b : hb_buffer_t) : hb_buffer_t :=
  { b with have_output := false, out_info := [] }

/-- Modelled from the spec: `hb_buffer_t::swap_buffers ()`: "swap the output accumulator
back into the main buffer"; the cursor returns to 0. -/
def hb_buffer_t.swap_buffers (b : hb_buffer_t) : hb_buffer_t :=
  if b.successful then
    { b with have_output := false, info := b.out_info, out_info := b.info, idx := 0 }
  else b

/-- Modelled from the spec: `hb_buffer_t::unsafe_to_break_all ()`: every glyph gets the
unsafe-to-break flag, bit 0 of its mask. -/
def hb_buffer_t.unsafe_to_break_all (b : hb_buffer_t) : hb_buffer_t :=
  { b with info := b.info.map fun g => { g with mask := g.mask ||| 1 } }

namespace OT

/-- Modelled from the spec: `OT::hb_ot_apply_context_t`, as far as `hb-ot-layout.cc`
reads and writes it. -/
structure hb_ot_apply_context_t where
  /-- The buffer `c->buffer`. -/
  buffer : hb_buffer_t
  /-- 0 for GSUB, 1 for GPOS. -/
  table_index : Nat
  /-- Set by `set_lookup_index`. -/
  lookup_index : Nat
  /-- Set by `set_lookup_mask`. -/
  lookup_mask : Nat
  /-- Set by `set_lookup_props`. -/
  lookup_props : Nat
  /-- Set by `set_auto_zwj`. -/
  auto_zwj : Bool
  /-- Set by `set_auto_zwnj`. -/
  auto_zwnj : Bool
  /-- Set by `set_random`. -/
  random : Bool
  deriving DecidableEq, Repr

/-- Modelled from the spec: the constructor
`hb_ot_apply_context_t (table_index, font, buffer)`. -/
def hb_ot_apply_context_t.init (table_index : Nat) (buffer : hb_buffer_t) :
    hb_ot_apply_context_t :=
  { buffer := buffer, table_index := table_index, lookup_index := 0xFFFFFFFF,
    lookup_mask := 1, lookup_props := 0, auto_zwj := true, auto_zwnj := true,
    random := false }

/-- Modelled from the spec: `hb_ot_apply_context_t::set_lookup_props`. -/
def hb_ot_apply_context_t.set_lookup_props (c : hb_ot_apply_context_t) (lookup_props : Nat) :
    hb_ot_apply_context_t :=
  { c with lookup_props := lookup_props }

/-- Modelled from the spec: `OT::hb_ot_layout_lookup_accelerator_t`: the fast-reject
filter of a lookup ("may this lookup ever match this glyph") and the application of the
lookup at the cursor, which reports whether it matched and leaves a new context. -/
structure hb_ot_layout_lookup_accelerator_t where
  /-- `accel.may_have (codepoint)`. -/
  may_have : Nat → Bool
  /-- `accel.apply (c)`. -/
  apply : hb_ot_apply_context_t → Bool × hb_ot_apply_context_t

/-- Modelled from the spec: a lookup (`OT::SubstLookup` or `OT::PosLookup`), as far as
`apply_string` reads it: its "property flags" and whether it is "marked reverse". -/
structure Lookup where
  /-- `lookup.get_props ()`. -/
  get_props : Nat
  /-- `lookup.is_reverse ()`. -/
  is_reverse : Bool
  deriving DecidableEq, Repr

end OT

/-- The proxies `GSUBProxy` and `GPOSProxy`: the table index, whether the table works
in place, the lookups of the table and their accelerators. -/
structure Proxy where
  /-- `Proxy::table_index`. -/
  table_index : Nat
  /-- `Proxy::inplace`. -/
  inplace : Bool
  /-- `proxy.table.get_lookup (lookup_index)`. -/
  get_lookup : Nat → OT.Lookup
  /-- `proxy.accels[lookup_index]`. -/
  accels : Nat → OT.hb_ot_layout_lookup_accelerator_t

/-- `struct GSUBProxy`: `table_index = 0`, `inplace = false`. -/
def GSUBProxy (get_lookup : Nat → OT.Lookup)
    (accels : Nat → OT.hb_ot_layout_lookup_accelerator_t) : Proxy :=
  { table_index := 0, inplace := false, get_lookup := get_lookup, accels := accels }

/-- `struct GPOSProxy`: `table_index = 1`, `inplace = true`. -/
def GPOSProxy (get_lookup : Nat → OT.Lookup)
    (accels : Nat → OT.hb_ot_layout_lookup_accelerator_t) : Proxy :=
  { table_index := 1, inplace := true, get_lookup := get_lookup, accels := accels }

/-- The three filters of `apply_forward` and `apply_backward` at the cursor:
`accel.may_have (buffer->cur().codepoint) && (buffer->cur().mask & c->lookup_mask) &&
c->check_glyph_property (&buffer->cur(), c->lookup_props)`.  The glyph-property check
is the parameter `check_glyph_property`. -/
def apply_filter (check_glyph_property : hb_glyph_info_t → Nat → Bool)
    (accel : OT.hb_ot_layout_lookup_accelerator_t) (c : OT.hb_ot_apply_context_t) : Bool :=
  accel.may_have c.buffer.cur.codepoint &&
  decide (c.buffer.cur.mask &&& c.lookup_mask ≠ 0) &&
  check_glyph_property c.buffer.cur c.lookup_props

/-- What a run of `apply_forward` or `apply_backward` leaves behind: the boolean
returned, the context, and the record `visited` of the contexts in which the loop body
was entered, in order (a record kept for the statements about the run; the code has no
such variable). -/
structure ApplyRun where
  /-- The function's return value. -/
  ret : Bool
  /-- The context after the run. -/
  c : OT.hb_ot_apply_context_t
  /-- The contexts at the start of each iteration, in order. -/
  visited : List OT.hb_ot_apply_context_t

/-- The loop of `apply_forward` from the state `(c, ret)`, making at most `fuel`
iterations; `none` when `fuel` iterations did not reach the end of the loop. -/
def apply_forward.run (check_glyph_property : hb_glyph_info_t → Nat → Bool)
    (accel : OT.hb_ot_layout_lookup_accelerator_t) :
    Nat → OT.hb_ot_apply_context_t → Bool → List OT.hb_ot_apply_context_t → Option ApplyRun
  | 0, _, _, _ => none
  | fuel + 1, c, ret, visited =>
    if c.buffer.idx < c.buffer.len ∧ c.buffer.successful = true then
      if apply_filter check_glyph_property accel c then
        let r := accel.apply c
        if r.1 then
          apply_forward.run check_glyph_property accel fuel r.2 true (visited ++ [c])
        else
          apply_forward.run check_glyph_property accel fuel
            { r.2 with buffer := r.2.buffer.next_glyph } ret (visited ++ [c])
      else
        apply_forward.run check_glyph_property accel fuel
          { c with buffer := c.buffer.next_glyph } ret (visited ++ [c])
    else
      some { ret := ret, c := c, visited := visited }

/-- One iteration of `apply_forward` as the specification words it, from the context
`v` to the context `w`: when the filters do not all hold, `accel.apply` is not
attempted and `next_glyph` advances the cursor by exactly one; when they hold and the
application fails, `next_glyph` advances the cursor by exactly one from where the
application left it; when they hold and the application succeeds, the context is the
one the application left. -/
def apply_forward.follows (check_glyph_property : hb_glyph_info_t → Nat → Bool)
    (accel : OT.hb_ot_layout_lookup_accelerator_t) (v w : OT.hb_ot_apply_context_t) : Prop :=
  (apply_filter check_glyph_property accel v = false ∧
    w = { v with buffer := v.buffer.next_glyph } ∧ w.buffer.idx = v.buffer.idx + 1) ∨
  (apply_filter check_glyph_property accel v = true ∧ (accel.apply v).1 = false ∧
    w = { (accel.apply v).2 with buffer := (accel.apply v).2.buffer.next_glyph } ∧
    w.buffer.idx = (accel.apply v).2.buffer.idx + 1) ∨
  (apply_filter check_glyph_property accel v = true ∧ (accel.apply v).1 = true ∧
    w = (accel.apply v).2)

/-- `apply_forward`. -/
def apply_forward (check_glyph_property : hb_glyph_info_t → Nat → Bool)
    (accel : OT.hb_ot_layout_lookup_accelerator_t) (fuel : Nat)
    (c : OT.hb_ot_apply_context_t) : Option (Bool × OT.hb_ot_apply_context_t) :=
  (apply_forward.run check_glyph_property accel fuel c false []).map fun r => (r.ret, r.c)

/-- The statement `buffer->idx--` on the `unsigned int` cursor. -/
def hb_buffer_t.idx_decrement (b : hb_buffer_t) : hb_buffer_t :=
  { b with idx := (b.idx + 4294967295) % 4294967296 }

/-- The `do ... while ((int) buffer->idx >= 0)` loop of `apply_backward` from the state
`(c, ret)`, making at most `fuel` iterations; `none` when `fuel` iterations did not
reach the end of the loop.  The cast `(int) buffer->idx` is non-negative exactly when
the cursor is below `2^31`. -/
def apply_backward.run (check_glyph_property : hb_glyph_info_t → Nat → Bool)
    (accel : OT.hb_ot_layout_lookup_accelerator_t) :
    Nat → OT.hb_ot_apply_context_t → Bool → List OT.hb_ot_apply_context_t → Option ApplyRun
  | 0, _, _, _ => none
  | fuel + 1, c, ret, visited =>
    let r : Bool × OT.hb_ot_apply_context_t :=
      if apply_filter check_glyph_property accel c then
        let a := accel.apply c
        (if a.1 then true else ret, a.2)
      else (ret, c)
    let c' : OT.hb_ot_apply_context_t := { r.2 with buffer := r.2.buffer.idx_decrement }
    if c'.buffer.idx < 2147483648 then
      apply_backward.run check_glyph_property accel fuel c' r.1 (visited ++ [c])
    else
      some { ret := r.1, c := c', visited := visited ++ [c] }

/-- `apply_backward`. -/
def apply_backward (check_glyph_property : hb_glyph_info_t → Nat → Bool)
    (accel : OT.hb_ot_layout_lookup_accelerator_t) (fuel : Nat)
    (c : OT.hb_ot_apply_context_t) : Option (Bool × OT.hb_ot_apply_context_t) :=
  (apply_backward.run check_glyph_property accel fuel c false []).map fun r => (r.ret, r.c)

/-- The context in which `apply_string` calls `apply_forward`: lookup props set, the
output cleared for GSUB (`table_index == 0`), the cursor at 0. -/
def apply_string.forward_start (proxy : Proxy) (c : OT.hb_ot_apply_context_t)
    (lookup : OT.Lookup) : OT.hb_ot_apply_context_t :=
  let c := c.set_lookup_props lookup.get_props
  let c := if proxy.table_index = 0 then { c with buffer := c.buffer.clear_output } else c
  { c with buffer := { c.buffer with idx := 0 } }

/-- The context in which `apply_string` calls `apply_backward`: lookup props set, the
output removed for GSUB (`table_index == 0`), the cursor at `len - 1`. -/
def apply_string.backward_start (proxy : Proxy) (c : OT.hb_ot_apply_context_t)
    (lookup : OT.Lookup) : OT.hb_ot_apply_context_t :=
  let c := c.set_lookup_props lookup.get_props
  let c := if proxy.table_index = 0 then { c with buffer := c.buffer.remove_output } else c
  { c with buffer := { c.buffer with idx := c.buffer.len - 1 } }

/-- `apply_string<Proxy>`: the context after the call, `none` when one of the two loops
did not end within `fuel` iterations.  The `assert` of the in-place branch is not
modelled. -/
def apply_string (proxy : Proxy) (check_glyph_property : hb_glyph_info_t → Nat → Bool)
    (fuel : Nat) (c : OT.hb_ot_apply_context_t) (lookup : OT.Lookup)
    (accel : OT.hb_ot_layout_lookup_accelerator_t) : Option OT.hb_ot_apply_context_t :=
  if c.buffer.len = 0 ∨ c.lookup_mask = 0 then
    some c
  else if !lookup.is_reverse then
    match apply_forward check_glyph_property accel fuel
        (apply_string.forward_start proxy c lookup) with
    | none => none
    | some (ret, c') =>
      if ret then
        if !proxy.inplace then some { c' with buffer := c'.buffer.swap_buffers }
        else some c'
      else some c'
  else
    match apply_backward check_glyph_property accel fuel
        (apply_string.backward_start proxy c lookup) with
    | none => none
    | some (_, c') => some c'

/-! ## hb_ot_map_t::apply -/

/-- Modelled from the spec: `hb_ot_map_t::lookup_map_t` (`hb-ot-map-private.hh` is not
among the sources): an entry of "the map's lookup list", the lookup index with the
settings the context gets for it. -/
structure hb_ot_map_t.lookup_map_t where
  /-- The index of the lookup in the table. -/
  index : Nat
  /-- Field `auto_zwnj`. -/
  auto_zwnj : Bool
  /-- Field `auto_zwj`. -/
  auto_zwj : Bool
  /-- Field `random`. -/
  random : Bool
  /-- The feature mask. -/
  mask : Nat
  deriving DecidableEq, Repr

/-- Modelled from the spec: `hb_ot_map_t::stage_map_t`: "each stage has a `last_lookup`
index and an optional pause callback"; the callback works on the buffer. -/
structure hb_ot_map_t.stage_map_t where
  /-- One past the last lookup of the stage. -/
  last_lookup : Nat
  /-- The pause callback, `none` for a null pointer. -/
  pause_func : Option (hb_buffer_t → hb_buffer_t)

/-- Modelled from the spec: `hb_ot_map_t`, its lookups and stages per table index. -/
structure hb_ot_map_t where
  /-- The array `lookups[2]`. -/
  lookups : Nat → List hb_ot_map_t.lookup_map_t
  /-- The array `stages[2]`. -/
  stages : Nat → List hb_ot_map_t.stage_map_t

/-- What `hb_ot_map_t::apply` does, step by step (a record kept for the statements
about the order of the steps; the code has no such variable). -/
inductive hb_ot_map_t.Event where
  /-- Entry `i` of the lookup list was reached; `applied` tells whether `apply_string`
  was called for it (it is not when `buffer->message` returns false). -/
  | entry (i : Nat) (applied : Bool)
  /-- At the end of stage `stage_index`, `buffer->clear_output ()`. -/
  | clear_output (stage_index : Nat)
  /-- At the end of stage `stage_index`, the pause callback was called. -/
  | pause (stage_index : Nat)
  deriving DecidableEq, Repr

/-- The body of the inner loop of `hb_ot_map_t::apply` for entry `i`: the context is
set up from the entry and `apply_string<Proxy>` is called, unless
`buffer->message (font, "start lookup %d", lookup_index)` returns false.  The message
callback is the parameter `message`, a test on the buffer and the lookup index; the
"end lookup" message, whose result the code drops, is not modelled. -/
def hb_ot_map_t.apply.body (proxy : Proxy)
    (check_glyph_property : hb_glyph_info_t → Nat → Bool)
    (message : hb_buffer_t → Nat → Bool) (fuel : Nat)
    (entry : hb_ot_map_t.lookup_map_t) (c : OT.hb_ot_apply_context_t) :
    Option (Bool × OT.hb_ot_apply_context_t) :=
  let lookup_index := entry.index
  if !message c.buffer lookup_index then some (false, c)
  else
    let c := { c with lookup_index := lookup_index }
    let c := { c with lookup_mask := entry.mask }
    let c := { c with auto_zwj := entry.auto_zwj }
    let c := { c with auto_zwnj := entry.auto_zwnj }
    let c := if entry.random then
        { c with random := true, buffer := c.buffer.unsafe_to_break_all }
      else c
    (apply_string proxy check_glyph_property fuel c (proxy.get_lookup lookup_index)
      (proxy.accels lookup_index)).map fun c => (true, c)

/-- The inner loop `for (; i < stage->last_lookup; i++)` of `hb_ot_map_t::apply`, with
`remaining` iterations to go from entry `i`. -/
def hb_ot_map_t.apply.lookups_loop (proxy : Proxy)
    (check_glyph_property : hb_glyph_info_t → Nat → Bool)
    (message : hb_buffer_t → Nat → Bool) (fuel : Nat)
    (lookups : List hb_ot_map_t.lookup_map_t) :
    Nat → Nat → OT.hb_ot_apply_context_t → List hb_ot_map_t.Event →
    Option (OT.hb_ot_apply_context_t × List hb_ot_map_t.Event)
  | 0, _, c, trace => some (c, trace)
  | remaining + 1, i, c, trace =>
    match hb_ot_map_t.apply.body proxy check_glyph_property message fuel
        (lookups.getD i { index := 0, auto_zwnj := false, auto_zwj := false,
                          random := false, mask := 0 }) c with
    | none => none
    | some (applied, c) =>
      hb_ot_map_t.apply.lookups_loop proxy check_glyph_property message fuel lookups
        remaining (i + 1) c (trace ++ [hb_ot_map_t.Event.entry i applied])

/-- The outer loop of `hb_ot_map_t::apply` over the stages from `stage_index` on, with
the running lookup position `i`. -/
def hb_ot_map_t.apply.stages_loop (proxy : Proxy)
    (check_glyph_property : hb_glyph_info_t → Nat → Bool)
    (message : hb_buffer_t → Nat → Bool) (fuel : Nat)
    (lookups : List hb_ot_map_t.lookup_map_t) :
    List hb_ot_map_t.stage_map_t → Nat → Nat → OT.hb_ot_apply_context_t →
    List hb_ot_map_t.Event → Option (OT.hb_ot_apply_context_t × List hb_ot_map_t.Event)
  | [], _, _, c, trace => some (c, trace)
  | stage :: rest, stage_index, i, c, trace =>
    match hb_ot_map_t.apply.lookups_loop proxy check_glyph_property message fuel lookups
        (stage.last_lookup - i) i c trace with
    | none => none
    | some (c, trace) =>
      let i := if i < stage.last_lookup then stage.last_lookup else i
      match stage.pause_func with
      | some pause_func =>
        let c := { c with buffer := c.buffer.clear_output }
        let c := { c with buffer := pause_func c.buffer }
        hb_ot_map_t.apply.stages_loop proxy check_glyph_property message fuel lookups
          rest (stage_index + 1) i c
          (trace ++ [hb_ot_map_t.Event.clear_output stage_index,
                     hb_ot_map_t.Event.pause stage_index])
      | none =>
        hb_ot_map_t.apply.stages_loop proxy check_glyph_property message fuel lookups
          rest (stage_index + 1) i c trace

/-- `hb_ot_map_t::apply` with the record of its steps: the context at the end and the
steps made, `none` when a loop of `apply_string` did not end within `fuel`
iterations. -/
def hb_ot_map_t.apply.run (map : hb_ot_map_t) (proxy : Proxy)
    (check_glyph_property : hb_glyph_info_t → Nat → Bool)
    (message : hb_buffer_t → Nat → Bool) (fuel : Nat) (buffer : hb_buffer_t) :
    Option (OT.hb_ot_apply_context_t × List hb_ot_map_t.Event) :=
  let table_index := proxy.table_index
  hb_ot_map_t.apply.stages_loop proxy check_glyph_property message fuel
    (map.lookups table_index) (map.stages table_index) 0 0
    (OT.hb_ot_apply_context_t.init table_index buffer) []

/-- `hb_ot_map_t::apply`: the buffer after the call. -/
def hb_ot_map_t.apply (map : hb_ot_map_t) (proxy : Proxy)
    (check_glyph_property : hb_glyph_info_t → Nat → Bool)
    (message : hb_buffer_t → Nat → Bool) (fuel : Nat) (buffer : hb_buffer_t) :
    Option hb_buffer_t :=
  (hb_ot_map_t.apply.run map proxy check_glyph_property message fuel buffer).map
    fun r => r.1.buffer

/-- A table holding the scripts `DFLT` (index 0) and `latn` (index 1) and the features
`kern`, `liga`, `kern` (indices 0, 1, 2). -/
def sampleGSUB : OT.GSUBGPOS :=
  { scriptList :=
      [(HB_TAG 'D' 'F' 'L' 'T', { defaultLangSys := none, langSys := [] }),
       (HB_TAG 'l' 'a' 't' 'n',
        { defaultLangSys := some { reqFeatureIndex := 0xFFFF, featureIndex := [2, 1] },
          langSys :=
            [(HB_TAG 'D' 'F' 'L' 'T', { reqFeatureIndex := 0xFFFF, featureIndex := [0] }),
             (HB_TAG 'T' 'R' 'K' ' ', { reqFeatureIndex := 0xFFFF, featureIndex := [1, 2] }),
             (HB_TAG 'd' 'f' 'l' 't', { reqFeatureIndex := 0xFFFF, featureIndex := [1] })] })]
    featureList :=
      [(HB_TAG 'k' 'e' 'r' 'n', { lookupIndex := [0] }),
       (HB_TAG 'l' 'i' 'g' 'a', { lookupIndex := [1] }),
       (HB_TAG 'k' 'e' 'r' 'n', { lookupIndex := [2] })] }

/-- A table whose scripts are `dflt` (index 0), `latn` (index 1) and `thai` (index 2),
without features; the only language system of `latn` is tagged `DFLT` and the only
language system of `thai` is tagged `latn`. -/
def sampleGPOS : OT.GSUBGPOS :=
  { scriptList :=
      [(HB_TAG 'd' 'f' 'l' 't', { defaultLangSys := none, langSys := [] }),
       (HB_TAG 'l' 'a' 't' 'n',
        { defaultLangSys := none,
          langSys := [(HB_TAG 'D' 'F' 'L' 'T',
            { reqFeatureIndex := 0xFFFF, featureIndex := [] })] }),
       (HB_TAG 't' 'h' 'a' 'i',
        { defaultLangSys := none,
          langSys := [(HB_TAG 'l' 'a' 't' 'n',
            { reqFeatureIndex := 0xFFFF, featureIndex := [] })] })]
    featureList := [] }

/-- A face with the two sample tables. -/
def sampleFace : hb_face_t :=
  { shaper_data := some
      { GSUB := { table := sampleGSUB, lookup_count := 3 }
        GPOS := { table := sampleGPOS, lookup_count := 0 } } }

/-- A table with three features: `ss01` (index 0) with parameters, `cv01` (index 1) with
parameters that list the characters `a`, `b`, `c`, and `liga` (index 2) with parameters
that no tag of the table interprets. -/
def paramsTable : OT.GSUBGPOS :=
  let params : OT.FeatureParams :=
    { size := { designSize := 0, subfamilyID := 0, subfamilyNameID := 0, rangeStart := 0,
                rangeEnd := 0 }
      stylisticSet := { uiNameID := 256 }
      characterVariants :=
        { featUILableNameID := 257, featUITooltipTextNameID := 258, sampleTextNameID := 259,
          numNamedParameters := 2, firstParamUILabelNameID := 260,
          characters := [0x61, 0x62, 0x63] } }
  { scriptList := []
    featureList :=
      [(HB_TAG 's' 's' '0' '1', { lookupIndex := [], featureParams := some params }),
       (HB_TAG 'c' 'v' '0' '1', { lookupIndex := [], featureParams := some params }),
       (HB_TAG 'l' 'i' 'g' 'a', { lookupIndex := [], featureParams := some params })] }

/-- A face whose GSUB table is `paramsTable`. -/
def paramsFace : hb_face_t :=
  { shaper_data := some
      { GSUB := { table := paramsTable, lookup_count := 0 }
        GPOS := { table := OT.GSUBGPOS.Null, lookup_count := 0 } } }

/-! ## Sample buffers, lookups and maps -/

/-- A buffer of three glyphs 10, 11, 12, each with mask 1, and no output
accumulator. -/
def sampleBuffer : hb_buffer_t :=
  { info := [{ codepoint := 10, mask := 1 }, { codepoint := 11, mask := 1 },
             { codepoint := 12, mask := 1 }],
    idx := 0, out_info := [], have_output := false, successful := true }

/-- A context on `sampleBuffer` for table index 0 (GSUB), with lookup mask 1. -/
def sampleApplyCtx : OT.hb_ot_apply_context_t :=
  OT.hb_ot_apply_context_t.init 0 sampleBuffer

/-- The same context with lookup mask 0. -/
def maskZeroCtx : OT.hb_ot_apply_context_t := { sampleApplyCtx with lookup_mask := 0 }

/-- A glyph-property check that lets every glyph through. -/
def sampleCheck : hb_glyph_info_t → Nat → Bool := fun _ _ => true

/-- A single substitution 11 → 99: the replacement goes to the output accumulator and
the cursor advances by one. -/
def substAccel : OT.hb_ot_layout_lookup_accelerator_t :=
  { may_have := fun g => g == 11
    apply := fun c =>
      (true, { c with buffer := { c.buffer with
                out_info := c.buffer.out_info ++ [{ c.buffer.cur with codepoint := 99 }]
                idx := c.buffer.idx + 1 } }) }

/-- A lookup that matches glyph 11 and changes nothing in the buffer (the positions a
GPOS lookup adjusts are not part of the buffer model). -/
def inplaceAccel : OT.hb_ot_layout_lookup_accelerator_t :=
  { may_have := fun _ => true
    apply := fun c => (c.buffer.cur.codepoint == 11, c) }

/-- A lookup that matches glyph 11 and steps over it without writing to the output
accumulator (for GSUB, the deletion of the glyph; for GPOS, a positioning). -/
def advanceAccel : OT.hb_ot_layout_lookup_accelerator_t :=
  { may_have := fun g => g == 11
    apply := fun c => (true, { c with buffer := { c.buffer with idx := c.buffer.idx + 1 } }) }

/-- The context the forward pass of `advanceAccel` leaves for GSUB on `sampleApplyCtx`:
glyphs 10 and 12 in the output accumulator, the cursor at the end. -/
def deletedCtx : OT.hb_ot_apply_context_t :=
  { sampleApplyCtx with
    buffer := { sampleBuffer with
      idx := 3, have_output := true,
      out_info := [{ codepoint := 10, mask := 1 }, { codepoint := 12, mask := 1 }] } }

/-- The context the forward pass of `advanceAccel` leaves for GPOS on `sampleApplyCtx`:
the cursor at the end, nothing else changed. -/
def steppedCtx : OT.hb_ot_apply_context_t :=
  { sampleApplyCtx with buffer := { sampleBuffer with idx := 3 } }

/-- A lookup that succeeds at glyph 10, stepping over it, and fails everywhere else,
leaving the cursor one glyph further back. -/
def backAccel : OT.hb_ot_layout_lookup_accelerator_t :=
  { may_have := fun _ => true
    apply := fun c =>
      if c.buffer.cur.codepoint = 10 then
        (true, { c with buffer := { c.buffer with idx := c.buffer.idx + 1 } })
      else
        (false, { c with buffer := { c.buffer with idx := c.buffer.idx - 1 } }) }

/-- The context `sampleApplyCtx` with the cursor at glyph 11. -/
def secondGlyphCtx : OT.hb_ot_apply_context_t :=
  { sampleApplyCtx with buffer := { sampleBuffer with idx := 1 } }

/-- A lookup that succeeds everywhere, stepping over the glyph at the cursor and
appending a copy of it to the main sequence. -/
def growAccel : OT.hb_ot_layout_lookup_accelerator_t :=
  { may_have := fun _ => true
    apply := fun c =>
      (true, { c with buffer := { c.buffer with
                info := c.buffer.info ++ [c.buffer.cur]
                idx := c.buffer.idx + 1 } }) }

/-- A lookup whose coverage is empty. -/
def neverAccel : OT.hb_ot_layout_lookup_accelerator_t :=
  { may_have := fun _ => false
    apply := fun c => (false, c) }

/-- A forward lookup. -/
def forwardLookup : OT.Lookup := { get_props := 0, is_reverse := false }

/-- A reverse lookup. -/
def reverseLookup : OT.Lookup := { get_props := 0, is_reverse := true }

/-- A GSUB proxy whose lookup 0 is the substitution 11 → 99 and whose other lookups
have empty coverage. -/
def sampleProxy : Proxy :=
  GSUBProxy (fun _ => forwardLookup) (fun i => if i = 0 then substAccel else neverAccel)

/-- A face whose GPOS table lists a `size` feature with `designSize` 0, a `kern`
feature without parameters and a `size` feature with `designSize` 100. -/
def sizeFace : hb_face_t :=
  { shaper_data := some
      { GSUB := { table := OT.GSUBGPOS.Null, lookup_count := 0 }
        GPOS :=
          { table :=
              { scriptList := []
                featureList :=
                  [(HB_TAG 's' 'i' 'z' 'e',
                    { lookupIndex := []
                      featureParams := some
                        { size := { designSize := 0, subfamilyID := 1, subfamilyNameID := 2,
                                    rangeStart := 3, rangeEnd := 4 }
                          stylisticSet := { uiNameID := 0 }
                          characterVariants := OT.FeatureParamsCharacterVariants.Null } }),
                   (HB_TAG 'k' 'e' 'r' 'n', { lookupIndex := [0] }),
                   (HB_TAG 's' 'i' 'z' 'e',
                    { lookupIndex := []
                      featureParams := some
                        { size := { designSize := 100, subfamilyID := 5,
                                    subfamilyNameID := 256, rangeStart := 90,
                                    rangeEnd := 120 }
                          stylisticSet := { uiNameID := 100 }
                          characterVariants := OT.FeatureParamsCharacterVariants.Null } })] }
            lookup_count := 1 } } }

/-- A face whose GSUB table has the scripts `DFLT` (default language system with
feature 0) and `latn` (default language system with feature 1, required feature 3;
language systems `dflt` with feature 2 and `TRK ` with feature 0), and four features:
`liga` with lookups 0 and 1, `kern` with 40 lookups 0 .. 39, `locl` with lookup 41 and
`rlig` without lookups. -/
def collectFace : hb_face_t :=
  { shaper_data := some
      { GSUB :=
          { table :=
              { scriptList :=
                  [(HB_TAG 'D' 'F' 'L' 'T',
                    { defaultLangSys := some { reqFeatureIndex := 0xFFFF, featureIndex := [0] }
                      langSys := [] }),
                   (HB_TAG 'l' 'a' 't' 'n',
                    { defaultLangSys := some { reqFeatureIndex := 3, featureIndex := [1] }
                      langSys :=
                        [(HB_TAG 'd' 'f' 'l' 't',
                          { reqFeatureIndex := 0xFFFF, featureIndex := [2] }),
                         (HB_TAG 'T' 'R' 'K' ' ',
                          { reqFeatureIndex := 0xFFFF, featureIndex := [0] })] })]
                featureList :=
                  [(HB_TAG 'l' 'i' 'g' 'a', { lookupIndex := [0, 1] }),
                   (HB_TAG 'k' 'e' 'r' 'n', { lookupIndex := List.range 40 }),
                   (HB_TAG 'l' 'o' 'c' 'l', { lookupIndex := [41] }),
                   (HB_TAG 'r' 'l' 'i' 'g', { lookupIndex := [] })]
                lookupCount := 42 }
            lookup_count := 42 }
        GPOS := { table := OT.GSUBGPOS.Null, lookup_count := 0 } } }

/-! # Theorems -/

namespace OT

/-! ## Basic facts about the primitive reads and the sanitizer checks -/

theorem Memory.byte_lt (mem : Memory) (a : Nat) : mem.byte a < 256 :=
  Nat.mod_lt _ (by decide)

theorem HBUINT16.get_lt_two_pow_16 (mem : Memory) (a : Nat) : HBUINT16.get mem a < 65536 := by
  have h0 := mem.byte_lt a
  have h1 := mem.byte_lt (a + 1)
  unfold HBUINT16.get
  omega

theorem HBUINT32.get_lt_two_pow_32 (mem : Memory) (a : Nat) : HBUINT32.get mem a < 4294967296 := by
  have h0 := mem.byte_lt a
  have h1 := mem.byte_lt (a + 1)
  have h2 := mem.byte_lt (a + 2)
  have h3 := mem.byte_lt (a + 3)
  unfold HBUINT32.get
  omega

theorem hb_sanitize_context_t.check_range_iff (c : hb_sanitize_context_t) (base len : Nat) :
    c.check_range base len = true ↔ c.start ≤ base ∧ base + len ≤ c.end_ := by
  simp only [hb_sanitize_context_t.check_range, Bool.and_eq_true, decide_eq_true_eq]
  omega

theorem UnsizedArrayOf.sanitize_iff (c : hb_sanitize_context_t) (base offset sz count : Nat) :
    UnsizedArrayOf.sanitize c (OffsetTo.deref base offset) sz count = true ↔
      offset ≠ 0 ∧ sz * count < 4294967296 ∧
        c.start ≤ base + offset ∧ base + offset + sz * count ≤ c.end_ := by
  unfold OffsetTo.deref
  split
  · simp [UnsizedArrayOf.sanitize, *]
  · simp [UnsizedArrayOf.sanitize, hb_sanitize_context_t.check_array,
      hb_sanitize_context_t.check_range_iff, *]

/-- What every table accepted by `CPAL::sanitize` satisfies, whatever its version. -/
theorem CPAL.sanitize_core {c : hb_sanitize_context_t} {mem : Memory} {this : Nat}
    (hs : CPAL.sanitize c mem this = true) :
    (c.start ≤ this ∧ this + 12 ≤ c.end_) ∧
    CPAL.colorRecordsZ mem this ≠ 0 ∧
    (c.start ≤ this + CPAL.colorRecordsZ mem this ∧
      this + CPAL.colorRecordsZ mem this + 4 * CPAL.numColorRecords mem this ≤ c.end_) ∧
    ∀ i < CPAL.numPalettes mem this,
      CPAL.colorRecordIndicesZ mem this i + CPAL.numPaletteEntries mem this
        ≤ CPAL.numColorRecords mem this := by
  unfold CPAL.sanitize at hs
  split at hs
  · exact absurd hs (by simp)
  · rename_i h1
    split at hs
    · exact absurd hs (by simp)
    · rename_i h2
      rw [Bool.not_eq_true, Bool.not_eq_false_eq_eq_true, Bool.and_eq_true] at h1
      rw [hb_sanitize_context_t.check_struct, hb_sanitize_context_t.check_range_iff,
        CPAL.color_records, UnsizedArrayOf.sanitize_iff] at h1
      simp only [List.any_eq_true, List.mem_range, decide_eq_true_eq, not_exists, not_and,
        not_lt, gt_iff_lt] at h2
      exact ⟨h1.1, h1.2.1, h1.2.2.2, h2⟩

/-- The color-record array of a table with a nonzero `colorRecordsZ` starts at
`this + colorRecordsZ`. -/
theorem CPAL.getU32_color_records {mem : Memory} {this : Nat}
    (h : CPAL.colorRecordsZ mem this ≠ 0) (i : Nat) :
    UnsizedArrayOf.getU32 mem (CPAL.color_records mem this) i =
      HBUINT32.get mem (this + CPAL.colorRecordsZ mem this + 4 * i) := by
  simp [UnsizedArrayOf.getU32, UnsizedArrayOf.addr, CPAL.color_records, OffsetTo.deref, h,
    HBUINT32.static_size]

theorem CPAL.colorRecordIndicesZ_eq (mem : Memory) (this i : Nat) :
    CPAL.colorRecordIndicesZ mem this i = HBUINT16.get mem (this + 12 + 2 * i) := by
  simp [CPAL.colorRecordIndicesZ, UnsizedArrayOf.getU16, UnsizedArrayOf.addr, CPAL.min_size,
    HBUINT16.static_size]

/-- The sample table is accepted by the sanitizer. -/
theorem sample_sanitize : CPAL.sanitize sampleCtx sampleMem 0 = true := by decide

/-! ## Single color lookup -/

/-- C1: for every CPAL table accepted by `CPAL::sanitize`, every palette
`p < numPalettes` and every color index `ci < numPaletteEntries`,
`get_color_record_argb (ci, p)` is the 32-bit big-endian value of the four bytes at
table offset `colorRecordsOffset + 4 * (colorRecordIndices[p] + ci)`, the header
fields being read big-endian at offsets 0 (version), 2 (numPaletteEntries),
4 (numPalettes), 6 (numColorRecords), 8 (colorRecordsOffset) and `12 + 2 * p`
(colorRecordIndices[p]). -/
theorem CPAL.get_color_record_argb_sanitized (c : hb_sanitize_context_t) (mem : Memory)
    (this p ci : Nat)
    (hs : CPAL.sanitize c mem this = true)
    (hp : p < HBUINT16.get mem (this + 4))
    (hc : ci < HBUINT16.get mem (this + 2)) :
    CPAL.get_color_record_argb mem this ci p =
        HBUINT32.get mem
          (this + HBUINT32.get mem (this + 8) + 4 * (HBUINT16.get mem (this + 12 + 2 * p) + ci)) ∧
      CPAL.version mem this = HBUINT16.get mem this ∧
      CPAL.numPaletteEntries mem this = HBUINT16.get mem (this + 2) ∧
      CPAL.numPalettes mem this = HBUINT16.get mem (this + 4) ∧
      CPAL.numColorRecords mem this = HBUINT16.get mem (this + 6) ∧
      CPAL.colorRecordsZ mem this = HBUINT32.get mem (this + 8) ∧
      CPAL.colorRecordIndicesZ mem this p = HBUINT16.get mem (this + 12 + 2 * p) := by
  have hcore := CPAL.sanitize_core hs
  refine ⟨?_, rfl, rfl, rfl, rfl, rfl, CPAL.colorRecordIndicesZ_eq mem this p⟩
  have hguard : ¬(ci ≥ CPAL.numPaletteEntries mem this ∨ p ≥ CPAL.numPalettes mem this) := by
    simp only [CPAL.numPaletteEntries, CPAL.numPalettes]
    omega
  rw [CPAL.get_color_record_argb, if_neg hguard, CPAL.getU32_color_records hcore.2.1,
    CPAL.colorRecordIndicesZ_eq]
  rfl

/-- Witness of C1 on the sample table: color 1 of palette 1 is the record
`09 0A 0B 0C` at table offset `16 + 4 * (1 + 1)`. -/
theorem CPAL.get_color_record_argb_sanitized_witness :
    CPAL.sanitize sampleCtx sampleMem 0 = true ∧
      1 < HBUINT16.get sampleMem (0 + 4) ∧ 1 < HBUINT16.get sampleMem (0 + 2) ∧
      CPAL.get_color_record_argb sampleMem 0 1 1 = HBUINT32.get sampleMem 24 ∧
      HBUINT32.get sampleMem 24 = 0x090A0B0C :=
  ⟨by decide, by decide, by decide,
    (CPAL.get_color_record_argb_sanitized sampleCtx sampleMem 0 1 1
      (by decide) (by decide) (by decide)).1,
    by decide⟩

/-- C2: for every CPAL table (sanitized or not) and all inputs,
`get_color_record_argb (color_index, palette)` is 0 whenever
`color_index >= numPaletteEntries` or `palette >= numPalettes`; no color record is
read: the result is 0 in every memory that has the same two count fields (the four
bytes at table offsets 2 to 5), whatever it holds anywhere else. -/
theorem CPAL.get_color_record_argb_out_of_range (mem : Memory) (this color_index palette : Nat)
    (h : color_index ≥ CPAL.numPaletteEntries mem this ∨ palette ≥ CPAL.numPalettes mem this) :
    CPAL.get_color_record_argb mem this color_index palette = 0 ∧
      ∀ mem' : Memory, (∀ a, this + 2 ≤ a → a < this + 6 → mem' a = mem a) →
        CPAL.get_color_record_argb mem' this color_index palette = 0 := by
  refine ⟨by rw [CPAL.get_color_record_argb, if_pos h], fun mem' hm => ?_⟩
  have e1 : CPAL.numPaletteEntries mem' this = CPAL.numPaletteEntries mem this := by
    simp only [CPAL.numPaletteEntries, HBUINT16.get, Memory.byte]
    rw [hm (this + 2) (by omega) (by omega), hm (this + 2 + 1) (by omega) (by omega)]
  have e2 : CPAL.numPalettes mem' this = CPAL.numPalettes mem this := by
    simp only [CPAL.numPalettes, HBUINT16.get, Memory.byte]
    rw [hm (this + 4) (by omega) (by omega), hm (this + 4 + 1) (by omega) (by omega)]
  rw [CPAL.get_color_record_argb, e1, e2, if_pos h]

/-- Witness of C2 on the sample table (2 palettes of 2 entries): color index 2 is out
of range. -/
theorem CPAL.get_color_record_argb_out_of_range_witness :
    (2 ≥ CPAL.numPaletteEntries sampleMem 0 ∨ 0 ≥ CPAL.numPalettes sampleMem 0) ∧
      CPAL.get_color_record_argb sampleMem 0 2 0 = 0 :=
  ⟨by decide,
    (CPAL.get_color_record_argb_out_of_range sampleMem 0 2 0 (by decide)).1⟩

/-! ## Validation of the palette start indices -/

/-- C3: for every CPAL table in which some palette `p < numPalettes` has
`colorRecordIndices[p] + numPaletteEntries > numColorRecords` (an exact sum of
natural numbers, no 16-bit wrap-around), `CPAL::sanitize` returns false, whatever the
version, the blob bounds and the rest of the table. -/
theorem CPAL.sanitize_rejects_overlong_palette (c : hb_sanitize_context_t) (mem : Memory)
    (this p : Nat)
    (hp : p < CPAL.numPalettes mem this)
    (hbad : CPAL.colorRecordIndicesZ mem this p + CPAL.numPaletteEntries mem this
              > CPAL.numColorRecords mem this) :
    CPAL.sanitize c mem this = false := by
  cases hs : CPAL.sanitize c mem this with
  | false => rfl
  | true =>
    have := (CPAL.sanitize_core hs).2.2.2 p hp
    omega

/-- Witness of C3: a palette starting at record 65535 with 2 entries and 1 color
record is rejected (a 16-bit sum would have wrapped to 1). -/
theorem CPAL.sanitize_rejects_overlong_palette_witness :
    0 < CPAL.numPalettes wrapMem 0 ∧
      CPAL.colorRecordIndicesZ wrapMem 0 0 + CPAL.numPaletteEntries wrapMem 0 = 65537 ∧
      CPAL.numColorRecords wrapMem 0 = 1 ∧
      CPAL.sanitize wrapCtx wrapMem 0 = false :=
  ⟨by decide, by decide, by decide,
    CPAL.sanitize_rejects_overlong_palette wrapCtx wrapMem 0 0 (by decide) (by decide)⟩

/-- C4: for every CPAL table accepted by `CPAL::sanitize`, every palette
`p < numPalettes` and every `ci < numPaletteEntries`, the record index
`colorRecordIndices[p] + ci` is strictly below `numColorRecords`, and the address `a`
that `color_records[colorRecordIndices[p] + ci]` reads (the read of
`get_color_record_argb` and of the loop of `get_palette_colors`) has its four bytes
inside the range of `numColorRecords` records at `this + colorRecordsZ` that sanitize
checked to lie in the blob. -/
theorem CPAL.color_record_read_in_bounds (c : hb_sanitize_context_t) (mem : Memory)
    (this p ci : Nat)
    (hs : CPAL.sanitize c mem this = true)
    (hp : p < CPAL.numPalettes mem this)
    (hc : ci < CPAL.numPaletteEntries mem this) :
    CPAL.colorRecordIndicesZ mem this p + ci < CPAL.numColorRecords mem this ∧
      ∃ a, UnsizedArrayOf.addr (CPAL.color_records mem this) HBUINT32.static_size
              (CPAL.colorRecordIndicesZ mem this p + ci) = some a ∧
        c.start ≤ this + CPAL.colorRecordsZ mem this ∧
        this + CPAL.colorRecordsZ mem this ≤ a ∧
        a + 4 ≤ this + CPAL.colorRecordsZ mem this + 4 * CPAL.numColorRecords mem this ∧
        this + CPAL.colorRecordsZ mem this + 4 * CPAL.numColorRecords mem this ≤ c.end_ := by
  obtain ⟨_, hz, hrange, hidx⟩ := CPAL.sanitize_core hs
  have hi := hidx p hp
  refine ⟨by omega, this + CPAL.colorRecordsZ mem this
      + 4 * (CPAL.colorRecordIndicesZ mem this p + ci), ?_, hrange.1, by omega, by omega, hrange.2⟩
  simp [UnsizedArrayOf.addr, CPAL.color_records, OffsetTo.deref, hz, HBUINT32.static_size]

/-- Witness of C4 on the sample table: the last color of the last palette is record
2 of 3, read at address 24 of a 28-byte blob. -/
theorem CPAL.color_record_read_in_bounds_witness :
    CPAL.sanitize sampleCtx sampleMem 0 = true ∧
      1 < CPAL.numPalettes sampleMem 0 ∧ 1 < CPAL.numPaletteEntries sampleMem 0 ∧
      CPAL.colorRecordIndicesZ sampleMem 0 1 + 1 < CPAL.numColorRecords sampleMem 0 :=
  ⟨by decide, by decide, by decide,
    (CPAL.color_record_read_in_bounds sampleCtx sampleMem 0 1 1
      (by decide) (by decide) (by decide)).1⟩

/-! ## Byte order of a color record -/

/-- C5, the claim fails: record 0 of the sample table has the on-disk bytes
`B = 1, G = 2, R = 3, A = 4`, and `get_color_record_argb` returns `0x01020304`
(blue in the most significant byte), not the packed ARGB value `0x04030201`. -/
theorem CPAL.get_color_record_argb_not_packed_argb :
    CPAL.sanitize sampleCtx sampleMem 0 = true ∧
      0 < CPAL.numPalettes sampleMem 0 ∧ 0 < CPAL.numPaletteEntries sampleMem 0 ∧
      UnsizedArrayOf.addr (CPAL.color_records sampleMem 0) HBUINT32.static_size
        (CPAL.colorRecordIndicesZ sampleMem 0 0 + 0) = some 16 ∧
      sampleMem.byte 16 = 1 ∧ sampleMem.byte 17 = 2 ∧ sampleMem.byte 18 = 3 ∧
      sampleMem.byte 19 = 4 ∧
      CPAL.get_color_record_argb sampleMem 0 0 0 = 0x01020304 ∧
      CPAL.get_color_record_argb sampleMem 0 0 0 ≠ 4 * 2 ^ 24 + 3 * 2 ^ 16 + 2 * 2 ^ 8 + 1 := by
  decide

/-- C5 as amended: for every in-range color record of a sanitized table whose four
on-disk bytes are, in order, B, G, R, A, `get_color_record_argb` returns
`B * 2^24 + G * 2^16 + R * 2^8 + A` (blue in the most significant byte, alpha in the
least significant one); this is the packing that `colr_cpal_rendering` of
`dump-font.cc` unpacks. -/
theorem CPAL.get_color_record_argb_packed_bgra (c : hb_sanitize_context_t) (mem : Memory)
    (this p ci : Nat)
    (hs : CPAL.sanitize c mem this = true)
    (hp : p < CPAL.numPalettes mem this)
    (hc : ci < CPAL.numPaletteEntries mem this) :
    ∃ a, UnsizedArrayOf.addr (CPAL.color_records mem this) HBUINT32.static_size
            (CPAL.colorRecordIndicesZ mem this p + ci) = some a ∧
      CPAL.get_color_record_argb mem this ci p =
        mem.byte a * 2 ^ 24 + mem.byte (a + 1) * 2 ^ 16 + mem.byte (a + 2) * 2 ^ 8
          + mem.byte (a + 3) ∧
      colr_cpal_rendering.b (CPAL.get_color_record_argb mem this ci p) = mem.byte a ∧
      colr_cpal_rendering.g (CPAL.get_color_record_argb mem this ci p) = mem.byte (a + 1) ∧
      colr_cpal_rendering.r (CPAL.get_color_record_argb mem this ci p) = mem.byte (a + 2) ∧
      colr_cpal_rendering.alpha (CPAL.get_color_record_argb mem this ci p)
        = mem.byte (a + 3) := by
  have hz := (CPAL.sanitize_core hs).2.1
  have hguard : ¬(ci ≥ CPAL.numPaletteEntries mem this ∨ p ≥ CPAL.numPalettes mem this) := by
    omega
  have hval : CPAL.get_color_record_argb mem this ci p =
      HBUINT32.get mem (this + CPAL.colorRecordsZ mem this
        + 4 * (CPAL.colorRecordIndicesZ mem this p + ci)) := by
    rw [CPAL.get_color_record_argb, if_neg hguard, CPAL.getU32_color_records hz]
  refine ⟨this + CPAL.colorRecordsZ mem this + 4 * (CPAL.colorRecordIndicesZ mem this p + ci),
    by simp [UnsizedArrayOf.addr, CPAL.color_records, OffsetTo.deref, hz, HBUINT32.static_size],
    ?_⟩
  generalize this + CPAL.colorRecordsZ mem this
    + 4 * (CPAL.colorRecordIndicesZ mem this p + ci) = a at hval ⊢
  have h0 := mem.byte_lt a
  have h1 := mem.byte_lt (a + 1)
  have h2 := mem.byte_lt (a + 2)
  have h3 := mem.byte_lt (a + 3)
  have hand : ∀ x : Nat, x &&& 0xFF = x % 256 := fun x => Nat.and_pow_two_sub_one_eq_mod x 8
  rw [hval]
  simp only [colr_cpal_rendering.b, colr_cpal_rendering.g, colr_cpal_rendering.r,
    colr_cpal_rendering.alpha, hand, Nat.shiftRight_eq_div_pow, HBUINT32.get]
  refine ⟨by omega, by omega, by omega, by omega, by omega⟩

/-- Witness of the amended C5 on the sample table. -/
theorem CPAL.get_color_record_argb_packed_bgra_witness :
    CPAL.sanitize sampleCtx sampleMem 0 = true ∧
      0 < CPAL.numPalettes sampleMem 0 ∧ 0 < CPAL.numPaletteEntries sampleMem 0 ∧
      ∃ a, UnsizedArrayOf.addr (CPAL.color_records sampleMem 0) HBUINT32.static_size
              (CPAL.colorRecordIndicesZ sampleMem 0 0 + 0) = some a ∧
        CPAL.get_color_record_argb sampleMem 0 0 0 =
          sampleMem.byte a * 2 ^ 24 + sampleMem.byte (a + 1) * 2 ^ 16
            + sampleMem.byte (a + 2) * 2 ^ 8 + sampleMem.byte (a + 3) :=
  ⟨by decide, by decide, by decide,
    (CPAL.get_color_record_argb_packed_bgra sampleCtx sampleMem 0 0 0
      (by decide) (by decide) (by decide)).imp fun _ h => ⟨h.1, h.2.1⟩⟩

/-! ## The batch copy `get_palette_colors` -/

/-- The copy loop from the state `(i, num_results, colors)` makes
`min (numPaletteEntries - i) (color_count - num_results)` iterations: it ends with
that many more results, has written record `palette_offset + i + j` to slot
`num_results + j` for each of them, and has left every other slot alone. -/
theorem CPAL.get_palette_colors.loop_spec (mem : Memory) (cr : Option Nat)
    (po npe cnt : Nat) :
    ∀ (d i nr : Nat) (buf : Nat → Nat), npe - i = d →
      (CPAL.get_palette_colors.loop mem cr po npe cnt i nr buf).1
          = nr + min (npe - i) (cnt - nr) ∧
      ∀ k, (CPAL.get_palette_colors.loop mem cr po npe cnt i nr buf).2 k =
        if nr ≤ k ∧ k < nr + min (npe - i) (cnt - nr) then
          UnsizedArrayOf.getU32 mem cr (po + (i + (k - nr)))
        else buf k := by
  intro d
  induction d with
  | zero =>
    intro i nr buf hd
    rw [CPAL.get_palette_colors.loop, if_neg (by omega)]
    refine ⟨by simp only; omega, fun k => ?_⟩
    rw [if_neg (by omega)]
  | succ d ih =>
    intro i nr buf hd
    rw [CPAL.get_palette_colors.loop]
    by_cases hcond : i < npe ∧ nr < cnt
    · rw [if_pos hcond]
      obtain ⟨h1, h2⟩ := ih (i + 1) (nr + 1)
        (Function.update buf nr (UnsizedArrayOf.getU32 mem cr (po + i))) (by omega)
      refine ⟨by rw [h1]; omega, fun k => ?_⟩
      rw [h2 k]
      by_cases hk : nr + 1 ≤ k
      · have e : i + 1 + (k - (nr + 1)) = i + (k - nr) := by omega
        rw [e]
        by_cases hlt : k < nr + min (npe - i) (cnt - nr)
        · rw [if_pos ⟨hk, by omega⟩, if_pos ⟨by omega, hlt⟩]
        · rw [if_neg (by omega), if_neg (by omega), Function.update_noteq (by omega)]
      · rw [if_neg (by omega)]
        by_cases hkn : k = nr
        · subst hkn
          rw [Function.update_same, if_pos (by omega), Nat.sub_self, Nat.add_zero]
        · rw [Function.update_noteq hkn, if_neg (by omega)]
    · rw [if_neg hcond]
      refine ⟨by simp only; omega, fun k => ?_⟩
      rw [if_neg (by omega)]

/-- The result of `get_palette_colors` for a valid palette and non-null `color_count`
and `colors`: the return value, the copied count and the content of the buffer. -/
theorem CPAL.get_palette_colors_spec (mem : Memory) (this palette start_offset n : Nat)
    (buf : Nat → Nat) (hp : palette < CPAL.numPalettes mem this) :
    ∃ buf' : Nat → Nat,
      CPAL.get_palette_colors mem this palette start_offset (some n) (some buf) =
        { ret := CPAL.numPaletteEntries mem this,
          color_count := some (min (CPAL.numPaletteEntries mem this - start_offset) n),
          colors := some buf' } ∧
      (∀ k, k < min (CPAL.numPaletteEntries mem this - start_offset) n →
        buf' k = CPAL.get_color_record_argb mem this (start_offset + k) palette) ∧
      (∀ k, min (CPAL.numPaletteEntries mem this - start_offset) n ≤ k → buf' k = buf k) := by
  obtain ⟨h1, h2⟩ := CPAL.get_palette_colors.loop_spec mem (CPAL.color_records mem this)
    (CPAL.colorRecordIndicesZ mem this palette) (CPAL.numPaletteEntries mem this) n
    _ start_offset 0 buf rfl
  refine ⟨(CPAL.get_palette_colors.loop mem (CPAL.color_records mem this)
    (CPAL.colorRecordIndicesZ mem this palette) (CPAL.numPaletteEntries mem this) n
    start_offset 0 buf).2, ?_, fun k hk => ?_, fun k hk => ?_⟩
  · unfold CPAL.get_palette_colors
    rw [if_neg (by omega)]
    simp only [h1, Nat.zero_add, Nat.sub_zero]
  · rw [h2 k, if_pos (by omega), CPAL.get_color_record_argb, if_neg (by omega), Nat.sub_zero]
  · rw [h2 k, if_neg (by omega)]

/-- C6: for every CPAL table (sanitized or not), every palette `< numPalettes`, every
`start_offset` and every input capacity `n` with non-null `color_count` and `colors`,
`get_palette_colors` returns `numPaletteEntries` and sets the in/out count to
`min (numPaletteEntries - start_offset) n`, the difference being 0 when
`start_offset >= numPaletteEntries`. -/
theorem CPAL.get_palette_colors_count (mem : Memory) (this palette start_offset n : Nat)
    (buf : Nat → Nat) (hp : palette < CPAL.numPalettes mem this) :
    (CPAL.get_palette_colors mem this palette start_offset (some n) (some buf)).ret
        = CPAL.numPaletteEntries mem this ∧
      (CPAL.get_palette_colors mem this palette start_offset (some n) (some buf)).color_count
        = some (min (CPAL.numPaletteEntries mem this - start_offset) n) ∧
      (CPAL.numPaletteEntries mem this ≤ start_offset →
        (CPAL.get_palette_colors mem this palette start_offset (some n) (some buf)).color_count
          = some 0) := by
  obtain ⟨buf', h, -, -⟩ := CPAL.get_palette_colors_spec mem this palette start_offset n buf hp
  rw [h]
  refine ⟨rfl, rfl, fun hle => ?_⟩
  simp only [Option.some.injEq]
  omega

/-- Witness of C6 on the sample table: from offset 1 with capacity 5, one of the two
entries is copied. -/
theorem CPAL.get_palette_colors_count_witness :
    0 < CPAL.numPalettes sampleMem 0 ∧
      (CPAL.get_palette_colors sampleMem 0 0 1 (some 5) (some fun _ => 0)).ret
        = CPAL.numPaletteEntries sampleMem 0 ∧
      (CPAL.get_palette_colors sampleMem 0 0 1 (some 5) (some fun _ => 0)).color_count
        = some (min (CPAL.numPaletteEntries sampleMem 0 - 1) 5) ∧
      min (CPAL.numPaletteEntries sampleMem 0 - 1) 5 = 1 :=
  ⟨by decide,
    (CPAL.get_palette_colors_count sampleMem 0 0 1 5 (fun _ => 0) (by decide)).1,
    (CPAL.get_palette_colors_count sampleMem 0 0 1 5 (fun _ => 0) (by decide)).2.1,
    by decide⟩

/-- C7: for every CPAL table and every `palette >= numPalettes`, `get_palette_colors`
returns 0, sets the in/out count to 0 (when the caller passed one) and leaves the
output color buffer unchanged, for every `start_offset` and input capacity. -/
theorem CPAL.get_palette_colors_invalid_palette (mem : Memory)
    (this palette start_offset : Nat) (color_count : Option Nat) (colors : Option (Nat → Nat))
    (hp : palette ≥ CPAL.numPalettes mem this) :
    (CPAL.get_palette_colors mem this palette start_offset color_count colors).ret = 0 ∧
      (∀ n, color_count = some n →
        (CPAL.get_palette_colors mem this palette start_offset color_count colors).color_count
          = some 0) ∧
      (color_count = none →
        (CPAL.get_palette_colors mem this palette start_offset color_count colors).color_count
          = none) ∧
      (CPAL.get_palette_colors mem this palette start_offset color_count colors).colors
        = colors := by
  unfold CPAL.get_palette_colors
  rw [if_pos hp]
  refine ⟨rfl, fun n hn => ?_, fun hn => ?_, rfl⟩
  · rw [hn]; rfl
  · rw [hn]; rfl

/-- Witness of C7 on the sample table, which has palettes 0 and 1 only. -/
theorem CPAL.get_palette_colors_invalid_palette_witness :
    2 ≥ CPAL.numPalettes sampleMem 0 ∧
      (CPAL.get_palette_colors sampleMem 0 2 0 (some 4) (some fun _ => 7)).ret = 0 :=
  ⟨by decide,
    (CPAL.get_palette_colors_invalid_palette sampleMem 0 2 0 (some 4) (some fun _ => 7)
      (by decide)).1⟩

/-- C8: for every CPAL table (sanitized or not), valid palette, `start_offset` and
capacity, the `k`-th color written by `get_palette_colors`, for every `k` below the
reported copied count, equals `get_color_record_argb (start_offset + k, palette)`,
and the output slots at positions `>=` the copied count are left unchanged. -/
theorem CPAL.get_palette_colors_contents (mem : Memory) (this palette start_offset n : Nat)
    (buf : Nat → Nat) (hp : palette < CPAL.numPalettes mem this) :
    ∃ (copied : Nat) (buf' : Nat → Nat),
      (CPAL.get_palette_colors mem this palette start_offset (some n) (some buf)).color_count
        = some copied ∧
      (CPAL.get_palette_colors mem this palette start_offset (some n) (some buf)).colors
        = some buf' ∧
      (∀ k, k < copied →
        buf' k = CPAL.get_color_record_argb mem this (start_offset + k) palette) ∧
      (∀ k, copied ≤ k → buf' k = buf k) := by
  obtain ⟨buf', h, hlt, hge⟩ :=
    CPAL.get_palette_colors_spec mem this palette start_offset n buf hp
  exact ⟨_, buf', by rw [h], by rw [h], hlt, hge⟩

/-- Witness of C8 on the sample table. -/
theorem CPAL.get_palette_colors_contents_witness :
    1 < CPAL.numPalettes sampleMem 0 ∧
      ∃ (copied : Nat) (buf' : Nat → Nat),
        (CPAL.get_palette_colors sampleMem 0 1 0 (some 1) (some fun _ => 7)).color_count
          = some copied ∧
        (CPAL.get_palette_colors sampleMem 0 1 0 (some 1) (some fun _ => 7)).colors
          = some buf' ∧
        (∀ k, k < copied → buf' k = CPAL.get_color_record_argb sampleMem 0 (0 + k) 1) ∧
        (∀ k, copied ≤ k → buf' k = (fun _ => 7) k) :=
  ⟨by decide,
    CPAL.get_palette_colors_contents sampleMem 0 1 0 1 (fun _ => 7) (by decide)⟩

/-! ## Paged enumeration of a palette -/

/-- Paging from any `start_offset` with capacity `n >= 1` and enough calls yields the
colors `start_offset, ..., numPaletteEntries - 1` of the palette, in order. -/
theorem CPAL.paged_palette_colors_from (mem : Memory) (this palette n : Nat)
    (hp : palette < CPAL.numPalettes mem this) (hn : 1 ≤ n) :
    ∀ (fuel start_offset : Nat) (buf : Nat → Nat),
      CPAL.numPaletteEntries mem this - start_offset + 1 ≤ fuel →
      CPAL.paged_palette_colors mem this palette n fuel start_offset buf =
        some ((List.range' start_offset (CPAL.numPaletteEntries mem this - start_offset)).map
          fun ci => CPAL.get_color_record_argb mem this ci palette) := by
  intro fuel
  induction fuel with
  | zero => intro start_offset buf hf; omega
  | succ fuel ih =>
    intro start_offset buf hf
    obtain ⟨buf', h, hlt, -⟩ :=
      CPAL.get_palette_colors_spec mem this palette start_offset n buf hp
    rw [CPAL.paged_palette_colors]
    simp only [h]
    generalize hcop : min (CPAL.numPaletteEntries mem this - start_offset) n = copied at hlt ⊢
    by_cases h0 : copied = 0
    · rw [if_pos h0]
      have hz : CPAL.numPaletteEntries mem this - start_offset = 0 := by omega
      rw [hz]
      rfl
    · rw [if_neg h0, ih (start_offset + copied) buf' (by omega), Option.map_some']
      have hsplit : CPAL.numPaletteEntries mem this - start_offset =
          (CPAL.numPaletteEntries mem this - (start_offset + copied)) + copied := by omega
      rw [hsplit, ← List.range'_append_1, List.map_append,
        List.range'_eq_map_range start_offset copied, List.map_map]
      have hbatch : List.map buf' (List.range copied) =
          List.map ((fun ci => CPAL.get_color_record_argb mem this ci palette)
            ∘ fun x => start_offset + x) (List.range copied) := by
        apply List.map_congr_left
        intro k hk
        exact hlt k (List.mem_range.mp hk)
      rw [hbatch]

/-- C9: paged enumeration reconstructs the palette.  For every CPAL table (sanitized
or not), valid palette and buffer capacity `n >= 1`, calling `get_palette_colors` from
`start_offset` 0 and advancing `start_offset` by the copied count of each call until a
call copies 0 entries terminates (after at most `numPaletteEntries + 1` calls), and the
concatenation of the copied batches is the list of the palette's `numPaletteEntries`
colors `get_color_record_argb (0, palette), get_color_record_argb (1, palette), ...`
in that order, whatever `n` and the initial buffer are. -/
theorem CPAL.paged_palette_colors_reconstructs (mem : Memory) (this palette n fuel : Nat)
    (buf : Nat → Nat)
    (hp : palette < CPAL.numPalettes mem this) (hn : 1 ≤ n)
    (hfuel : CPAL.numPaletteEntries mem this + 1 ≤ fuel) :
    CPAL.paged_palette_colors mem this palette n fuel 0 buf =
      some ((List.range (CPAL.numPaletteEntries mem this)).map
        fun ci => CPAL.get_color_record_argb mem this ci palette) := by
  rw [CPAL.paged_palette_colors_from mem this palette n hp hn fuel 0 buf (by omega),
    Nat.sub_zero, List.range_eq_range']

/-- Witness of C9 on the sample table: paging palette 1 (records `05 06 07 08` and
`09 0A 0B 0C`) one color at a time. -/
theorem CPAL.paged_palette_colors_reconstructs_witness :
    1 < CPAL.numPalettes sampleMem 0 ∧ 1 ≤ 1 ∧ CPAL.numPaletteEntries sampleMem 0 + 1 ≤ 3 ∧
      CPAL.paged_palette_colors sampleMem 0 1 1 3 0 (fun _ => 0) =
        some ((List.range (CPAL.numPaletteEntries sampleMem 0)).map
          fun ci => CPAL.get_color_record_argb sampleMem 0 ci 1) ∧
      ((List.range (CPAL.numPaletteEntries sampleMem 0)).map
          fun ci => CPAL.get_color_record_argb sampleMem 0 ci 1) = [0x05060708, 0x090A0B0C] :=
  ⟨by decide, by decide, by decide,
    CPAL.paged_palette_colors_reconstructs sampleMem 0 1 1 3 (fun _ => 0)
      (by decide) (by decide) (by decide),
    by decide⟩

/-! ## Palette names -/

/-- C10: for every CPAL table, `get_palette_name_id (palette)` returns the no-name
sentinel `0xFFFF` whenever `version == 0` or `palette >= numPalettes`. -/
theorem CPAL.get_palette_name_id_no_name (mem : Memory) (this palette : Nat)
    (h : CPAL.version mem this = 0 ∨ palette ≥ CPAL.numPalettes mem this) :
    CPAL.get_palette_name_id mem this palette = 0xFFFF := by
  rw [CPAL.get_palette_name_id, if_pos h]

/-- Witness of C10 on the sample table, which has version 0. -/
theorem CPAL.get_palette_name_id_no_name_witness :
    (CPAL.version sampleMem 0 = 0 ∨ 0 ≥ CPAL.numPalettes sampleMem 0) ∧
      CPAL.get_palette_name_id sampleMem 0 0 = 0xFFFF :=
  ⟨by decide, CPAL.get_palette_name_id_no_name sampleMem 0 0 (by decide)⟩

/-! ## The version-1 tail -/

/-- What `CPAL::sanitize` has checked of the tail of an accepted table with a nonzero
version: the 12 bytes of the tail at `this + get_size ()` are in the blob, and each of
the three offsets is nonzero and, added to `this`, starts an array of `numPalettes`
elements (of 4, 2 and 2 bytes) that lies in the blob. -/
theorem CPAL.sanitize_tail {c : hb_sanitize_context_t} {mem : Memory} {this : Nat}
    (hs : CPAL.sanitize c mem this = true) (hv : CPAL.version mem this ≠ 0) :
    (c.start ≤ this + CPAL.get_size mem this ∧ this + CPAL.get_size mem this + 12 ≤ c.end_) ∧
    (CPALV1Tail.paletteFlagsZ mem (this + CPAL.get_size mem this) ≠ 0 ∧
      c.start ≤ this + CPALV1Tail.paletteFlagsZ mem (this + CPAL.get_size mem this) ∧
      this + CPALV1Tail.paletteFlagsZ mem (this + CPAL.get_size mem this)
        + 4 * CPAL.numPalettes mem this ≤ c.end_) ∧
    (CPALV1Tail.paletteLabelZ mem (this + CPAL.get_size mem this) ≠ 0 ∧
      c.start ≤ this + CPALV1Tail.paletteLabelZ mem (this + CPAL.get_size mem this) ∧
      this + CPALV1Tail.paletteLabelZ mem (this + CPAL.get_size mem this)
        + 2 * CPAL.numPalettes mem this ≤ c.end_) ∧
    (CPALV1Tail.paletteEntryLabelZ mem (this + CPAL.get_size mem this) ≠ 0 ∧
      c.start ≤ this + CPALV1Tail.paletteEntryLabelZ mem (this + CPAL.get_size mem this) ∧
      this + CPALV1Tail.paletteEntryLabelZ mem (this + CPAL.get_size mem this)
        + 2 * CPAL.numPalettes mem this ≤ c.end_) := by
  unfold CPAL.sanitize at hs
  split at hs
  · exact absurd hs (by simp)
  · split at hs
    · exact absurd hs (by simp)
    · unfold CPALV1Tail.sanitize at hs
      rw [Bool.and_eq_true, Bool.and_eq_true, Bool.and_eq_true,
        hb_sanitize_context_t.check_struct, hb_sanitize_context_t.check_range_iff,
        UnsizedArrayOf.sanitize_iff, UnsizedArrayOf.sanitize_iff,
        UnsizedArrayOf.sanitize_iff] at hs
      obtain ⟨⟨⟨ht, hf⟩, hl⟩, he⟩ := hs
      exact ⟨ht, ⟨hf.1, hf.2.2⟩, ⟨hl.1, hl.2.2⟩, ⟨he.1, he.2.2⟩⟩

/-- C11: for every CPAL table accepted by `CPAL::sanitize` with `version != 0`, every
`palette < numPalettes`, and a nonzero palette-label offset `L` (the second u32 of the
12-byte tail that starts at table offset `12 + 2 * numPalettes`),
`get_palette_name_id (palette)` returns the big-endian u16 at table offset
`L + 2 * palette`, and the two bytes of that read lie inside the blob. -/
theorem CPAL.get_palette_name_id_sanitized (c : hb_sanitize_context_t) (mem : Memory)
    (this palette : Nat)
    (hs : CPAL.sanitize c mem this = true)
    (hv : HBUINT16.get mem this ≠ 0)
    (hp : palette < HBUINT16.get mem (this + 4))
    (hL : HBUINT32.get mem (this + (12 + 2 * HBUINT16.get mem (this + 4)) + 4) ≠ 0) :
    CPAL.get_palette_name_id mem this palette =
        HBUINT16.get mem
          (this + HBUINT32.get mem (this + (12 + 2 * HBUINT16.get mem (this + 4)) + 4)
            + 2 * palette) ∧
      c.start ≤ this + HBUINT32.get mem (this + (12 + 2 * HBUINT16.get mem (this + 4)) + 4)
            + 2 * palette ∧
      this + HBUINT32.get mem (this + (12 + 2 * HBUINT16.get mem (this + 4)) + 4)
            + 2 * palette + 2 ≤ c.end_ := by
  have hsize : CPAL.get_size mem this = 12 + 2 * HBUINT16.get mem (this + 4) := by
    simp only [CPAL.get_size, CPAL.min_size, CPAL.numPalettes, HBUINT16.static_size]
    omega
  have htail := (CPAL.sanitize_tail hs hv).2.2.1
  simp only [CPALV1Tail.paletteLabelZ, hsize, CPAL.numPalettes, ← Nat.add_assoc] at htail
  simp only [← Nat.add_assoc] at hL ⊢
  refine ⟨?_, by omega, by omega⟩
  have hguard : ¬(CPAL.version mem this = 0 ∨ palette ≥ CPAL.numPalettes mem this) := by
    simp only [CPAL.version, CPAL.numPalettes]
    omega
  rw [CPAL.get_palette_name_id, if_neg hguard, CPALV1Tail.get_palette_name_id,
    CPALV1Tail.paletteLabelZ, hsize]
  simp only [← Nat.add_assoc, UnsizedArrayOf.getU16, UnsizedArrayOf.addr, OffsetTo.deref,
    if_neg hL, Option.map_some', HBUINT16.static_size]

/-- Witness of C11 on the version-1 sample table: the label of palette 0 is the u16
`01 01` at table offset 34. -/
theorem CPAL.get_palette_name_id_sanitized_witness :
    CPAL.sanitize v1Ctx v1Mem 0 = true ∧ HBUINT16.get v1Mem 0 ≠ 0 ∧
      0 < HBUINT16.get v1Mem (0 + 4) ∧
      HBUINT32.get v1Mem (0 + (12 + 2 * HBUINT16.get v1Mem (0 + 4)) + 4) = 34 ∧
      CPAL.get_palette_name_id v1Mem 0 0 = HBUINT16.get v1Mem 34 ∧
      HBUINT16.get v1Mem 34 = 257 :=
  ⟨by decide, by decide, by decide, by decide,
    (CPAL.get_palette_name_id_sanitized v1Ctx v1Mem 0 0
      (by decide) (by decide) (by decide) (by decide)).1,
    by decide⟩

/-- C12, the code at the failing input: the version-1 table `v1NoFlagsTable`, whose
tail lies in the blob and whose palette-label and entry-label arrays lie in the blob,
has a zero `paletteFlagsZ` (no palette flags array) and is rejected by
`CPAL::sanitize`, while the same table with a palette flags array (`v1Table`) is
accepted. -/
theorem CPAL.sanitize_rejects_absent_palette_flags :
    CPAL.version v1NoFlagsMem 0 ≠ 0 ∧
      CPALV1Tail.paletteFlagsZ v1NoFlagsMem (0 + CPAL.get_size v1NoFlagsMem 0) = 0 ∧
      CPALV1Tail.paletteLabelZ v1NoFlagsMem (0 + CPAL.get_size v1NoFlagsMem 0) = 34 ∧
      CPALV1Tail.paletteEntryLabelZ v1NoFlagsMem (0 + CPAL.get_size v1NoFlagsMem 0) = 36 ∧
      CPAL.sanitize v1Ctx v1NoFlagsMem 0 = false ∧
      CPAL.sanitize v1Ctx v1Mem 0 = true := by
  decide

end OT

/-! # Theorems on the layout query engine -/

/-! ## Tag lookup -/

theorem store_store {α : Type} (p : Option α) (a b : α) : store (store p a) b = store p b := by
  cases p <;> rfl

theorem OT.RecordArrayOf.search_eq_none_iff {α : Type} (records : List (hb_tag_t × α))
    (tag : hb_tag_t) :
    OT.RecordArrayOf.search records tag = none ↔ tag ∉ records.map Prod.fst := by
  induction records with
  | nil => simp [OT.RecordArrayOf.search]
  | cons r rs ih =>
    unfold OT.RecordArrayOf.search
    by_cases h : r.1 = tag
    · simp [h]
    · rw [if_neg h, Option.map_eq_none', ih]
      simp [List.map_cons, List.mem_cons, Ne.symm h]

/-- The index found by a tag search is the first position of the tag. -/
theorem OT.RecordArrayOf.search_eq_some {α : Type} (records : List (hb_tag_t × α))
    (tag : hb_tag_t) (i : Nat) (h : OT.RecordArrayOf.search records tag = some i) :
    (records.map Prod.fst)[i]? = some tag ∧
      ∀ j, j < i → (records.map Prod.fst)[j]? ≠ some tag := by
  induction records generalizing i with
  | nil => simp [OT.RecordArrayOf.search] at h
  | cons r rs ih =>
    unfold OT.RecordArrayOf.search at h
    by_cases hr : r.1 = tag
    · rw [if_pos hr] at h
      cases h
      exact ⟨by simp [hr], fun j hj => absurd hj (Nat.not_lt_zero j)⟩
    · rw [if_neg hr] at h
      cases hs : OT.RecordArrayOf.search rs tag with
      | none => rw [hs] at h; cases h
      | some k =>
        rw [hs] at h
        cases h
        obtain ⟨h1, h2⟩ := ih k hs
        refine ⟨by simpa using h1, fun j hj => ?_⟩
        cases j with
        | zero => simpa using hr
        | succ j => simpa using h2 j (by simp only at hj; omega)

theorem OT.RecordArrayOf.search_isSome_of_mem {α : Type} (records : List (hb_tag_t × α))
    (tag : hb_tag_t) (h : tag ∈ records.map Prod.fst) :
    ∃ i, OT.RecordArrayOf.search records tag = some i := by
  cases hs : OT.RecordArrayOf.search records tag with
  | none => exact absurd h ((OT.RecordArrayOf.search_eq_none_iff records tag).mp hs)
  | some i => exact ⟨i, rfl⟩

theorem OT.RecordArrayOf.find_index_hit {α : Type} (records : List (hb_tag_t × α))
    (tag : hb_tag_t) (index : Option Nat) (i : Nat)
    (h : OT.RecordArrayOf.search records tag = some i) :
    OT.RecordArrayOf.find_index records tag index = { ret := true, index := store index i } := by
  simp [OT.RecordArrayOf.find_index, h]

theorem OT.RecordArrayOf.find_index_miss {α : Type} (records : List (hb_tag_t × α))
    (tag : hb_tag_t) (index : Option Nat)
    (h : tag ∉ records.map Prod.fst) :
    OT.RecordArrayOf.find_index records tag index =
      { ret := false, index := store index 0xFFFF } := by
  have hs := (OT.RecordArrayOf.search_eq_none_iff records tag).mpr h
  simp [OT.RecordArrayOf.find_index, hs, OT.Index.NOT_FOUND_INDEX]

/-! ## Script selection -/

/-- The fallback chain of `hb_ot_layout_table_select_script`, reached when no supplied
tag matched: `DFLT`, then `dflt`, then `latn`, then the sentinel. -/
theorem hb_ot_layout_table_select_script_body_nil (g : OT.GSUBGPOS) (script_index : Option Nat)
    (chosen_script : Option hb_tag_t) :
    hb_ot_layout_table_select_script.body g [] script_index chosen_script =
      match OT.RecordArrayOf.search g.scriptList HB_OT_TAG_DEFAULT_SCRIPT with
      | some i => { ret := false, script_index := store script_index i,
                    chosen_script := store chosen_script HB_OT_TAG_DEFAULT_SCRIPT }
      | none =>
        match OT.RecordArrayOf.search g.scriptList HB_OT_TAG_DEFAULT_LANGUAGE with
        | some i => { ret := false, script_index := store script_index i,
                      chosen_script := store chosen_script HB_OT_TAG_DEFAULT_LANGUAGE }
        | none =>
          match OT.RecordArrayOf.search g.scriptList HB_OT_TAG_LATIN_SCRIPT with
          | some i => { ret := false, script_index := store script_index i,
                        chosen_script := store chosen_script HB_OT_TAG_LATIN_SCRIPT }
          | none => { ret := false, script_index := store script_index 0xFFFF,
                      chosen_script := store chosen_script 0xFFFF } := by
  unfold hb_ot_layout_table_select_script.body
  simp only [OT.GSUBGPOS.find_script_index, OT.RecordArrayOf.find_index]
  cases OT.RecordArrayOf.search g.scriptList HB_OT_TAG_DEFAULT_SCRIPT with
  | some i => simp
  | none =>
    cases OT.RecordArrayOf.search g.scriptList HB_OT_TAG_DEFAULT_LANGUAGE with
    | some i => simp [store_store]
    | none =>
      cases OT.RecordArrayOf.search g.scriptList HB_OT_TAG_LATIN_SCRIPT with
      | some i => simp [store_store]
      | none => simp [store_store, HB_OT_LAYOUT_NO_SCRIPT_INDEX]

/-- The result of `hb_ot_layout_table_select_script` does not depend on what the index
cell held before the call. -/
theorem hb_ot_layout_table_select_script_body_store (g : OT.GSUBGPOS) (tags : List hb_tag_t)
    (script_index : Option Nat) (a : Nat) (chosen_script : Option hb_tag_t) :
    hb_ot_layout_table_select_script.body g tags (store script_index a) chosen_script =
      hb_ot_layout_table_select_script.body g tags script_index chosen_script := by
  induction tags generalizing script_index with
  | nil => simp only [hb_ot_layout_table_select_script_body_nil, store_store]
  | cons t rest ih =>
    unfold hb_ot_layout_table_select_script.body
    simp only [OT.GSUBGPOS.find_script_index, OT.RecordArrayOf.find_index]
    cases OT.RecordArrayOf.search g.scriptList t with
    | some i => simp [store_store]
    | none => simp [store_store]

theorem hb_ot_layout_table_select_script_body_cons_hit (g : OT.GSUBGPOS) (t : hb_tag_t)
    (rest : List hb_tag_t) (script_index : Option Nat) (chosen_script : Option hb_tag_t)
    (i : Nat) (h : OT.RecordArrayOf.search g.scriptList t = some i) :
    hb_ot_layout_table_select_script.body g (t :: rest) script_index chosen_script =
      { ret := true, script_index := store script_index i,
        chosen_script := store chosen_script t } := by
  unfold hb_ot_layout_table_select_script.body
  simp [OT.GSUBGPOS.find_script_index, OT.RecordArrayOf.find_index, h]

theorem hb_ot_layout_table_select_script_body_cons_miss (g : OT.GSUBGPOS) (t : hb_tag_t)
    (rest : List hb_tag_t) (script_index : Option Nat) (chosen_script : Option hb_tag_t)
    (h : t ∉ g.scriptList.map Prod.fst) :
    hb_ot_layout_table_select_script.body g (t :: rest) script_index chosen_script =
      hb_ot_layout_table_select_script.body g rest script_index chosen_script := by
  have hs := (OT.RecordArrayOf.search_eq_none_iff g.scriptList t).mpr h
  rw [← hb_ot_layout_table_select_script_body_store g rest script_index 0xFFFF]
  conv => lhs; unfold hb_ot_layout_table_select_script.body
  simp [OT.GSUBGPOS.find_script_index, OT.RecordArrayOf.find_index, hs,
    OT.Index.NOT_FOUND_INDEX]

theorem hb_ot_layout_table_select_script_body_all_miss (g : OT.GSUBGPOS)
    (pre rest : List hb_tag_t) (script_index : Option Nat) (chosen_script : Option hb_tag_t)
    (h : ∀ u ∈ pre, u ∉ g.scriptList.map Prod.fst) :
    hb_ot_layout_table_select_script.body g (pre ++ rest) script_index chosen_script =
      hb_ot_layout_table_select_script.body g rest script_index chosen_script := by
  induction pre with
  | nil => rfl
  | cons u pre ih =>
    rw [List.cons_append, hb_ot_layout_table_select_script_body_cons_miss g u _ _ _
      (h u (List.mem_cons_self u pre))]
    exact ih fun v hv => h v (List.mem_cons_of_mem u hv)

theorem hb_ot_layout_table_select_script_body_ret (g : OT.GSUBGPOS) (tags : List hb_tag_t)
    (script_index : Option Nat) (chosen_script : Option hb_tag_t) :
    (hb_ot_layout_table_select_script.body g tags script_index chosen_script).ret = true ↔
      ∃ t ∈ tags, t ∈ g.scriptList.map Prod.fst := by
  induction tags with
  | nil =>
    rw [hb_ot_layout_table_select_script_body_nil]
    constructor
    · intro h
      split at h
      · cases h
      · split at h
        · cases h
        · split at h <;> cases h
    · rintro ⟨t, ht, -⟩
      cases ht
  | cons u rest ih =>
    by_cases hu : u ∈ g.scriptList.map Prod.fst
    · obtain ⟨i, hi⟩ := OT.RecordArrayOf.search_isSome_of_mem _ _ hu
      rw [hb_ot_layout_table_select_script_body_cons_hit g u rest _ _ i hi]
      exact ⟨fun _ => ⟨u, List.mem_cons_self u rest, hu⟩, fun _ => rfl⟩
    · rw [hb_ot_layout_table_select_script_body_cons_miss g u rest _ _ hu, ih]
      constructor
      · rintro ⟨t, ht, hp⟩
        exact ⟨t, List.mem_cons_of_mem u ht, hp⟩
      · rintro ⟨t, ht, hp⟩
        rcases List.mem_cons.mp ht with rfl | ht
        · exact absurd hp hu
        · exact ⟨t, ht, hp⟩

/-- C13: for every table and every caller-supplied list of script tags,
`hb_ot_layout_table_select_script` returns true if and only if at least one supplied
tag equals a script tag of the table; and when the supplied tags are `pre`, then `t`,
then `post`, no tag of `pre` being in the table and `t` being in the table, the call
returns true, `script_index` is the (first) table index `i` of `t` and
`chosen_script` is `t`. -/
theorem hb_ot_layout_table_select_script_exact_match (face : hb_face_t)
    (table_tag : hb_tag_t) (script_tags : List hb_tag_t) (script_index : Option Nat)
    (chosen_script : Option hb_tag_t) :
    ((hb_ot_layout_table_select_script face table_tag script_tags script_index
          chosen_script).ret = true ↔
        ∃ t ∈ script_tags, t ∈ (get_gsubgpos_table face table_tag).scriptList.map Prod.fst) ∧
      ∀ (pre post : List hb_tag_t) (t : hb_tag_t), script_tags = pre ++ t :: post →
        (∀ u ∈ pre, u ∉ (get_gsubgpos_table face table_tag).scriptList.map Prod.fst) →
        t ∈ (get_gsubgpos_table face table_tag).scriptList.map Prod.fst →
        ∃ i, ((get_gsubgpos_table face table_tag).scriptList.map Prod.fst)[i]? = some t ∧
          (∀ j, j < i →
            ((get_gsubgpos_table face table_tag).scriptList.map Prod.fst)[j]? ≠ some t) ∧
          hb_ot_layout_table_select_script face table_tag script_tags script_index
              chosen_script =
            { ret := true, script_index := store script_index i,
              chosen_script := store chosen_script t } := by
  refine ⟨hb_ot_layout_table_select_script_body_ret _ _ _ _, ?_⟩
  intro pre post t htags hpre ht
  obtain ⟨i, hi⟩ := OT.RecordArrayOf.search_isSome_of_mem _ _ ht
  obtain ⟨h1, h2⟩ := OT.RecordArrayOf.search_eq_some _ _ _ hi
  refine ⟨i, h1, h2, ?_⟩
  rw [hb_ot_layout_table_select_script, htags,
    hb_ot_layout_table_select_script_body_all_miss _ pre _ _ _ hpre,
    hb_ot_layout_table_select_script_body_cons_hit _ t post _ _ i hi]

/-- Witness of C13, the example of the spec: the tags `xyz1`, `latn` against a table
holding `DFLT` (index 0) and `latn` (index 1) select `latn`, index 1, and return
true. -/
theorem hb_ot_layout_table_select_script_exact_match_witness :
    (∃ i, ((get_gsubgpos_table sampleFace HB_OT_TAG_GSUB).scriptList.map Prod.fst)[i]?
          = some (HB_TAG 'l' 'a' 't' 'n') ∧
      hb_ot_layout_table_select_script sampleFace HB_OT_TAG_GSUB
          [HB_TAG 'x' 'y' 'z' '1', HB_TAG 'l' 'a' 't' 'n'] (some 0) (some 0) =
        { ret := true, script_index := store (some 0) i,
          chosen_script := store (some 0) (HB_TAG 'l' 'a' 't' 'n') }) ∧
      hb_ot_layout_table_select_script sampleFace HB_OT_TAG_GSUB
          [HB_TAG 'x' 'y' 'z' '1', HB_TAG 'l' 'a' 't' 'n'] (some 0) (some 0) =
        { ret := true, script_index := some 1,
          chosen_script := some (HB_TAG 'l' 'a' 't' 'n') } :=
  ⟨((hb_ot_layout_table_select_script_exact_match sampleFace HB_OT_TAG_GSUB
      [HB_TAG 'x' 'y' 'z' '1', HB_TAG 'l' 'a' 't' 'n'] (some 0) (some 0)).2
    [HB_TAG 'x' 'y' 'z' '1'] [] (HB_TAG 'l' 'a' 't' 'n') rfl (by decide) (by decide)).imp
    fun _ h => ⟨h.1, h.2.2⟩, by decide⟩

/-- When no supplied tag is in the table, the loop falls through to the fallback
chain. -/
theorem hb_ot_layout_table_select_script_body_all_miss_nil (g : OT.GSUBGPOS)
    (tags : List hb_tag_t) (script_index : Option Nat) (chosen_script : Option hb_tag_t)
    (h : ∀ u ∈ tags, u ∉ g.scriptList.map Prod.fst) :
    hb_ot_layout_table_select_script.body g tags script_index chosen_script =
      hb_ot_layout_table_select_script.body g [] script_index chosen_script := by
  have := hb_ot_layout_table_select_script_body_all_miss g tags [] script_index chosen_script h
  rwa [List.append_nil] at this

/-- C14: for every table and every list of script tags none of which is in the table,
`hb_ot_layout_table_select_script` returns false and selects the first present tag in
the fixed order `DFLT`, `dflt`, `latn`: `script_index` is the (first) table index of
that tag and `chosen_script` is that tag. -/
theorem hb_ot_layout_table_select_script_fallback (face : hb_face_t)
    (table_tag : hb_tag_t) (script_tags : List hb_tag_t) (script_index : Option Nat)
    (chosen_script : Option hb_tag_t)
    (hnone : ∀ t ∈ script_tags,
      t ∉ (get_gsubgpos_table face table_tag).scriptList.map Prod.fst) :
    (hb_ot_layout_table_select_script face table_tag script_tags script_index
        chosen_script).ret = false ∧
      (HB_TAG 'D' 'F' 'L' 'T' ∈ (get_gsubgpos_table face table_tag).scriptList.map Prod.fst →
        ∃ i, ((get_gsubgpos_table face table_tag).scriptList.map Prod.fst)[i]?
              = some (HB_TAG 'D' 'F' 'L' 'T') ∧
          (∀ j, j < i → ((get_gsubgpos_table face table_tag).scriptList.map Prod.fst)[j]?
              ≠ some (HB_TAG 'D' 'F' 'L' 'T')) ∧
          hb_ot_layout_table_select_script face table_tag script_tags script_index
              chosen_script =
            { ret := false, script_index := store script_index i,
              chosen_script := store chosen_script (HB_TAG 'D' 'F' 'L' 'T') }) ∧
      (HB_TAG 'D' 'F' 'L' 'T' ∉ (get_gsubgpos_table face table_tag).scriptList.map Prod.fst →
        HB_TAG 'd' 'f' 'l' 't' ∈ (get_gsubgpos_table face table_tag).scriptList.map Prod.fst →
        ∃ i, ((get_gsubgpos_table face table_tag).scriptList.map Prod.fst)[i]?
              = some (HB_TAG 'd' 'f' 'l' 't') ∧
          (∀ j, j < i → ((get_gsubgpos_table face table_tag).scriptList.map Prod.fst)[j]?
              ≠ some (HB_TAG 'd' 'f' 'l' 't')) ∧
          hb_ot_layout_table_select_script face table_tag script_tags script_index
              chosen_script =
            { ret := false, script_index := store script_index i,
              chosen_script := store chosen_script (HB_TAG 'd' 'f' 'l' 't') }) ∧
      (HB_TAG 'D' 'F' 'L' 'T' ∉ (get_gsubgpos_table face table_tag).scriptList.map Prod.fst →
        HB_TAG 'd' 'f' 'l' 't' ∉ (get_gsubgpos_table face table_tag).scriptList.map Prod.fst →
        HB_TAG 'l' 'a' 't' 'n' ∈ (get_gsubgpos_table face table_tag).scriptList.map Prod.fst →
        ∃ i, ((get_gsubgpos_table face table_tag).scriptList.map Prod.fst)[i]?
              = some (HB_TAG 'l' 'a' 't' 'n') ∧
          (∀ j, j < i → ((get_gsubgpos_table face table_tag).scriptList.map Prod.fst)[j]?
              ≠ some (HB_TAG 'l' 'a' 't' 'n')) ∧
          hb_ot_layout_table_select_script face table_tag script_tags script_index
              chosen_script =
            { ret := false, script_index := store script_index i,
              chosen_script := store chosen_script (HB_TAG 'l' 'a' 't' 'n') }) := by
  have hbody : hb_ot_layout_table_select_script face table_tag script_tags script_index
      chosen_script = hb_ot_layout_table_select_script.body
        (get_gsubgpos_table face table_tag) [] script_index chosen_script :=
    hb_ot_layout_table_select_script_body_all_miss_nil _ _ _ _ hnone
  have hnil := hb_ot_layout_table_select_script_body_nil (get_gsubgpos_table face table_tag)
    script_index chosen_script
  refine ⟨?_, fun hD => ?_, fun hD hd => ?_, fun hD hd hl => ?_⟩
  · cases hr : (hb_ot_layout_table_select_script face table_tag script_tags script_index
        chosen_script).ret with
    | false => rfl
    | true =>
      obtain ⟨t, ht, hp⟩ := (hb_ot_layout_table_select_script_body_ret _ _ _ _).mp hr
      exact absurd hp (hnone t ht)
  · obtain ⟨i, hi⟩ := OT.RecordArrayOf.search_isSome_of_mem _ _ hD
    obtain ⟨h1, h2⟩ := OT.RecordArrayOf.search_eq_some _ _ _ hi
    refine ⟨i, h1, h2, ?_⟩
    rw [hbody, hnil]
    simp only [HB_OT_TAG_DEFAULT_SCRIPT, hi]
  · have hDn := (OT.RecordArrayOf.search_eq_none_iff _ _).mpr hD
    obtain ⟨i, hi⟩ := OT.RecordArrayOf.search_isSome_of_mem _ _ hd
    obtain ⟨h1, h2⟩ := OT.RecordArrayOf.search_eq_some _ _ _ hi
    refine ⟨i, h1, h2, ?_⟩
    rw [hbody, hnil]
    simp only [HB_OT_TAG_DEFAULT_SCRIPT, HB_OT_TAG_DEFAULT_LANGUAGE, hDn, hi]
  · have hDn := (OT.RecordArrayOf.search_eq_none_iff _ _).mpr hD
    have hdn := (OT.RecordArrayOf.search_eq_none_iff _ _).mpr hd
    obtain ⟨i, hi⟩ := OT.RecordArrayOf.search_isSome_of_mem _ _ hl
    obtain ⟨h1, h2⟩ := OT.RecordArrayOf.search_eq_some _ _ _ hi
    refine ⟨i, h1, h2, ?_⟩
    rw [hbody, hnil]
    simp only [HB_OT_TAG_DEFAULT_SCRIPT, HB_OT_TAG_DEFAULT_LANGUAGE, HB_OT_TAG_LATIN_SCRIPT,
      hDn, hdn, hi]

/-- Witness of C14: with the tag `xyz1` alone, the table holding `DFLT` and `latn`
yields `DFLT` (index 0), and the table holding `dflt` and `latn` yields `dflt`
(index 0); both calls return false. -/
theorem hb_ot_layout_table_select_script_fallback_witness :
    (∀ t ∈ [HB_TAG 'x' 'y' 'z' '1'],
        t ∉ (get_gsubgpos_table sampleFace HB_OT_TAG_GSUB).scriptList.map Prod.fst) ∧
      (hb_ot_layout_table_select_script sampleFace HB_OT_TAG_GSUB [HB_TAG 'x' 'y' 'z' '1']
        (some 7) (some 7)).ret = false ∧
      hb_ot_layout_table_select_script sampleFace HB_OT_TAG_GSUB [HB_TAG 'x' 'y' 'z' '1']
          (some 7) (some 7) =
        { ret := false, script_index := some 0,
          chosen_script := some (HB_TAG 'D' 'F' 'L' 'T') } ∧
      hb_ot_layout_table_select_script sampleFace HB_OT_TAG_GPOS [HB_TAG 'x' 'y' 'z' '1']
          (some 7) (some 7) =
        { ret := false, script_index := some 0,
          chosen_script := some (HB_TAG 'd' 'f' 'l' 't') } :=
  ⟨by decide,
    (hb_ot_layout_table_select_script_fallback sampleFace HB_OT_TAG_GSUB
      [HB_TAG 'x' 'y' 'z' '1'] (some 7) (some 7) (by decide)).1,
    by decide, by decide⟩

/-- The sentinel result of `hb_ot_layout_table_select_script` on a table `g` that holds
none of the supplied tags and none of the three fallback tags. -/
theorem hb_ot_layout_table_select_script_body_not_found (g : OT.GSUBGPOS)
    (tags : List hb_tag_t) (script_index : Option Nat) (chosen_script : Option hb_tag_t)
    (hnone : ∀ t ∈ tags, t ∉ g.scriptList.map Prod.fst)
    (hD : HB_TAG 'D' 'F' 'L' 'T' ∉ g.scriptList.map Prod.fst)
    (hd : HB_TAG 'd' 'f' 'l' 't' ∉ g.scriptList.map Prod.fst)
    (hl : HB_TAG 'l' 'a' 't' 'n' ∉ g.scriptList.map Prod.fst) :
    hb_ot_layout_table_select_script.body g tags script_index chosen_script =
      { ret := false, script_index := store script_index 0xFFFF,
        chosen_script := store chosen_script 0xFFFF } := by
  have hDn := (OT.RecordArrayOf.search_eq_none_iff _ _).mpr hD
  have hdn := (OT.RecordArrayOf.search_eq_none_iff _ _).mpr hd
  have hln := (OT.RecordArrayOf.search_eq_none_iff _ _).mpr hl
  rw [hb_ot_layout_table_select_script_body_all_miss_nil _ _ _ _ hnone,
    hb_ot_layout_table_select_script_body_nil]
  simp only [HB_OT_TAG_DEFAULT_SCRIPT, HB_OT_TAG_DEFAULT_LANGUAGE, HB_OT_TAG_LATIN_SCRIPT,
    hDn, hdn, hln]

/-- `hb_ot_layout_table_find_script` on a tag that the table does not hold goes through
the same fallback chain as `hb_ot_layout_table_select_script`. -/
theorem hb_ot_layout_table_find_script_miss (face : hb_face_t) (table_tag script_tag : hb_tag_t)
    (script_index : Option Nat) (chosen_script : Option hb_tag_t)
    (h : script_tag ∉ (get_gsubgpos_table face table_tag).scriptList.map Prod.fst) :
    hb_ot_layout_table_find_script face table_tag script_tag script_index =
      { ret := (hb_ot_layout_table_select_script.body (get_gsubgpos_table face table_tag) []
                  script_index chosen_script).ret,
        index := (hb_ot_layout_table_select_script.body (get_gsubgpos_table face table_tag) []
                  script_index chosen_script).script_index } := by
  have hs := (OT.RecordArrayOf.search_eq_none_iff _ _).mpr h
  rw [hb_ot_layout_table_select_script_body_nil]
  unfold hb_ot_layout_table_find_script
  simp only [OT.GSUBGPOS.find_script_index, OT.RecordArrayOf.find_index, hs]
  cases OT.RecordArrayOf.search (get_gsubgpos_table face table_tag).scriptList
      HB_OT_TAG_DEFAULT_SCRIPT with
  | some i => simp [store_store]
  | none =>
    cases OT.RecordArrayOf.search (get_gsubgpos_table face table_tag).scriptList
        HB_OT_TAG_DEFAULT_LANGUAGE with
    | some i => simp [store_store]
    | none =>
      cases OT.RecordArrayOf.search (get_gsubgpos_table face table_tag).scriptList
          HB_OT_TAG_LATIN_SCRIPT with
      | some i => simp [store_store]
      | none => simp [store_store, HB_OT_LAYOUT_NO_SCRIPT_INDEX]

/-- C15: for every table that contains none of the caller-supplied script tags and
none of `DFLT`, `dflt`, `latn`, `hb_ot_layout_table_select_script` and
`hb_ot_layout_table_find_script` return false and set `script_index` to the sentinel
`HB_OT_LAYOUT_NO_SCRIPT_INDEX` (`0xFFFF`); `select_script` also sets `chosen_script` to
that same value. -/
theorem hb_ot_layout_table_select_script_not_found (face : hb_face_t)
    (table_tag : hb_tag_t) (script_tags : List hb_tag_t) (script_tag : hb_tag_t)
    (script_index : Option Nat) (chosen_script : Option hb_tag_t)
    (hnone : ∀ t ∈ script_tags,
      t ∉ (get_gsubgpos_table face table_tag).scriptList.map Prod.fst)
    (htag : script_tag ∉ (get_gsubgpos_table face table_tag).scriptList.map Prod.fst)
    (hD : HB_TAG 'D' 'F' 'L' 'T' ∉ (get_gsubgpos_table face table_tag).scriptList.map Prod.fst)
    (hd : HB_TAG 'd' 'f' 'l' 't' ∉ (get_gsubgpos_table face table_tag).scriptList.map Prod.fst)
    (hl : HB_TAG 'l' 'a' 't' 'n' ∉ (get_gsubgpos_table face table_tag).scriptList.map Prod.fst) :
    hb_ot_layout_table_select_script face table_tag script_tags script_index chosen_script =
        { ret := false, script_index := store script_index 0xFFFF,
          chosen_script := store chosen_script 0xFFFF } ∧
      hb_ot_layout_table_find_script face table_tag script_tag script_index =
        { ret := false, index := store script_index 0xFFFF } ∧
      HB_OT_LAYOUT_NO_SCRIPT_INDEX = 0xFFFF := by
  have hnil := hb_ot_layout_table_select_script_body_not_found
    (get_gsubgpos_table face table_tag) [] script_index chosen_script
    (fun _ h => absurd h (List.not_mem_nil _)) hD hd hl
  refine ⟨?_, ?_, rfl⟩
  · exact hb_ot_layout_table_select_script_body_not_found _ _ _ _ hnone hD hd hl
  · rw [hb_ot_layout_table_find_script_miss face table_tag script_tag script_index
      chosen_script htag, hnil]

/-- Witness of C15: the empty table (here the table of the tag `GDEF`, which is neither
GSUB nor GPOS) and the empty tag list. -/
theorem hb_ot_layout_table_select_script_not_found_witness :
    (get_gsubgpos_table sampleFace (HB_TAG 'G' 'D' 'E' 'F')).scriptList = [] ∧
      (∀ t ∈ ([] : List hb_tag_t),
        t ∉ (get_gsubgpos_table sampleFace (HB_TAG 'G' 'D' 'E' 'F')).scriptList.map Prod.fst) ∧
      hb_ot_layout_table_select_script sampleFace (HB_TAG 'G' 'D' 'E' 'F') [] (some 3)
          (some 5) =
        { ret := false, script_index := some 0xFFFF, chosen_script := some 0xFFFF } ∧
      hb_ot_layout_table_find_script sampleFace (HB_TAG 'G' 'D' 'E' 'F')
          (HB_TAG 'l' 'a' 't' 'n') (some 3) =
        { ret := false, index := some 0xFFFF } :=
  ⟨by decide, by decide,
    (hb_ot_layout_table_select_script_not_found sampleFace (HB_TAG 'G' 'D' 'E' 'F') []
      (HB_TAG 'l' 'a' 't' 'n') (some 3) (some 5)
      (by decide) (by decide) (by decide) (by decide) (by decide)).1,
    (hb_ot_layout_table_select_script_not_found sampleFace (HB_TAG 'G' 'D' 'E' 'F') []
      (HB_TAG 'l' 'a' 't' 'n') (some 3) (some 5)
      (by decide) (by decide) (by decide) (by decide) (by decide)).2.1⟩

/-! ## Language selection -/

/-- The fallback of `hb_ot_layout_script_select_language`, reached when no supplied tag
matched: `dflt`, then the sentinel. -/
theorem hb_ot_layout_script_select_language_body_nil (s : OT.Script)
    (language_index : Option Nat) :
    hb_ot_layout_script_select_language.body s [] language_index =
      match OT.RecordArrayOf.search s.langSys HB_OT_TAG_DEFAULT_LANGUAGE with
      | some i => { ret := false, index := store language_index i }
      | none => { ret := false, index := store language_index 0xFFFF } := by
  unfold hb_ot_layout_script_select_language.body
  simp only [OT.Script.find_lang_sys_index, OT.RecordArrayOf.find_index]
  cases OT.RecordArrayOf.search s.langSys HB_OT_TAG_DEFAULT_LANGUAGE with
  | some i => simp
  | none => simp [store_store, HB_OT_LAYOUT_DEFAULT_LANGUAGE_INDEX]

theorem hb_ot_layout_script_select_language_body_store (s : OT.Script) (tags : List hb_tag_t)
    (language_index : Option Nat) (a : Nat) :
    hb_ot_layout_script_select_language.body s tags (store language_index a) =
      hb_ot_layout_script_select_language.body s tags language_index := by
  induction tags generalizing language_index with
  | nil => simp only [hb_ot_layout_script_select_language_body_nil, store_store]
  | cons t rest ih =>
    unfold hb_ot_layout_script_select_language.body
    simp only [OT.Script.find_lang_sys_index, OT.RecordArrayOf.find_index]
    cases OT.RecordArrayOf.search s.langSys t with
    | some i => simp [store_store]
    | none => simp [store_store]

theorem hb_ot_layout_script_select_language_body_cons_hit (s : OT.Script) (t : hb_tag_t)
    (rest : List hb_tag_t) (language_index : Option Nat) (i : Nat)
    (h : OT.RecordArrayOf.search s.langSys t = some i) :
    hb_ot_layout_script_select_language.body s (t :: rest) language_index =
      { ret := true, index := store language_index i } := by
  unfold hb_ot_layout_script_select_language.body
  simp [OT.Script.find_lang_sys_index, OT.RecordArrayOf.find_index, h]

theorem hb_ot_layout_script_select_language_body_cons_miss (s : OT.Script) (t : hb_tag_t)
    (rest : List hb_tag_t) (language_index : Option Nat)
    (h : t ∉ s.langSys.map Prod.fst) :
    hb_ot_layout_script_select_language.body s (t :: rest) language_index =
      hb_ot_layout_script_select_language.body s rest language_index := by
  have hs := (OT.RecordArrayOf.search_eq_none_iff s.langSys t).mpr h
  rw [← hb_ot_layout_script_select_language_body_store s rest language_index 0xFFFF]
  conv => lhs; unfold hb_ot_layout_script_select_language.body
  simp [OT.Script.find_lang_sys_index, OT.RecordArrayOf.find_index, hs,
    OT.Index.NOT_FOUND_INDEX]

theorem hb_ot_layout_script_select_language_body_all_miss (s : OT.Script)
    (pre rest : List hb_tag_t) (language_index : Option Nat)
    (h : ∀ u ∈ pre, u ∉ s.langSys.map Prod.fst) :
    hb_ot_layout_script_select_language.body s (pre ++ rest) language_index =
      hb_ot_layout_script_select_language.body s rest language_index := by
  induction pre with
  | nil => rfl
  | cons u pre ih =>
    rw [List.cons_append, hb_ot_layout_script_select_language_body_cons_miss s u _ _
      (h u (List.mem_cons_self u pre))]
    exact ih fun v hv => h v (List.mem_cons_of_mem u hv)

theorem hb_ot_layout_script_select_language_body_all_miss_nil (s : OT.Script)
    (tags : List hb_tag_t) (language_index : Option Nat)
    (h : ∀ u ∈ tags, u ∉ s.langSys.map Prod.fst) :
    hb_ot_layout_script_select_language.body s tags language_index =
      hb_ot_layout_script_select_language.body s [] language_index := by
  have := hb_ot_layout_script_select_language_body_all_miss s tags [] language_index h
  rwa [List.append_nil] at this

theorem hb_ot_layout_script_select_language_body_ret (s : OT.Script) (tags : List hb_tag_t)
    (language_index : Option Nat) :
    (hb_ot_layout_script_select_language.body s tags language_index).ret = true ↔
      ∃ t ∈ tags, t ∈ s.langSys.map Prod.fst := by
  induction tags with
  | nil =>
    rw [hb_ot_layout_script_select_language_body_nil]
    constructor
    · intro h
      split at h <;> cases h
    · rintro ⟨t, ht, -⟩
      cases ht
  | cons u rest ih =>
    by_cases hu : u ∈ s.langSys.map Prod.fst
    · obtain ⟨i, hi⟩ := OT.RecordArrayOf.search_isSome_of_mem _ _ hu
      rw [hb_ot_layout_script_select_language_body_cons_hit s u rest _ i hi]
      exact ⟨fun _ => ⟨u, List.mem_cons_self u rest, hu⟩, fun _ => rfl⟩
    · rw [hb_ot_layout_script_select_language_body_cons_miss s u rest _ hu, ih]
      constructor
      · rintro ⟨t, ht, hp⟩
        exact ⟨t, List.mem_cons_of_mem u ht, hp⟩
      · rintro ⟨t, ht, hp⟩
        rcases List.mem_cons.mp ht with rfl | ht
        · exact absurd hp hu
        · exact ⟨t, ht, hp⟩

/-- C16, the claim fails.  Script 1 (`latn`) of the sample GSUB table has the language
systems `DFLT` (index 0), `TRK ` (index 1) and `dflt` (index 2): with the supplied tag
`xyz1`, which is not among them, `hb_ot_layout_script_select_language` sets
`language_index` to 2 (`dflt`), not to 0 (`DFLT`).  Script 1 of the sample GPOS table
has the single language system `DFLT` (index 0): the call sets `language_index` to the
sentinel `0xFFFF`, not to 0. -/
theorem hb_ot_layout_script_select_language_ignores_DFLT :
    ((get_gsubgpos_table sampleFace HB_OT_TAG_GSUB).get_script 1).langSys.map Prod.fst
        = [HB_TAG 'D' 'F' 'L' 'T', HB_TAG 'T' 'R' 'K' ' ', HB_TAG 'd' 'f' 'l' 't'] ∧
      hb_ot_layout_script_select_language sampleFace HB_OT_TAG_GSUB 1
          [HB_TAG 'x' 'y' 'z' '1'] (some 0) = { ret := false, index := some 2 } ∧
      ((get_gsubgpos_table sampleFace HB_OT_TAG_GPOS).get_script 1).langSys.map Prod.fst
        = [HB_TAG 'D' 'F' 'L' 'T'] ∧
      hb_ot_layout_script_select_language sampleFace HB_OT_TAG_GPOS 1
          [HB_TAG 'x' 'y' 'z' '1'] (some 0) = { ret := false, index := some 0xFFFF } := by
  decide

/-- C16 as amended: for every script and every list of language tags none of which is a
language-system tag of the script, `hb_ot_layout_script_select_language` returns false
and, if the script has a language system tagged `dflt`, sets `language_index` to its
(first) index, whether or not the script also has one tagged `DFLT`: the only fallback
of language resolution is `dflt`. -/
theorem hb_ot_layout_script_select_language_fallback (face : hb_face_t)
    (table_tag : hb_tag_t) (script_index : Nat) (language_tags : List hb_tag_t)
    (language_index : Option Nat)
    (hnone : ∀ t ∈ language_tags,
      t ∉ ((get_gsubgpos_table face table_tag).get_script script_index).langSys.map Prod.fst) :
    (hb_ot_layout_script_select_language face table_tag script_index language_tags
        language_index).ret = false ∧
      (HB_TAG 'd' 'f' 'l' 't' ∈
          ((get_gsubgpos_table face table_tag).get_script script_index).langSys.map Prod.fst →
        ∃ i, (((get_gsubgpos_table face table_tag).get_script script_index).langSys.map
                Prod.fst)[i]? = some (HB_TAG 'd' 'f' 'l' 't') ∧
          (∀ j, j < i →
            (((get_gsubgpos_table face table_tag).get_script script_index).langSys.map
                Prod.fst)[j]? ≠ some (HB_TAG 'd' 'f' 'l' 't')) ∧
          hb_ot_layout_script_select_language face table_tag script_index language_tags
              language_index = { ret := false, index := store language_index i }) := by
  have hbody := hb_ot_layout_script_select_language_body_all_miss_nil _ _ language_index hnone
  have hnil := hb_ot_layout_script_select_language_body_nil
    ((get_gsubgpos_table face table_tag).get_script script_index) language_index
  refine ⟨?_, fun hd => ?_⟩
  · cases hr : (hb_ot_layout_script_select_language face table_tag script_index language_tags
        language_index).ret with
    | false => rfl
    | true =>
      obtain ⟨t, ht, hp⟩ := (hb_ot_layout_script_select_language_body_ret _ _ _).mp hr
      exact absurd hp (hnone t ht)
  · obtain ⟨i, hi⟩ := OT.RecordArrayOf.search_isSome_of_mem _ _ hd
    obtain ⟨h1, h2⟩ := OT.RecordArrayOf.search_eq_some _ _ _ hi
    refine ⟨i, h1, h2, ?_⟩
    rw [hb_ot_layout_script_select_language, hbody, hnil]
    simp only [HB_OT_TAG_DEFAULT_LANGUAGE, hi]

/-- Witness of the amended C16 on script 1 of the sample GSUB table. -/
theorem hb_ot_layout_script_select_language_fallback_witness :
    (∀ t ∈ [HB_TAG 'x' 'y' 'z' '1'],
        t ∉ ((get_gsubgpos_table sampleFace HB_OT_TAG_GSUB).get_script 1).langSys.map
              Prod.fst) ∧
      (hb_ot_layout_script_select_language sampleFace HB_OT_TAG_GSUB 1
        [HB_TAG 'x' 'y' 'z' '1'] (some 0)).ret = false :=
  ⟨by decide,
    (hb_ot_layout_script_select_language_fallback sampleFace HB_OT_TAG_GSUB 1
      [HB_TAG 'x' 'y' 'z' '1'] (some 0) (by decide)).1⟩

/-- C17: for every script and every caller-supplied list of language tags,
`hb_ot_layout_script_select_language` returns true if and only if at least one supplied
tag is a language-system tag of the script; when the supplied tags are `pre`, then `t`,
then `post`, no tag of `pre` being in the script and `t` being in the script, the call
returns true and `language_index` is the (first) index of `t`; and
`hb_ot_layout_script_find_language (tag)` gives the result of `select_language` with
the one-element list `[tag]`. -/
theorem hb_ot_layout_script_select_language_exact_match (face : hb_face_t)
    (table_tag : hb_tag_t) (script_index : Nat) (language_tags : List hb_tag_t)
    (language_tag : hb_tag_t) (language_index : Option Nat) :
    ((hb_ot_layout_script_select_language face table_tag script_index language_tags
          language_index).ret = true ↔
        ∃ t ∈ language_tags,
          t ∈ ((get_gsubgpos_table face table_tag).get_script script_index).langSys.map
                Prod.fst) ∧
      (∀ (pre post : List hb_tag_t) (t : hb_tag_t), language_tags = pre ++ t :: post →
        (∀ u ∈ pre,
          u ∉ ((get_gsubgpos_table face table_tag).get_script script_index).langSys.map
                Prod.fst) →
        t ∈ ((get_gsubgpos_table face table_tag).get_script script_index).langSys.map
              Prod.fst →
        ∃ i, (((get_gsubgpos_table face table_tag).get_script script_index).langSys.map
                Prod.fst)[i]? = some t ∧
          (∀ j, j < i →
            (((get_gsubgpos_table face table_tag).get_script script_index).langSys.map
                Prod.fst)[j]? ≠ some t) ∧
          hb_ot_layout_script_select_language face table_tag script_index language_tags
              language_index = { ret := true, index := store language_index i }) ∧
      hb_ot_layout_script_find_language face table_tag script_index language_tag
          language_index =
        hb_ot_layout_script_select_language face table_tag script_index [language_tag]
          language_index := by
  refine ⟨hb_ot_layout_script_select_language_body_ret _ _ _, ?_, rfl⟩
  intro pre post t htags hpre ht
  obtain ⟨i, hi⟩ := OT.RecordArrayOf.search_isSome_of_mem _ _ ht
  obtain ⟨h1, h2⟩ := OT.RecordArrayOf.search_eq_some _ _ _ hi
  refine ⟨i, h1, h2, ?_⟩
  rw [hb_ot_layout_script_select_language, htags,
    hb_ot_layout_script_select_language_body_all_miss _ pre _ _ hpre,
    hb_ot_layout_script_select_language_body_cons_hit _ t post _ i hi]

/-- Witness of C17 on script 1 of the sample GSUB table: of the tags `xyz1`, `TRK `,
`DFLT` the first one present is `TRK `, at index 1. -/
theorem hb_ot_layout_script_select_language_exact_match_witness :
    (∃ i, (((get_gsubgpos_table sampleFace HB_OT_TAG_GSUB).get_script 1).langSys.map
              Prod.fst)[i]? = some (HB_TAG 'T' 'R' 'K' ' ') ∧
        hb_ot_layout_script_select_language sampleFace HB_OT_TAG_GSUB 1
            [HB_TAG 'x' 'y' 'z' '1', HB_TAG 'T' 'R' 'K' ' ', HB_TAG 'D' 'F' 'L' 'T'] (some 0)
          = { ret := true, index := store (some 0) i }) ∧
      hb_ot_layout_script_select_language sampleFace HB_OT_TAG_GSUB 1
          [HB_TAG 'x' 'y' 'z' '1', HB_TAG 'T' 'R' 'K' ' ', HB_TAG 'D' 'F' 'L' 'T'] (some 0)
        = { ret := true, index := some 1 } :=
  ⟨((hb_ot_layout_script_select_language_exact_match sampleFace HB_OT_TAG_GSUB 1
      [HB_TAG 'x' 'y' 'z' '1', HB_TAG 'T' 'R' 'K' ' ', HB_TAG 'D' 'F' 'L' 'T'] 0 (some 0)).2.1
      [HB_TAG 'x' 'y' 'z' '1'] [HB_TAG 'D' 'F' 'L' 'T'] (HB_TAG 'T' 'R' 'K' ' ') rfl
      (by decide) (by decide)).imp fun _ h => ⟨h.1, h.2.2⟩,
    by decide⟩

/-- C18: for every script in which neither a caller-supplied language tag nor the
default-language fallback tag `dflt` is present, `hb_ot_layout_script_select_language`
returns false and sets `language_index` to the sentinel
`HB_OT_LAYOUT_DEFAULT_LANGUAGE_INDEX` (`0xFFFF`); in particular a script whose only
language system is tagged `latn` yields the sentinel when `latn` was not requested:
`latn` is no language fallback. -/
theorem hb_ot_layout_script_select_language_not_found (face : hb_face_t)
    (table_tag : hb_tag_t) (script_index : Nat) (language_tags : List hb_tag_t)
    (language_index : Option Nat)
    (hnone : ∀ t ∈ language_tags,
      t ∉ ((get_gsubgpos_table face table_tag).get_script script_index).langSys.map Prod.fst)
    (hd : HB_TAG 'd' 'f' 'l' 't' ∉
      ((get_gsubgpos_table face table_tag).get_script script_index).langSys.map Prod.fst) :
    hb_ot_layout_script_select_language face table_tag script_index language_tags
        language_index = { ret := false, index := store language_index 0xFFFF } ∧
      HB_OT_LAYOUT_DEFAULT_LANGUAGE_INDEX = 0xFFFF := by
  have hdn := (OT.RecordArrayOf.search_eq_none_iff _ _).mpr hd
  refine ⟨?_, rfl⟩
  rw [hb_ot_layout_script_select_language,
    hb_ot_layout_script_select_language_body_all_miss_nil _ _ _ hnone,
    hb_ot_layout_script_select_language_body_nil]
  simp only [HB_OT_TAG_DEFAULT_LANGUAGE, hdn]

/-- Witness of C18: script 2 of the sample GPOS table has the single language system
`latn`; asking for `xyz1` yields the sentinel. -/
theorem hb_ot_layout_script_select_language_not_found_witness :
    ((get_gsubgpos_table sampleFace HB_OT_TAG_GPOS).get_script 2).langSys.map Prod.fst
        = [HB_TAG 'l' 'a' 't' 'n'] ∧
      (∀ t ∈ [HB_TAG 'x' 'y' 'z' '1'],
        t ∉ ((get_gsubgpos_table sampleFace HB_OT_TAG_GPOS).get_script 2).langSys.map
              Prod.fst) ∧
      hb_ot_layout_script_select_language sampleFace HB_OT_TAG_GPOS 2
          [HB_TAG 'x' 'y' 'z' '1'] (some 0) = { ret := false, index := store (some 0) 0xFFFF } :=
  ⟨by decide, by decide,
    (hb_ot_layout_script_select_language_not_found sampleFace HB_OT_TAG_GPOS 2
      [HB_TAG 'x' 'y' 'z' '1'] (some 0) (by decide) (by decide)).1⟩

/-! ## Feature lookup -/

/-- The loop of `hb_ot_layout_table_find_feature` returns the first index in
`[i, i + n)` whose feature tag is the requested one, if there is one. -/
theorem hb_ot_layout_table_find_feature_loop_spec (g : OT.GSUBGPOS) (feature_tag : hb_tag_t)
    (n : Nat) : ∀ i : Nat,
    (∀ k, i ≤ k → k < i + n → g.get_feature_tag k = feature_tag →
      (∀ j, i ≤ j → j < k → g.get_feature_tag j ≠ feature_tag) →
      hb_ot_layout_table_find_feature.loop g feature_tag i n = some k) ∧
    ((∀ j, i ≤ j → j < i + n → g.get_feature_tag j ≠ feature_tag) →
      hb_ot_layout_table_find_feature.loop g feature_tag i n = none) := by
  induction n with
  | zero =>
    intro i
    exact ⟨fun k h1 h2 => absurd h2 (by omega), fun _ => rfl⟩
  | succ n ih =>
    intro i
    obtain ⟨ih1, ih2⟩ := ih (i + 1)
    refine ⟨fun k h1 h2 hk hmin => ?_, fun hall => ?_⟩
    · unfold hb_ot_layout_table_find_feature.loop
      by_cases hik : k = i
      · subst hik
        rw [if_pos hk.symm]
      · rw [if_neg (fun h => hmin i (Nat.le_refl i) (by omega) h.symm)]
        exact ih1 k (by omega) (by omega) hk fun j hj1 hj2 => hmin j (by omega) hj2
    · unfold hb_ot_layout_table_find_feature.loop
      rw [if_neg (fun h => hall i (Nat.le_refl i) (by omega) h.symm)]
      exact ih2 fun j hj1 hj2 => hall j (by omega) (by omega)

/-- The loop of `hb_ot_layout_language_find_feature` returns the feature index stored at
the first position in `[i, i + n)` whose feature has the requested tag, if there is
one. -/
theorem hb_ot_layout_language_find_feature_loop_spec (g : OT.GSUBGPOS) (l : OT.LangSys)
    (feature_tag : hb_tag_t) (n : Nat) : ∀ i : Nat,
    (∀ k, i ≤ k → k < i + n → g.get_feature_tag (l.get_feature_index k) = feature_tag →
      (∀ j, i ≤ j → j < k → g.get_feature_tag (l.get_feature_index j) ≠ feature_tag) →
      hb_ot_layout_language_find_feature.loop g l feature_tag i n
        = some (l.get_feature_index k)) ∧
    ((∀ j, i ≤ j → j < i + n → g.get_feature_tag (l.get_feature_index j) ≠ feature_tag) →
      hb_ot_layout_language_find_feature.loop g l feature_tag i n = none) := by
  induction n with
  | zero =>
    intro i
    exact ⟨fun k h1 h2 => absurd h2 (by omega), fun _ => rfl⟩
  | succ n ih =>
    intro i
    obtain ⟨ih1, ih2⟩ := ih (i + 1)
    refine ⟨fun k h1 h2 hk hmin => ?_, fun hall => ?_⟩
    · unfold hb_ot_layout_language_find_feature.loop
      by_cases hik : k = i
      · subst hik
        simp only [if_pos hk.symm]
      · have hne : ¬ feature_tag = g.get_feature_tag (l.get_feature_index i) :=
          fun h => hmin i (Nat.le_refl i) (by omega) h.symm
        simp only [if_neg hne]
        exact ih1 k (by omega) (by omega) hk fun j hj1 hj2 => hmin j (by omega) hj2
    · unfold hb_ot_layout_language_find_feature.loop
      have hne : ¬ feature_tag = g.get_feature_tag (l.get_feature_index i) :=
        fun h => hall i (Nat.le_refl i) (by omega) h.symm
      simp only [if_neg hne]
      exact ih2 fun j hj1 hj2 => hall j (by omega) (by omega)

/-- C19: for every table and feature tag, `hb_ot_layout_table_find_feature` returns true
and sets `feature_index` to the smallest index `i` below the feature count whose
feature tag equals the requested tag, when such an `i` exists; otherwise it returns
false and sets `feature_index` to `HB_OT_LAYOUT_NO_FEATURE_INDEX` (`0xFFFF`).
`hb_ot_layout_language_find_feature` does the same over the feature list of a language
system: it returns the flat-table feature index stored at the first position whose
feature has the requested tag (not the position itself). -/
theorem hb_ot_layout_find_feature_first_match (face : hb_face_t) (table_tag : hb_tag_t)
    (script_index language_index : Nat) (feature_tag : hb_tag_t)
    (feature_index : Option Nat) :
    (∀ i, i < (get_gsubgpos_table face table_tag).get_feature_count →
      (get_gsubgpos_table face table_tag).get_feature_tag i = feature_tag →
      (∀ j, j < i → (get_gsubgpos_table face table_tag).get_feature_tag j ≠ feature_tag) →
      hb_ot_layout_table_find_feature face table_tag feature_tag feature_index =
        { ret := true, index := store feature_index i }) ∧
    ((∀ j, j < (get_gsubgpos_table face table_tag).get_feature_count →
        (get_gsubgpos_table face table_tag).get_feature_tag j ≠ feature_tag) →
      hb_ot_layout_table_find_feature face table_tag feature_tag feature_index =
        { ret := false, index := store feature_index 0xFFFF }) ∧
    (∀ i,
      i < (((get_gsubgpos_table face table_tag).get_script script_index).get_lang_sys
            language_index).get_feature_count →
      (get_gsubgpos_table face table_tag).get_feature_tag
        ((((get_gsubgpos_table face table_tag).get_script script_index).get_lang_sys
            language_index).get_feature_index i) = feature_tag →
      (∀ j, j < i →
        (get_gsubgpos_table face table_tag).get_feature_tag
          ((((get_gsubgpos_table face table_tag).get_script script_index).get_lang_sys
              language_index).get_feature_index j) ≠ feature_tag) →
      hb_ot_layout_language_find_feature face table_tag script_index language_index
          feature_tag feature_index =
        { ret := true,
          index := store feature_index
            ((((get_gsubgpos_table face table_tag).get_script script_index).get_lang_sys
              language_index).get_feature_index i) }) ∧
    ((∀ j,
        j < (((get_gsubgpos_table face table_tag).get_script script_index).get_lang_sys
              language_index).get_feature_count →
        (get_gsubgpos_table face table_tag).get_feature_tag
          ((((get_gsubgpos_table face table_tag).get_script script_index).get_lang_sys
              language_index).get_feature_index j) ≠ feature_tag) →
      hb_ot_layout_language_find_feature face table_tag script_index language_index
          feature_tag feature_index =
        { ret := false, index := store feature_index 0xFFFF }) ∧
    HB_OT_LAYOUT_NO_FEATURE_INDEX = 0xFFFF := by
  refine ⟨fun i hi ht hmin => ?_, fun hall => ?_, fun i hi ht hmin => ?_, fun hall => ?_, rfl⟩
  · have h := (hb_ot_layout_table_find_feature_loop_spec (get_gsubgpos_table face table_tag)
      feature_tag (get_gsubgpos_table face table_tag).get_feature_count 0).1 i
      (Nat.zero_le i) (by omega) ht fun j _ hj => hmin j hj
    simp only [hb_ot_layout_table_find_feature, h]
  · have h := (hb_ot_layout_table_find_feature_loop_spec (get_gsubgpos_table face table_tag)
      feature_tag (get_gsubgpos_table face table_tag).get_feature_count 0).2
      fun j _ hj => hall j (by omega)
    simp only [hb_ot_layout_table_find_feature, h, HB_OT_LAYOUT_NO_FEATURE_INDEX]
  · have h := (hb_ot_layout_language_find_feature_loop_spec (get_gsubgpos_table face table_tag)
      (((get_gsubgpos_table face table_tag).get_script script_index).get_lang_sys
        language_index) feature_tag
      (((get_gsubgpos_table face table_tag).get_script script_index).get_lang_sys
        language_index).get_feature_count 0).1 i (Nat.zero_le i) (by omega) ht
      fun j _ hj => hmin j hj
    simp only [hb_ot_layout_language_find_feature, h]
  · have h := (hb_ot_layout_language_find_feature_loop_spec (get_gsubgpos_table face table_tag)
      (((get_gsubgpos_table face table_tag).get_script script_index).get_lang_sys
        language_index) feature_tag
      (((get_gsubgpos_table face table_tag).get_script script_index).get_lang_sys
        language_index).get_feature_count 0).2 fun j _ hj => hall j (by omega)
    simp only [hb_ot_layout_language_find_feature, h, HB_OT_LAYOUT_NO_FEATURE_INDEX]

/-- Witness of C19 on the sample GSUB table, whose features are `kern`, `liga`, `kern`:
the table lookup of `kern` gives index 0; the default language system of script 1
lists the feature indices 2, 1, so its lookup of `kern` gives the stored index 2 (found
at position 0), and its lookup of `liga` the stored index 1. -/
theorem hb_ot_layout_find_feature_first_match_witness :
    hb_ot_layout_table_find_feature sampleFace HB_OT_TAG_GSUB (HB_TAG 'k' 'e' 'r' 'n')
        (some 9) = { ret := true, index := store (some 9) 0 } ∧
      hb_ot_layout_language_find_feature sampleFace HB_OT_TAG_GSUB 1 0xFFFF
          (HB_TAG 'k' 'e' 'r' 'n') (some 9) =
        { ret := true, index := store (some 9)
            ((((get_gsubgpos_table sampleFace HB_OT_TAG_GSUB).get_script 1).get_lang_sys
              0xFFFF).get_feature_index 0) } ∧
      ((((get_gsubgpos_table sampleFace HB_OT_TAG_GSUB).get_script 1).get_lang_sys
          0xFFFF).get_feature_index 0) = 2 ∧
      hb_ot_layout_table_find_feature sampleFace HB_OT_TAG_GSUB (HB_TAG 's' 'm' 'c' 'p')
        (some 9) = { ret := false, index := some 0xFFFF } :=
  ⟨(hb_ot_layout_find_feature_first_match sampleFace HB_OT_TAG_GSUB 1 0xFFFF
      (HB_TAG 'k' 'e' 'r' 'n') (some 9)).1 0 (by decide) (by decide) (by decide),
    (hb_ot_layout_find_feature_first_match sampleFace HB_OT_TAG_GSUB 1 0xFFFF
      (HB_TAG 'k' 'e' 'r' 'n') (some 9)).2.2.1 0 (by decide) (by decide) (by decide),
    by decide, by decide⟩

/-! ## Tables other than GSUB and GPOS -/

/-- C20: for every `table_tag` other than GSUB and GPOS the queries run against the
canonical empty table: `hb_ot_layout_table_get_lookup_count` returns 0,
`hb_ot_layout_table_find_script` and `hb_ot_layout_table_select_script` return false
with `script_index = 0xFFFF`, `hb_ot_layout_table_find_feature` returns false with
`feature_index = 0xFFFF`, and the paged script-tag and feature-tag enumerations report
a total of 0, set the count to 0 and leave the buffer unchanged. -/
theorem hb_ot_layout_other_table_empty (face : hb_face_t) (table_tag : hb_tag_t)
    (hsub : table_tag ≠ HB_TAG 'G' 'S' 'U' 'B') (hpos : table_tag ≠ HB_TAG 'G' 'P' 'O' 'S')
    (script_tag feature_tag : hb_tag_t) (script_tags : List hb_tag_t)
    (script_index feature_index : Option Nat) (chosen_script : Option hb_tag_t)
    (start_offset : Nat) (count : Option Nat) (tags : Option (Nat → hb_tag_t)) :
    get_gsubgpos_table face table_tag = OT.GSUBGPOS.Null ∧
      hb_ot_layout_table_get_lookup_count face table_tag = 0 ∧
      hb_ot_layout_table_find_script face table_tag script_tag script_index =
        { ret := false, index := store script_index 0xFFFF } ∧
      hb_ot_layout_table_select_script face table_tag script_tags script_index chosen_script =
        { ret := false, script_index := store script_index 0xFFFF,
          chosen_script := store chosen_script 0xFFFF } ∧
      hb_ot_layout_table_find_feature face table_tag feature_tag feature_index =
        { ret := false, index := store feature_index 0xFFFF } ∧
      ((hb_ot_layout_table_get_script_tags face table_tag start_offset count tags).ret = 0 ∧
        (hb_ot_layout_table_get_script_tags face table_tag start_offset count tags).count
          = store count 0 ∧
        (hb_ot_layout_table_get_script_tags face table_tag start_offset count tags).tags
          = tags) ∧
      ((hb_ot_layout_table_get_feature_tags face table_tag start_offset count tags).ret = 0 ∧
        (hb_ot_layout_table_get_feature_tags face table_tag start_offset count tags).count
          = store count 0 ∧
        (hb_ot_layout_table_get_feature_tags face table_tag start_offset count tags).tags
          = tags) := by
  have hg : get_gsubgpos_table face table_tag = OT.GSUBGPOS.Null := by
    unfold get_gsubgpos_table
    simp only [HB_OT_TAG_GSUB, HB_OT_TAG_GPOS, if_neg hsub, if_neg hpos]
  have hmem : ∀ t : hb_tag_t, t ∉ (get_gsubgpos_table face table_tag).scriptList.map Prod.fst := by
    intro t
    rw [hg]
    exact List.not_mem_nil t
  refine ⟨hg, ?_, ?_, ?_, ?_, ?_, ?_⟩
  · unfold hb_ot_layout_table_get_lookup_count
    cases face.shaper_data with
    | none => rfl
    | some data =>
      simp only [HB_OT_TAG_GSUB, HB_OT_TAG_GPOS, if_neg hsub, if_neg hpos]
  · rw [hb_ot_layout_table_find_script_miss face table_tag script_tag script_index
      chosen_script (hmem _),
      hb_ot_layout_table_select_script_body_not_found _ _ _ _
        (fun _ h => absurd h (List.not_mem_nil _)) (hmem _) (hmem _) (hmem _)]
  · exact hb_ot_layout_table_select_script_body_not_found _ _ _ _
      (fun t _ => hmem t) (hmem _) (hmem _) (hmem _)
  · simp only [hb_ot_layout_table_find_feature, hg, OT.GSUBGPOS.Null,
      OT.GSUBGPOS.get_feature_count, List.length_nil, hb_ot_layout_table_find_feature.loop,
      HB_OT_LAYOUT_NO_FEATURE_INDEX]
  · simp only [hb_ot_layout_table_get_script_tags, hg, OT.GSUBGPOS.get_script_tags,
      OT.GSUBGPOS.Null]
    cases count with
    | none => exact ⟨rfl, rfl, rfl⟩
    | some capacity =>
      refine ⟨rfl, by simp [OT.RecordArrayOf.get_tags, store], ?_⟩
      cases tags with
      | none => rfl
      | some buf => simp [OT.RecordArrayOf.get_tags]
  · simp only [hb_ot_layout_table_get_feature_tags, hg, OT.GSUBGPOS.get_feature_tags,
      OT.GSUBGPOS.Null]
    cases count with
    | none => exact ⟨rfl, rfl, rfl⟩
    | some capacity =>
      refine ⟨rfl, by simp [OT.RecordArrayOf.get_tags, store], ?_⟩
      cases tags with
      | none => rfl
      | some buf => simp [OT.RecordArrayOf.get_tags]

/-- Witness of C20 on the sample face and the table tag `GDEF`. -/
theorem hb_ot_layout_other_table_empty_witness :
    HB_TAG 'G' 'D' 'E' 'F' ≠ HB_TAG 'G' 'S' 'U' 'B' ∧
      HB_TAG 'G' 'D' 'E' 'F' ≠ HB_TAG 'G' 'P' 'O' 'S' ∧
      hb_ot_layout_table_get_lookup_count sampleFace (HB_TAG 'G' 'D' 'E' 'F') = 0 ∧
      hb_ot_layout_table_get_lookup_count sampleFace (HB_TAG 'G' 'S' 'U' 'B') = 3 ∧
      hb_ot_layout_table_find_feature sampleFace (HB_TAG 'G' 'D' 'E' 'F')
          (HB_TAG 'k' 'e' 'r' 'n') (some 1) = { ret := false, index := store (some 1) 0xFFFF } :=
  ⟨by decide, by decide,
    (hb_ot_layout_other_table_empty sampleFace (HB_TAG 'G' 'D' 'E' 'F') (by decide) (by decide)
      0 (HB_TAG 'k' 'e' 'r' 'n') [] (some 1) (some 1) (some 1) 0 (some 4) none).2.1,
    by decide,
    (hb_ot_layout_other_table_empty sampleFace (HB_TAG 'G' 'D' 'E' 'F') (by decide) (by decide)
      0 (HB_TAG 'k' 'e' 'r' 'n') [] (some 1) (some 1) (some 1) 0 (some 4) none).2.2.2.2.1⟩

/-! ## Feature parameters -/

theorem HB_TAG_ss_div (c3 c4 : Char) : HB_TAG 's' 's' c3 c4 / 65536 = 0x7373 := by
  have h3 : c3.toNat % 256 < 256 := Nat.mod_lt _ (by decide)
  have h4 : c4.toNat % 256 < 256 := Nat.mod_lt _ (by decide)
  have hs : ('s' : Char).toNat = 115 := by decide
  simp only [HB_TAG, hs]
  generalize c3.toNat % 256 = a at h3 ⊢
  generalize c4.toNat % 256 = b at h4 ⊢
  show (115 % 256 * 16777216 + 115 % 256 * 65536 + a * 256 + b) / 65536 = (29555 : Nat)
  omega

theorem HB_TAG_cv_div (c3 c4 : Char) : HB_TAG 'c' 'v' c3 c4 / 65536 = 0x6376 := by
  have h3 : c3.toNat % 256 < 256 := Nat.mod_lt _ (by decide)
  have h4 : c4.toNat % 256 < 256 := Nat.mod_lt _ (by decide)
  have hc : ('c' : Char).toNat = 99 := by decide
  have hv : ('v' : Char).toNat = 118 := by decide
  simp only [HB_TAG, hc, hv]
  generalize c3.toNat % 256 = a at h3 ⊢
  generalize c4.toNat % 256 = b at h4 ⊢
  show (99 % 256 * 16777216 + 118 % 256 * 65536 + a * 256 + b) / 65536 = (25462 : Nat)
  omega

/-- C21: `hb_ot_layout_feature_get_name_ids` returns true if and only if the feature has
feature parameters and the two leading bytes of its tag are `ss` or `cv` (every tag
`ssXX` and `cvXX` is of that kind).  For `ss` it outputs `label_id = uiNameID`,
`tooltip_id = sample_id = first_param_id = HB_NAME_ID_INVALID` and
`num_named_parameters = 0`; for `cv` it outputs the five fields stored in the
parameters; in every other case (no parameters, or a tag that is neither) it returns
false with the four name ids set to `HB_NAME_ID_INVALID` and `num_named_parameters`
set to 0. -/
theorem hb_ot_layout_feature_get_name_ids_cases (face : hb_face_t) (table_tag : hb_tag_t)
    (feature_index : Nat)
    (label_id tooltip_id sample_id num_named_parameters first_param_id : Option Nat) :
    ((hb_ot_layout_feature_get_name_ids face table_tag feature_index label_id tooltip_id
          sample_id num_named_parameters first_param_id).ret = true ↔
        ((get_gsubgpos_table face table_tag).get_feature feature_index).featureParams ≠ none ∧
          ((get_gsubgpos_table face table_tag).get_feature_tag feature_index / 65536 = 0x7373 ∨
           (get_gsubgpos_table face table_tag).get_feature_tag feature_index / 65536 = 0x6376)) ∧
      (∀ fp, ((get_gsubgpos_table face table_tag).get_feature feature_index).featureParams
            = some fp →
        (get_gsubgpos_table face table_tag).get_feature_tag feature_index / 65536 = 0x7373 →
        hb_ot_layout_feature_get_name_ids face table_tag feature_index label_id tooltip_id
            sample_id num_named_parameters first_param_id =
          { ret := true
            label_id := store label_id fp.stylisticSet.uiNameID
            tooltip_id := store tooltip_id 0xFFFF
            sample_id := store sample_id 0xFFFF
            num_named_parameters := store num_named_parameters 0
            first_param_id := store first_param_id 0xFFFF }) ∧
      (∀ fp, ((get_gsubgpos_table face table_tag).get_feature feature_index).featureParams
            = some fp →
        (get_gsubgpos_table face table_tag).get_feature_tag feature_index / 65536 = 0x6376 →
        hb_ot_layout_feature_get_name_ids face table_tag feature_index label_id tooltip_id
            sample_id num_named_parameters first_param_id =
          { ret := true
            label_id := store label_id fp.characterVariants.featUILableNameID
            tooltip_id := store tooltip_id fp.characterVariants.featUITooltipTextNameID
            sample_id := store sample_id fp.characterVariants.sampleTextNameID
            num_named_parameters :=
              store num_named_parameters fp.characterVariants.numNamedParameters
            first_param_id :=
              store first_param_id fp.characterVariants.firstParamUILabelNameID }) ∧
      ((((get_gsubgpos_table face table_tag).get_feature feature_index).featureParams = none ∨
          ((get_gsubgpos_table face table_tag).get_feature_tag feature_index / 65536 ≠ 0x7373 ∧
           (get_gsubgpos_table face table_tag).get_feature_tag feature_index / 65536 ≠ 0x6376)) →
        hb_ot_layout_feature_get_name_ids face table_tag feature_index label_id tooltip_id
            sample_id num_named_parameters first_param_id =
          { ret := false
            label_id := store label_id 0xFFFF
            tooltip_id := store tooltip_id 0xFFFF
            sample_id := store sample_id 0xFFFF
            num_named_parameters := store num_named_parameters 0
            first_param_id := store first_param_id 0xFFFF }) ∧
      HB_NAME_ID_INVALID = 0xFFFF ∧
      (∀ c3 c4 : Char, HB_TAG 's' 's' c3 c4 / 65536 = 0x7373) ∧
      (∀ c3 c4 : Char, HB_TAG 'c' 'v' c3 c4 / 65536 = 0x6376) := by
  have hss : HB_TAG 's' 's' (Char.ofNat 0) (Char.ofNat 0) / 65536 = 0x7373 := HB_TAG_ss_div _ _
  have hcv : HB_TAG 'c' 'v' (Char.ofNat 0) (Char.ofNat 0) / 65536 = 0x6376 := HB_TAG_cv_div _ _
  refine ⟨?_, ?_, ?_, ?_, rfl, HB_TAG_ss_div, HB_TAG_cv_div⟩
  · unfold hb_ot_layout_feature_get_name_ids
    simp only [OT.Feature.get_feature_params, OT.FeatureParams.get_stylistic_set_params,
      OT.FeatureParams.get_character_variants_params, hss, hcv]
    cases ((get_gsubgpos_table face table_tag).get_feature feature_index).featureParams with
    | none => simp
    | some fp =>
      by_cases h1 : (get_gsubgpos_table face table_tag).get_feature_tag feature_index / 65536
          = 0x7373
      · simp [h1]
      · by_cases h2 : (get_gsubgpos_table face table_tag).get_feature_tag feature_index / 65536
            = 0x6376
        · simp [h1, h2]
        · simp [h1, h2]
  · intro fp hfp h1
    unfold hb_ot_layout_feature_get_name_ids
    simp only [OT.Feature.get_feature_params, OT.FeatureParams.get_stylistic_set_params, hss,
      hfp, h1, if_true, HB_NAME_ID_INVALID]
  · intro fp hfp h2
    have h1 : (get_gsubgpos_table face table_tag).get_feature_tag feature_index / 65536
        ≠ 0x7373 := by
      intro h
      rw [h] at h2
      exact absurd h2 (by decide)
    unfold hb_ot_layout_feature_get_name_ids
    simp only [OT.Feature.get_feature_params, OT.FeatureParams.get_stylistic_set_params,
      OT.FeatureParams.get_character_variants_params, hss, hcv, hfp, h2, if_true,
      HB_NAME_ID_INVALID]
    simp
  · intro h
    unfold hb_ot_layout_feature_get_name_ids
    simp only [OT.Feature.get_feature_params, OT.FeatureParams.get_stylistic_set_params,
      OT.FeatureParams.get_character_variants_params, hss, hcv, HB_NAME_ID_INVALID]
    rcases h with h | ⟨h1, h2⟩
    · simp [h]
    · cases ((get_gsubgpos_table face table_tag).get_feature feature_index).featureParams with
      | none => rfl
      | some fp => simp [h1, h2]

/-- Witness of C21 on the sample table with parameters: `ss01` gives the label 256,
`cv01` the five stored fields, and `liga`, whose parameters no interpretation is
selected for, gives "not present". -/
theorem hb_ot_layout_feature_get_name_ids_cases_witness :
    hb_ot_layout_feature_get_name_ids paramsFace HB_OT_TAG_GSUB 0
        (some 0) (some 0) (some 0) (some 9) (some 0) =
      { ret := true, label_id := some 256, tooltip_id := some 0xFFFF, sample_id := some 0xFFFF,
        num_named_parameters := some 0, first_param_id := some 0xFFFF } ∧
    hb_ot_layout_feature_get_name_ids paramsFace HB_OT_TAG_GSUB 1
        (some 0) (some 0) (some 0) (some 9) (some 0) =
      { ret := true, label_id := some 257, tooltip_id := some 258, sample_id := some 259,
        num_named_parameters := some 2, first_param_id := some 260 } ∧
    hb_ot_layout_feature_get_name_ids paramsFace HB_OT_TAG_GSUB 2
        (some 0) (some 0) (some 0) (some 9) (some 0) =
      { ret := false, label_id := store (some 0) 0xFFFF, tooltip_id := store (some 0) 0xFFFF,
        sample_id := store (some 0) 0xFFFF, num_named_parameters := store (some 9) 0,
        first_param_id := store (some 0) 0xFFFF } :=
  ⟨by decide, by decide,
    (hb_ot_layout_feature_get_name_ids_cases paramsFace HB_OT_TAG_GSUB 2
      (some 0) (some 0) (some 0) (some 9) (some 0)).2.2.2.1 (Or.inr (by decide))⟩

/-- The copy loop writes `list[start_offset + k]` to every slot `k` of
`[i, i + remaining)` and leaves the other slots alone. -/
theorem hb_ot_layout_feature_get_characters_loop_spec (list : List Nat) (start_offset : Nat) :
    ∀ (remaining i : Nat) (buf : Nat → Nat) (k : Nat),
      hb_ot_layout_feature_get_characters.loop list start_offset i remaining buf k =
        if i ≤ k ∧ k < i + remaining then list.getD (start_offset + k) 0 else buf k := by
  intro remaining
  induction remaining with
  | zero =>
    intro i buf k
    rw [hb_ot_layout_feature_get_characters.loop, if_neg (by omega)]
  | succ r ih =>
    intro i buf k
    rw [hb_ot_layout_feature_get_characters.loop, ih]
    by_cases hk : k = i
    · subst hk
      rw [if_neg (by omega), if_pos (by omega), Function.update_same]
    · rw [Function.update_noteq hk]
      by_cases h : i ≤ k ∧ k < i + (r + 1)
      · rw [if_pos (by omega), if_pos h]
      · rw [if_neg (by omega), if_neg h]

/-- The character-variant parameters that `hb_ot_layout_feature_get_characters` reads
hold the character list of the feature. -/
theorem hb_ot_layout_feature_get_characters_list (face : hb_face_t) (table_tag : hb_tag_t)
    (feature_index : Nat) :
    (match ((get_gsubgpos_table face table_tag).get_feature feature_index).get_feature_params
      with
      | none => OT.FeatureParamsCharacterVariants.Null
      | some feature_params =>
        (feature_params.get_character_variants_params
          ((get_gsubgpos_table face table_tag).get_feature_tag feature_index)).getD
          OT.FeatureParamsCharacterVariants.Null).characters =
      feature_character_list face table_tag feature_index := by
  have hcv : HB_TAG 'c' 'v' (Char.ofNat 0) (Char.ofNat 0) / 65536 = 0x6376 := HB_TAG_cv_div _ _
  unfold feature_character_list OT.Feature.get_feature_params
  cases ((get_gsubgpos_table face table_tag).get_feature feature_index).featureParams with
  | none => rfl
  | some fp =>
    simp only [OT.FeatureParams.get_character_variants_params, hcv]
    split <;> rfl

/-- The result of `hb_ot_layout_feature_get_characters` with non-null `char_count` and
`characters`. -/
theorem hb_ot_layout_feature_get_characters_spec (face : hb_face_t) (table_tag : hb_tag_t)
    (feature_index start_offset n : Nat) (buf : Nat → Nat) :
    ∃ buf' : Nat → Nat,
      hb_ot_layout_feature_get_characters face table_tag feature_index start_offset
          (some n) (some buf) =
        { ret := (feature_character_list face table_tag feature_index).length
          char_count := some
            (min ((feature_character_list face table_tag feature_index).length - start_offset)
              n)
          characters := some buf' } ∧
      (∀ k, k < min ((feature_character_list face table_tag feature_index).length
                - start_offset) n →
        buf' k = (feature_character_list face table_tag feature_index).getD
          (start_offset + k) 0) ∧
      (∀ k, min ((feature_character_list face table_tag feature_index).length
                - start_offset) n ≤ k → buf' k = buf k) := by
  have hlist := hb_ot_layout_feature_get_characters_list face table_tag feature_index
  unfold hb_ot_layout_feature_get_characters
  simp only [hlist]
  generalize feature_character_list face table_tag feature_index = list
  by_cases hso : start_offset < list.length
  · simp only [if_pos hso]
    refine ⟨_, rfl, fun k hk => ?_, fun k hk => ?_⟩
    · rw [hb_ot_layout_feature_get_characters_loop_spec, if_pos (by omega)]
    · rw [hb_ot_layout_feature_get_characters_loop_spec, if_neg (by omega)]
  · simp only [if_neg hso]
    have h0 : min (list.length - start_offset) n = 0 := by omega
    refine ⟨buf, by rw [h0], fun k hk => absurd hk (by omega), fun k _ => rfl⟩

/-- A batch read from the output buffer is the corresponding segment of the list. -/
theorem map_range_eq_take_drop (list : List Nat) (start count : Nat) (f : Nat → Nat)
    (hcount : start + count ≤ list.length)
    (hf : ∀ k, k < count → f k = list.getD (start + k) 0) :
    (List.range count).map f = (list.drop start).take count := by
  apply List.ext_getElem?
  intro k
  by_cases hk : k < count
  · rw [List.getElem?_map, List.getElem?_range hk, List.getElem?_take_of_lt hk,
      List.getElem?_drop, Option.map_some', hf k hk, List.getD_eq_getElem?_getD,
      List.getElem?_eq_getElem (by omega)]
    rfl
  · rw [List.getElem?_eq_none (by simp; omega), List.getElem?_eq_none (by simp; omega)]

/-- Paging from any `start_offset` with capacity `n >= 1` and enough calls yields the
characters of the list from `start_offset` on. -/
theorem paged_feature_characters_from (face : hb_face_t) (table_tag : hb_tag_t)
    (feature_index n : Nat) (hn : 1 ≤ n) :
    ∀ (fuel start_offset : Nat) (buf : Nat → Nat),
      (feature_character_list face table_tag feature_index).length - start_offset + 1 ≤ fuel →
      paged_feature_characters face table_tag feature_index n fuel start_offset buf =
        some ((feature_character_list face table_tag feature_index).drop start_offset) := by
  intro fuel
  induction fuel with
  | zero => intro start_offset buf hf; omega
  | succ fuel ih =>
    intro start_offset buf hf
    obtain ⟨buf', h, hlt, -⟩ := hb_ot_layout_feature_get_characters_spec face table_tag
      feature_index start_offset n buf
    rw [paged_feature_characters]
    simp only [h]
    generalize hl : feature_character_list face table_tag feature_index = list at *
    by_cases hc : min (list.length - start_offset) n < n
    · rw [if_pos hc]
      have hcount : min (list.length - start_offset) n = list.length - start_offset := by omega
      rw [hcount] at hlt ⊢
      by_cases hso : start_offset ≤ list.length
      · rw [map_range_eq_take_drop list start_offset _ buf' (by omega) hlt,
          List.take_of_length_le (by simp)]
      · have h0 : list.length - start_offset = 0 := by omega
        rw [h0, List.drop_eq_nil_of_le (by omega)]
        rfl
    · rw [if_neg hc]
      have hcount : min (list.length - start_offset) n = n := by omega
      rw [hcount] at hlt ⊢
      rw [ih (start_offset + n) buf' (by omega), Option.map_some',
        map_range_eq_take_drop list start_offset n buf' (by omega) hlt,
        ← List.drop_drop, List.take_append_drop]

/-- C22: for every feature, `start_offset` and input capacity `n` with non-null
buffers, `hb_ot_layout_feature_get_characters` returns the total number `N` of
characters listed in the character-variant parameters of the feature (the list is empty
when the feature is not a `cvXX` feature with parameters), sets `char_count` to
`min (N - start_offset) n` (which is 0 when `start_offset >= N`), and writes
`characters[i] = list[start_offset + i]` for every `i` below that count, leaving the
other slots alone; paging from offset 0 with any capacity `n >= 1` until fewer than `n`
characters are returned terminates (after at most `N + 1` calls) and reconstructs the
whole list in order. -/
theorem hb_ot_layout_feature_get_characters_paged (face : hb_face_t) (table_tag : hb_tag_t)
    (feature_index start_offset n : Nat) (buf : Nat → Nat) :
    (hb_ot_layout_feature_get_characters face table_tag feature_index start_offset
        (some n) (some buf)).ret
        = (feature_character_list face table_tag feature_index).length ∧
      (hb_ot_layout_feature_get_characters face table_tag feature_index start_offset
        (some n) (some buf)).char_count
        = some (min ((feature_character_list face table_tag feature_index).length
                  - start_offset) n) ∧
      ((feature_character_list face table_tag feature_index).length ≤ start_offset →
        (hb_ot_layout_feature_get_characters face table_tag feature_index start_offset
          (some n) (some buf)).char_count = some 0) ∧
      (∃ buf' : Nat → Nat,
        (hb_ot_layout_feature_get_characters face table_tag feature_index start_offset
          (some n) (some buf)).characters = some buf' ∧
        (∀ i, i < min ((feature_character_list face table_tag feature_index).length
                  - start_offset) n →
          (feature_character_list face table_tag feature_index)[start_offset + i]?
            = some (buf' i)) ∧
        (∀ i, min ((feature_character_list face table_tag feature_index).length
                  - start_offset) n ≤ i → buf' i = buf i)) ∧
      (∀ fuel, 1 ≤ n →
        (feature_character_list face table_tag feature_index).length + 1 ≤ fuel →
        paged_feature_characters face table_tag feature_index n fuel 0 buf =
          some (feature_character_list face table_tag feature_index)) := by
  obtain ⟨buf', h, hlt, hge⟩ := hb_ot_layout_feature_get_characters_spec face table_tag
    feature_index start_offset n buf
  rw [h]
  refine ⟨rfl, rfl, fun hle => ?_, ⟨buf', rfl, fun i hi => ?_, hge⟩, fun fuel hn hfuel => ?_⟩
  · simp only [Option.some.injEq]
    omega
  · rw [hlt i hi, List.getD_eq_getElem?_getD, List.getElem?_eq_getElem (by omega)]
    rfl
  · rw [paged_feature_characters_from face table_tag feature_index n hn fuel 0 buf (by omega),
      List.drop_zero]

/-- Witness of C22 on the feature `cv01` of the sample table, which lists `a`, `b`, `c`:
paging with capacity 1 takes four calls and returns the three characters; the feature
`ss01` lists none. -/
theorem hb_ot_layout_feature_get_characters_paged_witness :
    feature_character_list paramsFace HB_OT_TAG_GSUB 1 = [0x61, 0x62, 0x63] ∧
      feature_character_list paramsFace HB_OT_TAG_GSUB 0 = [] ∧
      paged_feature_characters paramsFace HB_OT_TAG_GSUB 1 1 4 0 (fun _ => 0) =
        some (feature_character_list paramsFace HB_OT_TAG_GSUB 1) ∧
      (hb_ot_layout_feature_get_characters paramsFace HB_OT_TAG_GSUB 1 1 (some 5)
        (some fun _ => 0)).char_count
        = some (min ((feature_character_list paramsFace HB_OT_TAG_GSUB 1).length - 1) 5) :=
  ⟨by decide, by decide,
    (hb_ot_layout_feature_get_characters_paged paramsFace HB_OT_TAG_GSUB 1 0 1
      (fun _ => 0)).2.2.2.2 4 (by decide) (by decide),
    (hb_ot_layout_feature_get_characters_paged paramsFace HB_OT_TAG_GSUB 1 1 5
      (fun _ => 0)).2.1⟩

/-! ## Glyph closure -/

/-- The loop of `hb_ot_layout_lookups_substitute_closure` makes at least one more pass
and stops at the latest when the counter has passed `HB_CLOSURE_MAX_STAGES`. -/
theorem hb_ot_layout_lookups_substitute_closure_loop_bounds (M : Nat)
    (closure : Nat → OT.hb_closure_context_t → OT.hb_closure_context_t)
    (gsub : OT.GSUBGPOS) (lookups : Option hb_set_t) :
    ∀ (d iteration_count : Nat) (c : OT.hb_closure_context_t),
      M + 1 - iteration_count = d →
      iteration_count + 1 ≤
          (hb_ot_layout_lookups_substitute_closure.loop M closure gsub lookups c
            iteration_count).2 ∧
        (hb_ot_layout_lookups_substitute_closure.loop M closure gsub lookups c
            iteration_count).2 ≤ max (iteration_count + 1) (M + 1) := by
  intro d
  induction d using Nat.strong_induction_on with
  | _ d ih =>
    intro iteration_count c hd
    rw [hb_ot_layout_lookups_substitute_closure.loop]
    split
    · rename_i hcond
      obtain ⟨h1, h2⟩ := ih (M + 1 - (iteration_count + 1)) (by omega) (iteration_count + 1)
        (hb_ot_layout_lookups_substitute_closure.pass closure gsub lookups c) rfl
      exact ⟨by omega, by omega⟩
    · exact ⟨Nat.le_refl _, by simp only; omega⟩

/-- When every pass from a context satisfying `P` grows the population and keeps `P`,
the loop runs until the counter has passed `HB_CLOSURE_MAX_STAGES`: it ends with
`iteration_count = HB_CLOSURE_MAX_STAGES + 1`. -/
theorem hb_ot_layout_lookups_substitute_closure_loop_growing (M : Nat)
    (closure : Nat → OT.hb_closure_context_t → OT.hb_closure_context_t)
    (gsub : OT.GSUBGPOS) (lookups : Option hb_set_t)
    (P : OT.hb_closure_context_t → Prop)
    (hgrow : ∀ c, P c →
      hb_set_get_population c.glyphs ≠ hb_set_get_population
        (hb_ot_layout_lookups_substitute_closure.pass closure gsub lookups c).glyphs ∧
      P (hb_ot_layout_lookups_substitute_closure.pass closure gsub lookups c)) :
    ∀ (d iteration_count : Nat) (c : OT.hb_closure_context_t),
      M - iteration_count = d → iteration_count ≤ M → P c →
      (hb_ot_layout_lookups_substitute_closure.loop M closure gsub lookups c
        iteration_count).2 = M + 1 := by
  intro d
  induction d with
  | zero =>
    intro iteration_count c hd hle hP
    rw [hb_ot_layout_lookups_substitute_closure.loop, if_neg (by omega)]
    simp only
    omega
  | succ d ih =>
    intro iteration_count c hd hle hP
    rw [hb_ot_layout_lookups_substitute_closure.loop, if_pos ⟨by omega, (hgrow c hP).1⟩]
    exact ih (iteration_count + 1) _ (by omega) (by omega) (hgrow c hP).2

/-- A pass with the chain closure over a non-empty glyph set grows the set. -/
theorem chainClosure_pass_grows (c : OT.hb_closure_context_t) (h : c.glyphs.Nonempty) :
    hb_set_get_population c.glyphs ≠ hb_set_get_population
        (hb_ot_layout_lookups_substitute_closure.pass chainClosure (_get_gsub chainFace)
          none c).glyphs ∧
      (hb_ot_layout_lookups_substitute_closure.pass chainClosure (_get_gsub chainFace)
          none c).glyphs.Nonempty := by
  have hpass : (hb_ot_layout_lookups_substitute_closure.pass chainClosure
      (_get_gsub chainFace) none c).glyphs = c.glyphs ∪ c.glyphs.image fun g => g + 1 := rfl
  rw [hpass]
  have hsub : c.glyphs ⊂ c.glyphs ∪ c.glyphs.image fun g => g + 1 := by
    refine Finset.ssubset_iff_subset_ne.mpr ⟨Finset.subset_union_left, fun heq => ?_⟩
    have hmem' : c.glyphs.max' h + 1 ∈ c.glyphs ∪ c.glyphs.image fun g => g + 1 :=
      Finset.mem_union_right _
        (Finset.mem_image.mpr ⟨c.glyphs.max' h, Finset.max'_mem _ h, rfl⟩)
    have hmem : c.glyphs.max' h + 1 ∈ c.glyphs := (Finset.ext_iff.mp heq _).mpr hmem'
    have := Finset.le_max' c.glyphs _ hmem
    omega
  exact ⟨Nat.ne_of_lt (Finset.card_lt_card hsub), h.mono Finset.subset_union_left⟩

/-- C23, the code at the failing input: with the cap `HB_CLOSURE_MAX_STAGES = 32`, a
GSUB table whose single lookup chains every glyph `g` to `g + 1`, all lookups
(`lookups` null) and the seed set `{0}`, `hb_ot_layout_lookups_substitute_closure`
makes 33 full passes, one more than the cap; for every cap `M` it makes `M + 1` passes
on this input. -/
theorem hb_ot_layout_lookups_substitute_closure_exceeds_cap :
    hb_ot_layout_lookups_substitute_closure.passes 32 chainClosure chainFace none {0} = 33 ∧
      ∀ M : Nat,
        hb_ot_layout_lookups_substitute_closure.passes M chainClosure chainFace none {0}
          = M + 1 := by
  have h : ∀ M : Nat,
      hb_ot_layout_lookups_substitute_closure.passes M chainClosure chainFace none {0}
        = M + 1 := fun M =>
    hb_ot_layout_lookups_substitute_closure_loop_growing M chainClosure (_get_gsub chainFace)
      none (fun c => c.glyphs.Nonempty) chainClosure_pass_grows M 0 _ rfl (Nat.zero_le M)
      (Finset.singleton_nonempty 0)
  exact ⟨h 32, h⟩

/-- When every per-lookup closure operation only adds glyphs, a pass only adds
glyphs. -/
theorem hb_ot_layout_lookups_substitute_closure_pass_mono
    (closure : Nat → OT.hb_closure_context_t → OT.hb_closure_context_t)
    (gsub : OT.GSUBGPOS) (lookups : Option hb_set_t)
    (hadd : ∀ i c, c.glyphs ⊆ (closure i c).glyphs) (c : OT.hb_closure_context_t) :
    c.glyphs ⊆ (hb_ot_layout_lookups_substitute_closure.pass closure gsub lookups c).glyphs := by
  unfold hb_ot_layout_lookups_substitute_closure.pass
  generalize hb_ot_layout_lookups_substitute_closure.indices gsub lookups = indices
  induction indices generalizing c with
  | nil => exact Finset.Subset.refl _
  | cons i rest ih =>
    rw [List.foldl_cons]
    exact (hadd i c).trans (ih (closure i c))

/-- When every per-lookup closure operation only adds glyphs, the loop only adds
glyphs. -/
theorem hb_ot_layout_lookups_substitute_closure_loop_mono (M : Nat)
    (closure : Nat → OT.hb_closure_context_t → OT.hb_closure_context_t)
    (gsub : OT.GSUBGPOS) (lookups : Option hb_set_t)
    (hadd : ∀ i c, c.glyphs ⊆ (closure i c).glyphs) :
    ∀ (d iteration_count : Nat) (c : OT.hb_closure_context_t),
      M + 1 - iteration_count = d →
      c.glyphs ⊆ (hb_ot_layout_lookups_substitute_closure.loop M closure gsub lookups c
        iteration_count).1.glyphs := by
  intro d
  induction d using Nat.strong_induction_on with
  | _ d ih =>
    intro iteration_count c hd
    have hpass := hb_ot_layout_lookups_substitute_closure_pass_mono closure gsub lookups hadd c
    rw [hb_ot_layout_lookups_substitute_closure.loop]
    split
    · exact hpass.trans (ih (M + 1 - (iteration_count + 1)) (by omega) (iteration_count + 1)
        _ rfl)
    · exact hpass

/-- C24: closure is monotonic.  Assuming that every per-lookup closure operation only
adds glyphs to the set, the glyph set after each pass of
`hb_ot_layout_lookups_substitute_closure` is a superset of the set before it, so the
population does not decrease across a pass, and the final set contains the seed
set. -/
theorem hb_ot_layout_lookups_substitute_closure_monotonic (M : Nat)
    (closure : Nat → OT.hb_closure_context_t → OT.hb_closure_context_t)
    (face : hb_face_t) (lookups : Option hb_set_t) (glyphs : hb_set_t)
    (hadd : ∀ i c, c.glyphs ⊆ (closure i c).glyphs) :
    (∀ c : OT.hb_closure_context_t,
        c.glyphs ⊆ (hb_ot_layout_lookups_substitute_closure.pass closure (_get_gsub face)
          lookups c).glyphs ∧
        hb_set_get_population c.glyphs ≤ hb_set_get_population
          (hb_ot_layout_lookups_substitute_closure.pass closure (_get_gsub face)
            lookups c).glyphs) ∧
      glyphs ⊆ hb_ot_layout_lookups_substitute_closure M closure face lookups glyphs ∧
      hb_set_get_population glyphs ≤ hb_set_get_population
        (hb_ot_layout_lookups_substitute_closure M closure face lookups glyphs) := by
  have hfinal : glyphs ⊆ hb_ot_layout_lookups_substitute_closure M closure face lookups
      glyphs :=
    hb_ot_layout_lookups_substitute_closure_loop_mono M closure (_get_gsub face) lookups hadd
      _ 0 { glyphs := glyphs, done_lookups := [] } rfl
  refine ⟨fun c => ?_, hfinal, Finset.card_le_card hfinal⟩
  have hpass := hb_ot_layout_lookups_substitute_closure_pass_mono closure (_get_gsub face)
    lookups hadd c
  exact ⟨hpass, Finset.card_le_card hpass⟩

/-- Witness of C24 with the chain closure, which only adds glyphs. -/
theorem hb_ot_layout_lookups_substitute_closure_monotonic_witness :
    (∀ i c, c.glyphs ⊆ (chainClosure i c).glyphs) ∧
      ({0} : hb_set_t) ⊆
        hb_ot_layout_lookups_substitute_closure 32 chainClosure chainFace none {0} :=
  ⟨fun _ _ => Finset.subset_union_left,
    (hb_ot_layout_lookups_substitute_closure_monotonic 32 chainClosure chainFace none {0}
      fun _ _ => Finset.subset_union_left).2.1⟩

/-! ## Applying a lookup to the buffer -/

/-- C25: `apply_string` is a no-op when the buffer is empty or the lookup mask is 0:
for every proxy (GSUB or GPOS), lookup (forward or reverse), accelerator and any
number `fuel` of loop iterations allowed (0 included, so no loop is entered and
`accel.apply` is never called) the context, and with it the buffer, comes back
unchanged. -/
theorem apply_string_noop (proxy : Proxy)
    (check_glyph_property : hb_glyph_info_t → Nat → Bool) (fuel : Nat)
    (c : OT.hb_ot_apply_context_t) (lookup : OT.Lookup)
    (accel : OT.hb_ot_layout_lookup_accelerator_t)
    (h : c.buffer.len = 0 ∨ c.lookup_mask = 0) :
    apply_string proxy check_glyph_property fuel c lookup accel = some c := by
  unfold apply_string
  rw [if_pos h]

theorem apply_string_noop_witness :
    (maskZeroCtx.buffer.len = 0 ∨ maskZeroCtx.lookup_mask = 0) ∧
    apply_string sampleProxy sampleCheck 0 maskZeroCtx forwardLookup substAccel
      = some maskZeroCtx :=
  ⟨by decide,
   apply_string_noop sampleProxy sampleCheck 0 maskZeroCtx forwardLookup substAccel
     (by decide)⟩

/-! ## The backward pass -/

/-- One iteration of the loop of `apply_backward`. -/
theorem apply_backward_run_succ (check_glyph_property : hb_glyph_info_t → Nat → Bool)
    (accel : OT.hb_ot_layout_lookup_accelerator_t) (fuel : Nat)
    (c : OT.hb_ot_apply_context_t) (ret : Bool) (visited : List OT.hb_ot_apply_context_t) :
    apply_backward.run check_glyph_property accel (fuel + 1) c ret visited =
      if ((if apply_filter check_glyph_property accel c = true then
              (accel.apply c).2 else c).buffer.idx + 4294967295) % 4294967296
          < 2147483648 then
        apply_backward.run check_glyph_property accel fuel
          { (if apply_filter check_glyph_property accel c = true then
              (accel.apply c).2 else c) with
            buffer := (if apply_filter check_glyph_property accel c = true then
              (accel.apply c).2 else c).buffer.idx_decrement }
          (if apply_filter check_glyph_property accel c = true then
            (if (accel.apply c).1 = true then true else ret) else ret)
          (visited ++ [c])
      else
        some { ret := (if apply_filter check_glyph_property accel c = true then
                 (if (accel.apply c).1 = true then true else ret) else ret)
               c := { (if apply_filter check_glyph_property accel c = true then
                   (accel.apply c).2 else c) with
                 buffer := (if apply_filter check_glyph_property accel c = true then
                   (accel.apply c).2 else c).buffer.idx_decrement }
               visited := visited ++ [c] } := by
  by_cases hf : apply_filter check_glyph_property accel c = true
  · simp only [apply_backward.run, hf, if_true]
    rfl
  · simp only [apply_backward.run, hf]
    rfl

/-- A run of `apply_backward` leaves the cursor one below where it was, as
long as `accel.apply` does not move it. -/
theorem apply_backward_run_spec (check_glyph_property : hb_glyph_info_t → Nat → Bool)
    (accel : OT.hb_ot_layout_lookup_accelerator_t)
    (hidx : ∀ c, (accel.apply c).2.buffer.idx = c.buffer.idx) :
    ∀ (k fuel : Nat) (c : OT.hb_ot_apply_context_t) (ret : Bool)
      (visited : List OT.hb_ot_apply_context_t),
      c.buffer.idx = k → k < 2147483648 → k < fuel →
      ∃ r new, apply_backward.run check_glyph_property accel fuel c ret visited = some r ∧
        r.visited = visited ++ new ∧
        new.map (fun v => v.buffer.idx) = (List.range (k + 1)).reverse ∧
        (r.ret = true ↔ ret = true ∨
          ∃ v ∈ new, apply_filter check_glyph_property accel v = true ∧
            (accel.apply v).1 = true) := by
  intro k
  have hc2 : ∀ c : OT.hb_ot_apply_context_t,
      (if apply_filter check_glyph_property accel c = true then
        (accel.apply c).2 else c).buffer.idx = c.buffer.idx := by
    intro c
    split
    · exact hidx c
    · rfl
  have hret2 : ∀ (c : OT.hb_ot_apply_context_t) (ret : Bool),
      ((if apply_filter check_glyph_property accel c = true then
        (if (accel.apply c).1 = true then true else ret) else ret) = true ↔
       ret = true ∨ (apply_filter check_glyph_property accel c = true ∧
         (accel.apply c).1 = true)) := by
    intro c ret
    by_cases hf : apply_filter check_glyph_property accel c = true
    · by_cases ha : (accel.apply c).1 = true
      · simp [hf, ha]
      · simp [hf, ha]
    · simp [hf]
  induction k with
  | zero =>
    intro fuel c ret visited hk _ hfuel
    obtain ⟨fuel, rfl⟩ : ∃ f, fuel = f + 1 := ⟨fuel - 1, by omega⟩
    rw [apply_backward_run_succ]
    have h2 := hc2 c
    have hr := hret2 c ret
    rw [hk] at h2
    generalize (if apply_filter check_glyph_property accel c = true then
        (accel.apply c).2 else c) = c2 at h2 ⊢
    generalize (if apply_filter check_glyph_property accel c = true then
        (if (accel.apply c).1 = true then true else ret) else ret) = ret2 at hr ⊢
    rw [h2, if_neg (by omega)]
    refine ⟨_, [c], rfl, rfl, ?_, ?_⟩
    · rw [List.map_cons, hk]
      rfl
    · show ret2 = true ↔ _
      rw [hr]
      simp
  | succ k ih =>
    intro fuel c ret visited hk hlt hfuel
    obtain ⟨fuel, rfl⟩ : ∃ f, fuel = f + 1 := ⟨fuel - 1, by omega⟩
    rw [apply_backward_run_succ]
    have h2 := hc2 c
    have hr := hret2 c ret
    rw [hk] at h2
    generalize (if apply_filter check_glyph_property accel c = true then
        (accel.apply c).2 else c) = c2 at h2 ⊢
    generalize (if apply_filter check_glyph_property accel c = true then
        (if (accel.apply c).1 = true then true else ret) else ret) = ret2 at hr ⊢
    have hdec : (k + 1 + 4294967295) % 4294967296 = k := by omega
    rw [h2, hdec, if_pos (by omega)]
    obtain ⟨r, new, hrun, hv, hm, hret⟩ := ih fuel
      { c2 with buffer := c2.buffer.idx_decrement } ret2 (visited ++ [c])
      (by show (c2.buffer.idx + 4294967295) % 4294967296 = k
          rw [h2, hdec])
      (by omega) (by omega)
    refine ⟨r, c :: new, hrun, by rw [hv, List.append_assoc]; rfl, ?_, ?_⟩
    · rw [List.map_cons, hm, hk, List.range_succ (k + 1), List.reverse_append]
      rfl
    · rw [hret, hr]
      simp only [List.mem_cons, exists_eq_or_imp, or_assoc]

/-- C26, the claim as worded fails: a reverse lookup whose `apply` leaves the cursor
where it is, on a buffer of three glyphs with the cursor at 0, called with lookup
mask 0: `apply_string` returns at once, the cursor is still 0 and not 2, and no
position is visited. -/
theorem apply_string_reverse_mask_zero :
    reverseLookup.is_reverse = true ∧ maskZeroCtx.buffer.len = 3 ∧
    maskZeroCtx.buffer.idx = 0 ∧
    (∀ c, (inplaceAccel.apply c).2.buffer.idx = c.buffer.idx) ∧
    apply_string sampleProxy sampleCheck 10 maskZeroCtx reverseLookup inplaceAccel
      = some maskZeroCtx ∧
    (apply_string.backward_start sampleProxy maskZeroCtx reverseLookup).buffer.idx = 2 :=
  ⟨rfl, rfl, rfl, fun _ => rfl, by decide, by decide⟩

/-- C26, amended: for a buffer of `n` glyphs with `0 < n ≤ 2^31`, a nonzero lookup mask
and a reverse lookup whose `apply` leaves the cursor unchanged, `apply_string` starts
the cursor at `n - 1`, and `apply_backward` (given at least `n` iterations) ends, having
entered its loop body at the cursor positions `n - 1, n - 2, ..., 0`, once each and in
that order; it returns true iff at one of these positions the filters held and
`accel.apply` succeeded; `apply_string` leaves the context of that run. -/
theorem apply_string_reverse_visits (proxy : Proxy)
    (check_glyph_property : hb_glyph_info_t → Nat → Bool) (fuel : Nat)
    (c : OT.hb_ot_apply_context_t) (lookup : OT.Lookup)
    (accel : OT.hb_ot_layout_lookup_accelerator_t)
    (hlen : 0 < c.buffer.len) (hmax : c.buffer.len ≤ 2147483648)
    (hmask : c.lookup_mask ≠ 0) (hrev : lookup.is_reverse = true)
    (hidx : ∀ c, (accel.apply c).2.buffer.idx = c.buffer.idx)
    (hfuel : c.buffer.len ≤ fuel) :
    (apply_string.backward_start proxy c lookup).buffer.idx = c.buffer.len - 1 ∧
    ∃ r, apply_backward.run check_glyph_property accel fuel
          (apply_string.backward_start proxy c lookup) false [] = some r ∧
      r.visited.map (fun v => v.buffer.idx) = (List.range c.buffer.len).reverse ∧
      (r.ret = true ↔ ∃ v ∈ r.visited, apply_filter check_glyph_property accel v = true ∧
        (accel.apply v).1 = true) ∧
      apply_backward check_glyph_property accel fuel
        (apply_string.backward_start proxy c lookup) = some (r.ret, r.c) ∧
      apply_string proxy check_glyph_property fuel c lookup accel = some r.c := by
  have hstart : (apply_string.backward_start proxy c lookup).buffer.idx
      = c.buffer.len - 1 := by
    unfold apply_string.backward_start OT.hb_ot_apply_context_t.set_lookup_props
    by_cases h0 : proxy.table_index = 0
    · simp [h0, hb_buffer_t.remove_output, hb_buffer_t.len]
    · simp [h0]
  refine ⟨hstart, ?_⟩
  obtain ⟨r, new, hr, hv, hm, hret⟩ := apply_backward_run_spec check_glyph_property accel hidx
    (c.buffer.len - 1) fuel (apply_string.backward_start proxy c lookup) false [] hstart
    (by omega) (by omega)
  have hn : c.buffer.len - 1 + 1 = c.buffer.len := by omega
  rw [List.nil_append] at hv
  rw [hn] at hm
  have hb : apply_backward check_glyph_property accel fuel
      (apply_string.backward_start proxy c lookup) = some (r.ret, r.c) := by
    unfold apply_backward
    rw [hr]
    rfl
  refine ⟨r, hr, by rw [hv]; exact hm, ?_, hb, ?_⟩
  · rw [hret, hv]
    simp
  · unfold apply_string
    have hg : ¬ (c.buffer.len = 0 ∨ c.lookup_mask = 0) := by
      intro h
      rcases h with h | h
      · omega
      · exact hmask h
    rw [if_neg hg, hrev]
    simp only [Bool.not_true, Bool.false_eq_true, if_false]
    rw [hb]

theorem apply_string_reverse_visits_witness :
    (apply_string.backward_start sampleProxy sampleApplyCtx reverseLookup).buffer.idx
      = sampleApplyCtx.buffer.len - 1 ∧
    ∃ r, apply_backward.run sampleCheck inplaceAccel 3
          (apply_string.backward_start sampleProxy sampleApplyCtx reverseLookup) false []
          = some r ∧
      r.visited.map (fun v => v.buffer.idx) = (List.range sampleApplyCtx.buffer.len).reverse ∧
      (r.ret = true ↔ ∃ v ∈ r.visited, apply_filter sampleCheck inplaceAccel v = true ∧
        (inplaceAccel.apply v).1 = true) ∧
      apply_backward sampleCheck inplaceAccel 3
        (apply_string.backward_start sampleProxy sampleApplyCtx reverseLookup)
        = some (r.ret, r.c) ∧
      apply_string sampleProxy sampleCheck 3 sampleApplyCtx reverseLookup inplaceAccel
        = some r.c :=
  apply_string_reverse_visits sampleProxy sampleCheck 3 sampleApplyCtx reverseLookup
    inplaceAccel (by decide) (by decide) (by decide) rfl (fun _ => rfl) (by decide)

/-! ## The forward pass -/

/-- One iteration of the loop of `apply_forward`. -/
theorem apply_forward_run_succ (check_glyph_property : hb_glyph_info_t → Nat → Bool)
    (accel : OT.hb_ot_layout_lookup_accelerator_t) (fuel : Nat)
    (c : OT.hb_ot_apply_context_t) (ret : Bool) (visited : List OT.hb_ot_apply_context_t) :
    apply_forward.run check_glyph_property accel (fuel + 1) c ret visited =
      if c.buffer.idx < c.buffer.len ∧ c.buffer.successful = true then
        if apply_filter check_glyph_property accel c = true then
          if (accel.apply c).1 = true then
            apply_forward.run check_glyph_property accel fuel (accel.apply c).2 true
              (visited ++ [c])
          else
            apply_forward.run check_glyph_property accel fuel
              { (accel.apply c).2 with buffer := (accel.apply c).2.buffer.next_glyph } ret
              (visited ++ [c])
        else
          apply_forward.run check_glyph_property accel fuel
            { c with buffer := c.buffer.next_glyph } ret (visited ++ [c])
      else
        some { ret := ret, c := c, visited := visited } := rfl

/-- The states of a finished run of `apply_forward`: they start at the given context,
each follows from the one before by one iteration, all but the last satisfy the loop
condition, and the returned flag records whether an application succeeded. -/
theorem apply_forward_run_trace (check_glyph_property : hb_glyph_info_t → Nat → Bool)
    (accel : OT.hb_ot_layout_lookup_accelerator_t) :
    ∀ (fuel : Nat) (c : OT.hb_ot_apply_context_t) (ret : Bool)
      (visited : List OT.hb_ot_apply_context_t) (r : ApplyRun),
      apply_forward.run check_glyph_property accel fuel c ret visited = some r →
      ∃ new, r.visited = visited ++ new ∧
        List.Chain' (apply_forward.follows check_glyph_property accel) (new ++ [r.c]) ∧
        (new ++ [r.c]).head? = some c ∧
        (∀ v ∈ new, v.buffer.idx < v.buffer.len ∧ v.buffer.successful = true) ∧
        ¬ (r.c.buffer.idx < r.c.buffer.len ∧ r.c.buffer.successful = true) ∧
        (r.ret = true ↔ ret = true ∨
          ∃ v ∈ new, apply_filter check_glyph_property accel v = true ∧
            (accel.apply v).1 = true) := by
  intro fuel
  induction fuel with
  | zero =>
    intro c ret visited r h
    simp [apply_forward.run] at h
  | succ fuel ih =>
    intro c ret visited r h
    rw [apply_forward_run_succ] at h
    by_cases hcond : c.buffer.idx < c.buffer.len ∧ c.buffer.successful = true
    · rw [if_pos hcond] at h
      have key : ∀ (c1 : OT.hb_ot_apply_context_t) (ret1 : Bool),
          apply_forward.run check_glyph_property accel fuel c1 ret1 (visited ++ [c]) = some r →
          apply_forward.follows check_glyph_property accel c c1 →
          (ret1 = true ↔ ret = true ∨ (apply_filter check_glyph_property accel c = true ∧
            (accel.apply c).1 = true)) →
          ∃ new, r.visited = visited ++ new ∧
            List.Chain' (apply_forward.follows check_glyph_property accel) (new ++ [r.c]) ∧
            (new ++ [r.c]).head? = some c ∧
            (∀ v ∈ new, v.buffer.idx < v.buffer.len ∧ v.buffer.successful = true) ∧
            ¬ (r.c.buffer.idx < r.c.buffer.len ∧ r.c.buffer.successful = true) ∧
            (r.ret = true ↔ ret = true ∨
              ∃ v ∈ new, apply_filter check_glyph_property accel v = true ∧
                (accel.apply v).1 = true) := by
        intro c1 ret1 hrun hfol hret1
        obtain ⟨new, hv, hchain, hhead, hall, hend, hret⟩ := ih c1 ret1 (visited ++ [c]) r hrun
        refine ⟨c :: new, by rw [hv, List.append_assoc]; rfl, ?_, rfl, ?_, hend, ?_⟩
        · rw [List.cons_append, List.chain'_cons']
          refine ⟨?_, hchain⟩
          intro y hy
          rw [hhead] at hy
          cases hy
          exact hfol
        · intro v hv'
          rcases List.mem_cons.mp hv' with rfl | hv'
          · exact hcond
          · exact hall v hv'
        · rw [hret, hret1]
          simp only [List.mem_cons, exists_eq_or_imp, or_assoc]
      by_cases hf : apply_filter check_glyph_property accel c = true
      · rw [if_pos hf] at h
        by_cases ha : (accel.apply c).1 = true
        · rw [if_pos ha] at h
          exact key _ _ h (Or.inr (Or.inr ⟨hf, ha, rfl⟩)) (by simp [hf, ha])
        · rw [if_neg ha] at h
          have ha' : (accel.apply c).1 = false := by simpa using ha
          exact key _ _ h (Or.inr (Or.inl ⟨hf, ha', rfl, rfl⟩)) (by simp [ha'])
      · rw [if_neg hf] at h
        have hf' : apply_filter check_glyph_property accel c = false := by simpa using hf
        exact key _ _ h (Or.inl ⟨hf', rfl, rfl⟩) (by simp [hf'])
    · rw [if_neg hcond] at h
      cases h
      exact ⟨[], by simp, List.chain'_singleton _, rfl, by simp, hcond, by simp⟩

/-- The loop of `apply_forward` ends within `len - idx + 1` iterations when an
application never lengthens the buffer, never moves the cursor backward and moves it
forward when it succeeds. -/
theorem apply_forward_run_total (check_glyph_property : hb_glyph_info_t → Nat → Bool)
    (accel : OT.hb_ot_layout_lookup_accelerator_t)
    (hlen : ∀ c, (accel.apply c).2.buffer.len ≤ c.buffer.len)
    (hmove : ∀ c, c.buffer.idx ≤ (accel.apply c).2.buffer.idx)
    (hprog : ∀ c, (accel.apply c).1 = true → c.buffer.idx < (accel.apply c).2.buffer.idx) :
    ∀ (fuel : Nat) (c : OT.hb_ot_apply_context_t) (ret : Bool)
      (visited : List OT.hb_ot_apply_context_t),
      c.buffer.len - c.buffer.idx < fuel →
      ∃ r, apply_forward.run check_glyph_property accel fuel c ret visited = some r := by
  intro fuel
  induction fuel with
  | zero =>
    intro c ret visited h
    omega
  | succ fuel ih =>
    intro c ret visited h
    rw [apply_forward_run_succ]
    by_cases hcond : c.buffer.idx < c.buffer.len ∧ c.buffer.successful = true
    · rw [if_pos hcond]
      have h1 := hlen c
      have h2 := hmove c
      by_cases hf : apply_filter check_glyph_property accel c = true
      · rw [if_pos hf]
        by_cases ha : (accel.apply c).1 = true
        · rw [if_pos ha]
          have h3 := hprog c ha
          exact ih _ _ _ (by omega)
        · rw [if_neg ha]
          refine ih _ _ _ ?_
          show (accel.apply c).2.buffer.next_glyph.len
            - ((accel.apply c).2.buffer.idx + 1) < fuel
          have h4 : (accel.apply c).2.buffer.next_glyph.len = (accel.apply c).2.buffer.len :=
            rfl
          omega
      · rw [if_neg hf]
        refine ih _ _ _ ?_
        show c.buffer.next_glyph.len - (c.buffer.idx + 1) < fuel
        have h4 : c.buffer.next_glyph.len = c.buffer.len := rfl
        omega
    · rw [if_neg hcond]
      exact ⟨_, rfl⟩

/-- With `backAccel` the loop of `apply_forward` never leaves glyph 11: the failed
application moves the cursor back by one and `next_glyph` moves it forward again. -/
theorem apply_forward_run_backAccel_stuck :
    ∀ (fuel : Nat) (ret : Bool) (visited : List OT.hb_ot_apply_context_t),
      apply_forward.run sampleCheck backAccel fuel secondGlyphCtx ret visited = none := by
  intro fuel
  induction fuel with
  | zero =>
    intro ret visited
    rfl
  | succ fuel ih =>
    intro ret visited
    rw [apply_forward_run_succ,
      if_pos (by decide :
        secondGlyphCtx.buffer.idx < secondGlyphCtx.buffer.len ∧
          secondGlyphCtx.buffer.successful = true),
      if_pos (by decide : apply_filter sampleCheck backAccel secondGlyphCtx = true),
      if_neg (by decide : ¬ (backAccel.apply secondGlyphCtx).1 = true)]
    exact ih ret (visited ++ [secondGlyphCtx])

/-- With `growAccel` the loop of `apply_forward` never reaches the end of the buffer:
every application succeeds, advances the cursor by one and lengthens the buffer by
one. -/
theorem apply_forward_run_growAccel_stuck :
    ∀ (fuel : Nat) (c : OT.hb_ot_apply_context_t) (ret : Bool)
      (visited : List OT.hb_ot_apply_context_t),
      c.buffer.idx < c.buffer.len → c.buffer.successful = true → c.lookup_mask = 1 →
      (∀ g ∈ c.buffer.info, g.mask = 1) →
      apply_forward.run sampleCheck growAccel fuel c ret visited = none := by
  intro fuel
  induction fuel with
  | zero =>
    intro c ret visited _ _ _ _
    rfl
  | succ fuel ih =>
    intro c ret visited hidx hsucc hmask hall
    have hlt : c.buffer.idx < c.buffer.info.length := hidx
    have hcur : c.buffer.cur = c.buffer.info.get ⟨c.buffer.idx, hlt⟩ := by
      unfold hb_buffer_t.cur
      rw [List.getD_eq_getElem _ _ hlt]
      rfl
    have hcurmem : c.buffer.cur ∈ c.buffer.info := by
      rw [hcur]
      exact List.get_mem _ _ _
    have hf : apply_filter sampleCheck growAccel c = true := by
      unfold apply_filter
      rw [hmask, hall _ hcurmem]
      rfl
    have ha : (growAccel.apply c).1 = true := rfl
    rw [apply_forward_run_succ, if_pos ⟨hidx, hsucc⟩, if_pos hf, if_pos ha]
    refine ih _ _ _ ?_ hsucc hmask ?_
    · show c.buffer.idx + 1 < (c.buffer.info ++ [c.buffer.cur]).length
      rw [List.length_append, List.length_singleton]
      omega
    · intro g hg
      have hg' : g ∈ c.buffer.info ++ [c.buffer.cur] := hg
      rcases List.mem_append.mp hg' with h | h
      · exact hall g h
      · rw [List.mem_singleton.mp h]
        exact hall _ hcurmem

/-- C27, the claim as worded fails: that every successful application advances the
cursor by at least one does not make `apply_forward` terminate.  `backAccel` advances
the cursor by one whenever it succeeds, but its failed application at glyph 11 moves
the cursor back by one, which `next_glyph` undoes: from the cursor at 0 on the
three-glyph buffer the loop does not end within any number of iterations.  `growAccel`
succeeds everywhere and advances the cursor by one each time, but lengthens the buffer
by one glyph each time: the loop does not end either. -/
theorem apply_forward_not_terminating :
    (∀ c, (backAccel.apply c).1 = true →
      c.buffer.idx < (backAccel.apply c).2.buffer.idx) ∧
    (∀ fuel, apply_forward sampleCheck backAccel fuel sampleApplyCtx = none) ∧
    (∀ c, (growAccel.apply c).1 = true →
      c.buffer.idx < (growAccel.apply c).2.buffer.idx) ∧
    (∀ fuel, apply_forward sampleCheck growAccel fuel sampleApplyCtx = none) := by
  refine ⟨?_, ?_, ?_, ?_⟩
  · intro c h
    unfold backAccel at h ⊢
    simp only at h ⊢
    split
    · exact Nat.lt_succ_self _
    · rename_i hne
      rw [if_neg hne] at h
      exact absurd h (by simp)
  · intro fuel
    unfold apply_forward
    cases fuel with
    | zero => rfl
    | succ fuel =>
      rw [apply_forward_run_succ,
        if_pos (by decide :
          sampleApplyCtx.buffer.idx < sampleApplyCtx.buffer.len ∧
            sampleApplyCtx.buffer.successful = true),
        if_pos (by decide : apply_filter sampleCheck backAccel sampleApplyCtx = true),
        if_pos (by decide : (backAccel.apply sampleApplyCtx).1 = true)]
      have hnext : (backAccel.apply sampleApplyCtx).2 = secondGlyphCtx := by decide
      rw [hnext, apply_forward_run_backAccel_stuck]
      rfl
  · intro c _
    exact Nat.lt_succ_self _
  · intro fuel
    unfold apply_forward
    rw [apply_forward_run_growAccel_stuck fuel sampleApplyCtx false [] (by decide) rfl rfl
      (by decide)]
    rfl

/-- C27, amended: `apply_forward` walks the buffer from the cursor: the contexts at which
its loop body is entered, followed by the context it leaves, start at the given context
and each follows from the one before by one iteration in which `accel.apply` is
attempted iff the three filters (`may_have`, the mask test, the glyph-property check)
hold, a successful application leaves the cursor where the application put it, and a
failed or skipped position advances the cursor by exactly one glyph via `next_glyph`.
The loop body is entered only while the cursor is inside the buffer and the buffer is
successful, and the context left is outside the buffer or unsuccessful.  The function
returns true iff an application succeeded at one of the contexts entered.  It
terminates (within `len - idx + 1` iterations) whenever every successful application
advances the cursor by at least one (`hprog`), no application moves the cursor backward
(`hmove`) and no application lengthens the buffer (`hlen`). -/
theorem apply_forward_iterates (check_glyph_property : hb_glyph_info_t → Nat → Bool)
    (accel : OT.hb_ot_layout_lookup_accelerator_t) (fuel : Nat)
    (c : OT.hb_ot_apply_context_t)
    (hlen : ∀ c, (accel.apply c).2.buffer.len ≤ c.buffer.len)
    (hmove : ∀ c, c.buffer.idx ≤ (accel.apply c).2.buffer.idx)
    (hprog : ∀ c, (accel.apply c).1 = true → c.buffer.idx < (accel.apply c).2.buffer.idx)
    (hfuel : c.buffer.len - c.buffer.idx < fuel) :
    ∃ r, apply_forward.run check_glyph_property accel fuel c false [] = some r ∧
      apply_forward check_glyph_property accel fuel c = some (r.ret, r.c) ∧
      List.Chain' (apply_forward.follows check_glyph_property accel) (r.visited ++ [r.c]) ∧
      (r.visited ++ [r.c]).head? = some c ∧
      (∀ v ∈ r.visited, v.buffer.idx < v.buffer.len ∧ v.buffer.successful = true) ∧
      ¬ (r.c.buffer.idx < r.c.buffer.len ∧ r.c.buffer.successful = true) ∧
      (r.ret = true ↔ ∃ v ∈ r.visited, apply_filter check_glyph_property accel v = true ∧
        (accel.apply v).1 = true) := by
  obtain ⟨r, hr⟩ := apply_forward_run_total check_glyph_property accel hlen hmove hprog
    fuel c false [] hfuel
  obtain ⟨new, hv, hchain, hhead, hall, hend, hret⟩ :=
    apply_forward_run_trace check_glyph_property accel fuel c false [] r hr
  rw [List.nil_append] at hv
  subst hv
  refine ⟨r, hr, ?_, hchain, hhead, hall, hend, ?_⟩
  · unfold apply_forward
    rw [hr]
    rfl
  · rw [hret]
    simp

theorem apply_forward_iterates_witness :
    ∃ r, apply_forward.run sampleCheck substAccel 4 sampleApplyCtx false [] = some r ∧
      apply_forward sampleCheck substAccel 4 sampleApplyCtx = some (r.ret, r.c) ∧
      List.Chain' (apply_forward.follows sampleCheck substAccel) (r.visited ++ [r.c]) ∧
      (r.visited ++ [r.c]).head? = some sampleApplyCtx ∧
      (∀ v ∈ r.visited, v.buffer.idx < v.buffer.len ∧ v.buffer.successful = true) ∧
      ¬ (r.c.buffer.idx < r.c.buffer.len ∧ r.c.buffer.successful = true) ∧
      (r.ret = true ↔ ∃ v ∈ r.visited, apply_filter sampleCheck substAccel v = true ∧
        (substAccel.apply v).1 = true) :=
  apply_forward_iterates sampleCheck substAccel 4 sampleApplyCtx
    (fun _ => Nat.le_refl _) (fun _ => Nat.le_succ _) (fun _ _ => Nat.lt_succ_self _)
    (by decide)

/-! ## Swapping the output back -/

/-- C28, the claim as worded fails: a forward GSUB lookup with empty coverage on a
buffer of three glyphs with mask 1.  The forward pass runs to the end (cursor 3),
no application succeeds, and `apply_string` returns the context of the pass as it is:
the output accumulator is still separate and has not been swapped into the main
buffer (a swap would have put the cursor back to 0 and given the accumulator up). -/
theorem apply_string_forward_no_swap :
    sampleProxy.table_index = 0 ∧ sampleProxy.inplace = false ∧
    forwardLookup.is_reverse = false ∧
    (apply_forward sampleCheck neverAccel 10
      (apply_string.forward_start sampleProxy sampleApplyCtx forwardLookup)).map Prod.fst
      = some false ∧
    apply_string sampleProxy sampleCheck 10 sampleApplyCtx forwardLookup neverAccel
      = (apply_forward sampleCheck neverAccel 10
          (apply_string.forward_start sampleProxy sampleApplyCtx forwardLookup)).map
          Prod.snd ∧
    (apply_string sampleProxy sampleCheck 10 sampleApplyCtx forwardLookup neverAccel).map
      (fun c => (c.buffer.have_output, c.buffer.idx, c.buffer.out_info))
      = some (true, 3, sampleBuffer.info) ∧
    (apply_string sampleProxy sampleCheck 10 sampleApplyCtx forwardLookup neverAccel).map
      (fun c => (c.buffer.swap_buffers.have_output, c.buffer.swap_buffers.idx))
      = some (false, 0) := by
  refine ⟨rfl, rfl, rfl, ?_, ?_, ?_, ?_⟩ <;> decide

/-- C28, amended: on a non-empty buffer with a nonzero lookup mask, after the full
forward pass of a forward lookup, `apply_string` for GSUB swaps the output accumulator
back into the main buffer when the pass returned true (at least one application
succeeded) and leaves the context of the pass as it is when the pass returned false;
for GPOS it leaves the context of the pass as it is in both cases: the buffer is never
swapped. -/
theorem apply_string_forward_swap (check_glyph_property : hb_glyph_info_t → Nat → Bool)
    (fuel : Nat) (c : OT.hb_ot_apply_context_t) (lookup : OT.Lookup)
    (accel : OT.hb_ot_layout_lookup_accelerator_t)
    (get_lookup : Nat → OT.Lookup) (accels : Nat → OT.hb_ot_layout_lookup_accelerator_t)
    (retS retP : Bool) (cS cP : OT.hb_ot_apply_context_t)
    (hlen : c.buffer.len ≠ 0) (hmask : c.lookup_mask ≠ 0)
    (hfwd : lookup.is_reverse = false)
    (hS : apply_forward check_glyph_property accel fuel
      (apply_string.forward_start (GSUBProxy get_lookup accels) c lookup) = some (retS, cS))
    (hP : apply_forward check_glyph_property accel fuel
      (apply_string.forward_start (GPOSProxy get_lookup accels) c lookup) = some (retP, cP)) :
    apply_string (GSUBProxy get_lookup accels) check_glyph_property fuel c lookup accel
      = some (if retS = true then { cS with buffer := cS.buffer.swap_buffers } else cS) ∧
    apply_string (GPOSProxy get_lookup accels) check_glyph_property fuel c lookup accel
      = some cP := by
  have hg : ¬ (c.buffer.len = 0 ∨ c.lookup_mask = 0) := by
    intro h
    rcases h with h | h
    · exact hlen h
    · exact hmask h
  constructor
  · unfold apply_string
    rw [if_neg hg, hfwd]
    simp only [Bool.not_false, if_true]
    rw [hS]
    cases retS <;> simp [GSUBProxy]
  · unfold apply_string
    rw [if_neg hg, hfwd]
    simp only [Bool.not_false, if_true]
    rw [hP]
    cases retP <;> simp [GPOSProxy]

theorem apply_string_forward_swap_witness :
    apply_string (GSUBProxy (fun _ => forwardLookup) (fun _ => advanceAccel)) sampleCheck 4
        sampleApplyCtx forwardLookup advanceAccel
      = some (if true = true then { deletedCtx with buffer := deletedCtx.buffer.swap_buffers }
              else deletedCtx) ∧
    apply_string (GPOSProxy (fun _ => forwardLookup) (fun _ => advanceAccel)) sampleCheck 4
        sampleApplyCtx forwardLookup advanceAccel
      = some steppedCtx :=
  apply_string_forward_swap sampleCheck 4 sampleApplyCtx forwardLookup advanceAccel
    (fun _ => forwardLookup) (fun _ => advanceAccel) true true deletedCtx steppedCtx
    (by decide) (by decide) rfl (by decide) (by decide)

/-! ## The order of the steps of hb_ot_map_t::apply -/

/-- C30: the code accepts a table whose `colorRecordIndicesZ` array lies outside the
blob.  A blob of 12 bytes holding a version-0 header with `numPalettes` = 1 passes
`CPAL::sanitize`, though `get_size ()` = 12 + 2 * 1 = 14 bytes do not fit the 12-byte
blob and the read of `colorRecordIndicesZ[0]` in the sanitizer's own loop is at
addresses 12 and 13, past the end of the blob. -/
theorem OT.CPAL.sanitize_accepts_indices_outside_blob :
    OT.CPAL.sanitize OT.headerOnlyCtx OT.headerOnlyMem 0 = true ∧
    OT.CPAL.numPalettes OT.headerOnlyMem 0 = 1 ∧
    OT.CPAL.get_size OT.headerOnlyMem 0 = 14 ∧
    OT.headerOnlyCtx.check_range 0 (OT.CPAL.get_size OT.headerOnlyMem 0) = false ∧
    OT.UnsizedArrayOf.addr (some (0 + OT.CPAL.min_size)) OT.HBUINT16.static_size 0
      = some 12 ∧
    OT.headerOnlyCtx.check_range 12 OT.HBUINT16.static_size = false := by
  refine ⟨?_, ?_, ?_, ?_, ?_, ?_⟩ <;> decide

/-! ## Version-0 tables that the sanitizer accepts -/

/-- C31, the claim as worded fails: the blob of 12 zero bytes is a version-0 table in
which the header fits, there is no index entry and no palette, and the 0 color records
at `colorRecordsZ` = 0 from the table start fit; `CPAL::sanitize` rejects it, because
the zero offset is read as the null object, which is not in the blob. -/
theorem OT.CPAL.sanitize_rejects_zero_color_records_offset :
    OT.CPAL.version OT.zeroHeaderMem 0 = 0 ∧
    OT.CPAL.numPalettes OT.zeroHeaderMem 0 = 0 ∧
    OT.CPAL.numColorRecords OT.zeroHeaderMem 0 = 0 ∧
    OT.CPAL.colorRecordsZ OT.zeroHeaderMem 0 = 0 ∧
    OT.headerOnlyCtx.check_range 0 (12 + 2 * OT.CPAL.numPalettes OT.zeroHeaderMem 0) = true ∧
    OT.headerOnlyCtx.check_range (0 + OT.CPAL.colorRecordsZ OT.zeroHeaderMem 0)
      (4 * OT.CPAL.numColorRecords OT.zeroHeaderMem 0) = true ∧
    OT.CPAL.sanitize OT.headerOnlyCtx OT.zeroHeaderMem 0 = false := by
  refine ⟨?_, ?_, ?_, ?_, ?_, ?_, ?_⟩ <;> decide

/-- C31, amended: `CPAL::sanitize` accepts every version-0 table whose 12-byte header
lies in the blob, whose `colorRecordsZ` is not zero, whose `numColorRecords` 4-byte
color records at `colorRecordsZ` from the table start lie in the blob, and all of whose
palettes `p < numPalettes` satisfy
`colorRecordIndicesZ[p] + numPaletteEntries <= numColorRecords` (so also a table
without palettes, and one with a palette that ends exactly at `numColorRecords`).
That the index entries fit the blob is not needed. -/
theorem OT.CPAL.sanitize_accepts_well_formed (c : OT.hb_sanitize_context_t) (mem : OT.Memory)
    (this : Nat)
    (hver : OT.CPAL.version mem this = 0)
    (hhdr : c.start ≤ this ∧ this + 12 ≤ c.end_)
    (hoff : OT.CPAL.colorRecordsZ mem this ≠ 0)
    (hrec : c.start ≤ this + OT.CPAL.colorRecordsZ mem this ∧
      this + OT.CPAL.colorRecordsZ mem this + 4 * OT.CPAL.numColorRecords mem this ≤ c.end_)
    (hpal : ∀ p < OT.CPAL.numPalettes mem this,
      OT.CPAL.colorRecordIndicesZ mem this p + OT.CPAL.numPaletteEntries mem this
        ≤ OT.CPAL.numColorRecords mem this) :
    OT.CPAL.sanitize c mem this = true := by
  have hn : OT.CPAL.numColorRecords mem this < 65536 := OT.HBUINT16.get_lt_two_pow_16 _ _
  have h1 : (c.check_struct this OT.CPAL.min_size &&
      OT.UnsizedArrayOf.sanitize c (OT.CPAL.color_records mem this) OT.HBUINT32.static_size
        (OT.CPAL.numColorRecords mem this)) = true := by
    rw [Bool.and_eq_true, OT.hb_sanitize_context_t.check_struct,
      OT.hb_sanitize_context_t.check_range_iff, OT.CPAL.color_records,
      OT.UnsizedArrayOf.sanitize_iff]
    refine ⟨hhdr, hoff, ?_, hrec⟩
    show 4 * OT.CPAL.numColorRecords mem this < 4294967296
    omega
  have h2 : ((List.range (OT.CPAL.numPalettes mem this)).any fun i =>
      decide (OT.CPAL.colorRecordIndicesZ mem this i + OT.CPAL.numPaletteEntries mem this
                > OT.CPAL.numColorRecords mem this)) = false := by
    rw [List.any_eq_false]
    intro i hi
    have := hpal i (List.mem_range.mp hi)
    simp only [gt_iff_lt, decide_eq_true_eq, not_lt]
    exact this
  unfold OT.CPAL.sanitize
  rw [h1, h2, if_pos hver]
  rfl

theorem OT.CPAL.sanitize_accepts_well_formed_witness :
    OT.CPAL.sanitize OT.sampleCtx OT.sampleMem 0 = true :=
  OT.CPAL.sanitize_accepts_well_formed OT.sampleCtx OT.sampleMem 0 (by decide) (by decide)
    (by decide) (by decide) (by decide)

/-! ## A version-1 table without palette labels -/

/-- The blacklist answers true exactly when the encoded triple equals the encoding of a
listed triple. -/
theorem hb_ot_blacklist_gdef_iff (gdef_len gsub_len gpos_len : Nat) :
    _hb_ot_blacklist_gdef gdef_len gsub_len gpos_len = true ↔
      ∃ t ∈ _hb_ot_blacklist_gdef.table,
        _hb_ot_blacklist_gdef.ENCODE gdef_len gsub_len gpos_len
          = _hb_ot_blacklist_gdef.ENCODE t.1 t.2.1 t.2.2 := by
  simp only [_hb_ot_blacklist_gdef, List.any_eq_true, beq_iff_eq]

/-- Every listed triple is blacklisted. -/
theorem hb_ot_blacklist_gdef_listed (t : Nat × Nat × Nat)
    (h : t ∈ _hb_ot_blacklist_gdef.table) :
    _hb_ot_blacklist_gdef t.1 t.2.1 t.2.2 = true :=
  (hb_ot_blacklist_gdef_iff _ _ _).mpr ⟨t, h, rfl⟩

/-- C33, the code at the failing input: the lengths `(188, 248, 528140)`, all below
`2^32`, are not a listed triple, yet `_hb_ot_blacklist_gdef` returns true for them:
`ENCODE` shifts the GSUB length by 16 bits only, so bit 19 of the GPOS length falls on
a bit that `248 << 16` has already set, and the encoding is that of the listed triple
`(188, 248, 3852)`. -/
theorem hb_ot_blacklist_gdef_collision :
    188 < 4294967296 ∧ 248 < 4294967296 ∧ 528140 < 4294967296 ∧
    ((188, 248, 528140) : Nat × Nat × Nat) ∉ _hb_ot_blacklist_gdef.table ∧
    ((188, 248, 3852) : Nat × Nat × Nat) ∈ _hb_ot_blacklist_gdef.table ∧
    _hb_ot_blacklist_gdef.ENCODE 188 248 528140 = _hb_ot_blacklist_gdef.ENCODE 188 248 3852 ∧
    _hb_ot_blacklist_gdef 188 248 528140 = true := by
  refine ⟨?_, ?_, ?_, ?_, ?_, ?_, ?_⟩ <;> decide

/-! ## When the closure loop stops -/

/-- The run of the closure loop from the state `(c, iteration_count)`: it makes `m >= 1`
passes, every pass but the last grew the population, and when the counter has not
passed the cap the last pass did not grow it. -/
theorem hb_ot_layout_lookups_substitute_closure_loop_run (M : Nat)
    (closure : Nat → OT.hb_closure_context_t → OT.hb_closure_context_t)
    (gsub : OT.GSUBGPOS) (lookups : Option hb_set_t) :
    ∀ (d iteration_count : Nat) (c : OT.hb_closure_context_t),
      M + 1 - iteration_count = d →
      ∃ m, 1 ≤ m ∧
        (hb_ot_layout_lookups_substitute_closure.loop M closure gsub lookups c
          iteration_count).2 = iteration_count + m ∧
        (hb_ot_layout_lookups_substitute_closure.loop M closure gsub lookups c
          iteration_count).1
          = (hb_ot_layout_lookups_substitute_closure.pass closure gsub lookups)^[m] c ∧
        (∀ k, k + 1 < m →
          hb_set_get_population
              ((hb_ot_layout_lookups_substitute_closure.pass closure gsub lookups)^[k] c).glyphs
            ≠ hb_set_get_population
              ((hb_ot_layout_lookups_substitute_closure.pass closure gsub lookups)^[k + 1]
                c).glyphs) ∧
        (iteration_count + m ≤ M →
          hb_set_get_population
              ((hb_ot_layout_lookups_substitute_closure.pass closure gsub lookups)^[m - 1]
                c).glyphs
            = hb_set_get_population
              ((hb_ot_layout_lookups_substitute_closure.pass closure gsub lookups)^[m]
                c).glyphs) := by
  intro d
  induction d using Nat.strong_induction_on with
  | _ d ih =>
    intro iteration_count c hd
    rw [hb_ot_layout_lookups_substitute_closure.loop]
    split
    · rename_i hcond
      obtain ⟨m, hm1, hcnt, hctx, hgrow, hstop⟩ :=
        ih (M + 1 - (iteration_count + 1)) (by omega) (iteration_count + 1)
          (hb_ot_layout_lookups_substitute_closure.pass closure gsub lookups c) rfl
      refine ⟨m + 1, by omega, by rw [hcnt]; omega, ?_, ?_, ?_⟩
      · rw [hctx, Function.iterate_succ_apply]
      · intro k hk
        cases k with
        | zero => exact hcond.2
        | succ k =>
          have := hgrow k (by omega)
          rw [← Function.iterate_succ_apply, ← Function.iterate_succ_apply] at this
          exact this
      · intro hle
        have := hstop (by omega)
        obtain ⟨m', rfl⟩ : ∃ m', m = m' + 1 := ⟨m - 1, by omega⟩
        rw [← Function.iterate_succ_apply, ← Function.iterate_succ_apply] at this
        exact this
    · rename_i hcond
      refine ⟨1, Nat.le_refl 1, rfl, rfl, ?_, ?_⟩
      · intro k hk
        omega
      · intro hle
        by_contra hne
        exact hcond ⟨hle, hne⟩

/-- C34: `hb_ot_layout_lookups_substitute_closure` makes `n >= 1` passes and leaves the
glyph set of the `n`-th pass.  Every pass before the last one grew the population, so
no pass is run after the first pass that leaves the population as it was at the start
of that pass; and when the loop stops with `n <= HB_CLOSURE_MAX_STAGES` the last pass did
not grow the set, so a further pass is run after every pass that grew the set as long
as the pass counter has not passed the cap.  A pass calls the closure of the lookup
indices `0 .. lookup_count - 1` in increasing order when `lookups` is null, and
otherwise of the members of the given set, each once, in increasing order. -/
theorem hb_ot_layout_lookups_substitute_closure_stops (M : Nat)
    (closure : Nat → OT.hb_closure_context_t → OT.hb_closure_context_t)
    (face : hb_face_t) (lookups : Option hb_set_t) (glyphs : hb_set_t) :
    1 ≤ hb_ot_layout_lookups_substitute_closure.passes M closure face lookups glyphs ∧
    hb_ot_layout_lookups_substitute_closure M closure face lookups glyphs
      = ((hb_ot_layout_lookups_substitute_closure.pass closure (_get_gsub face) lookups)^[
          hb_ot_layout_lookups_substitute_closure.passes M closure face lookups glyphs]
          { glyphs := glyphs, done_lookups := [] }).glyphs ∧
    (∀ k, k + 1 < hb_ot_layout_lookups_substitute_closure.passes M closure face lookups glyphs →
      hb_set_get_population
          ((hb_ot_layout_lookups_substitute_closure.pass closure (_get_gsub face) lookups)^[k]
            { glyphs := glyphs, done_lookups := [] }).glyphs
        ≠ hb_set_get_population
          ((hb_ot_layout_lookups_substitute_closure.pass closure (_get_gsub face)
            lookups)^[k + 1] { glyphs := glyphs, done_lookups := [] }).glyphs) ∧
    (hb_ot_layout_lookups_substitute_closure.passes M closure face lookups glyphs ≤ M →
      hb_set_get_population
          ((hb_ot_layout_lookups_substitute_closure.pass closure (_get_gsub face) lookups)^[
            hb_ot_layout_lookups_substitute_closure.passes M closure face lookups glyphs - 1]
            { glyphs := glyphs, done_lookups := [] }).glyphs
        = hb_set_get_population
          ((hb_ot_layout_lookups_substitute_closure.pass closure (_get_gsub face) lookups)^[
            hb_ot_layout_lookups_substitute_closure.passes M closure face lookups glyphs]
            { glyphs := glyphs, done_lookups := [] }).glyphs) ∧
    (∀ c, hb_ot_layout_lookups_substitute_closure.pass closure (_get_gsub face) none c
      = (List.range (_get_gsub face).get_lookup_count).foldl
          (fun c lookup_index => closure lookup_index c) c) ∧
    (∀ (s : hb_set_t) c,
      hb_ot_layout_lookups_substitute_closure.pass closure (_get_gsub face) (some s) c
        = (hb_ot_layout_lookups_substitute_closure.indices (_get_gsub face) (some s)).foldl
            (fun c lookup_index => closure lookup_index c) c ∧
      (hb_ot_layout_lookups_substitute_closure.indices (_get_gsub face) (some s)).Sorted
        (fun a b => a < b) ∧
      ∀ i, i ∈ hb_ot_layout_lookups_substitute_closure.indices (_get_gsub face) (some s)
        ↔ i ∈ s) := by
  obtain ⟨m, hm1, hcnt, hctx, hgrow, hstop⟩ :=
    hb_ot_layout_lookups_substitute_closure_loop_run M closure (_get_gsub face) lookups
      (M + 1 - 0) 0 { glyphs := glyphs, done_lookups := [] } rfl
  rw [Nat.zero_add] at hcnt hstop
  have hp : hb_ot_layout_lookups_substitute_closure.passes M closure face lookups glyphs = m :=
    hcnt
  rw [hp]
  refine ⟨hm1, ?_, hgrow, hstop, fun _ => rfl, ?_⟩
  · unfold hb_ot_layout_lookups_substitute_closure
    rw [hctx]
  · intro s c
    refine ⟨rfl, ?_, ?_⟩
    · exact Finset.sort_sorted_lt s
    · intro i
      exact Finset.mem_sort _

/-! ## find_script, select_script and choose_script -/

/-- The scan of `hb_ot_layout_table_choose_script` keeps the tags before the first
zero. -/
theorem hb_ot_layout_table_choose_script_take (script_tags : List hb_tag_t) :
    script_tags.take (hb_ot_layout_table_choose_script.count script_tags)
      = script_tags.takeWhile (fun t => decide (t ≠ 0)) := by
  induction script_tags with
  | nil => rfl
  | cons t rest ih =>
    by_cases h : t = 0
    · simp [hb_ot_layout_table_choose_script.count, h]
    · simp [hb_ot_layout_table_choose_script.count, h, ih]

/-- C35: `hb_ot_layout_table_find_script` with the tag `script_tag` returns the boolean
and writes the script index that `hb_ot_layout_table_select_script` returns and writes
for the one-element list `[script_tag]` (whatever cell is passed for `chosen_script`);
and `hb_ot_layout_table_choose_script` on a tag array is
`hb_ot_layout_table_select_script` on the tags before the first zero of the array. -/
theorem hb_ot_layout_table_find_script_eq_select_script (face : hb_face_t)
    (table_tag script_tag : hb_tag_t) (script_tags : List hb_tag_t)
    (script_index : Option Nat) (chosen_script : Option hb_tag_t) :
    hb_ot_layout_table_find_script face table_tag script_tag script_index
      = { ret := (hb_ot_layout_table_select_script face table_tag [script_tag]
                    script_index chosen_script).ret
          index := (hb_ot_layout_table_select_script face table_tag [script_tag]
                    script_index chosen_script).script_index } ∧
    hb_ot_layout_table_choose_script face table_tag script_tags script_index chosen_script
      = hb_ot_layout_table_select_script face table_tag
          (script_tags.takeWhile (fun t => decide (t ≠ 0))) script_index chosen_script := by
  constructor
  · unfold hb_ot_layout_table_find_script hb_ot_layout_table_select_script
    simp only [hb_ot_layout_table_select_script.body]
    split
    · rfl
    · split
      · rfl
      · split
        · rfl
        · split
          · rfl
          · rfl
  · unfold hb_ot_layout_table_choose_script
    simp only [hb_ot_layout_table_choose_script_take]

/-! ## The size parameters -/

/-- The loop of `hb_ot_layout_get_size_params` finds nothing exactly when no feature in
its range has a `size` tag and a nonzero design size. -/
theorem hb_ot_layout_get_size_params_loop_none (gpos : OT.GSUBGPOS) :
    ∀ (remaining i : Nat),
      hb_ot_layout_get_size_params.loop gpos i remaining = none ↔
        ∀ j, i ≤ j → j < i + remaining → size_feature_params gpos j = none := by
  intro remaining
  induction remaining with
  | zero =>
    intro i
    simp only [hb_ot_layout_get_size_params.loop, true_iff]
    intro j h1 h2
    omega
  | succ remaining ih =>
    intro i
    have hstep : hb_ot_layout_get_size_params.loop gpos i (remaining + 1) =
        match size_feature_params gpos i with
        | some p => some p
        | none => hb_ot_layout_get_size_params.loop gpos (i + 1) remaining := by
      simp only [hb_ot_layout_get_size_params.loop, size_feature_params,
        OT.Feature.get_feature_params, OT.FeatureParams.get_size_params]
      by_cases ht : HB_TAG 's' 'i' 'z' 'e' = gpos.get_feature_tag i
      · rw [if_pos ht, if_pos ht.symm]
        cases hfp : (gpos.get_feature i).featureParams with
        | none => simp [OT.FeatureParamsSize.Null]
        | some fp =>
          by_cases hd : fp.size.designSize = 0
          · simp [hd]
          · simp [hd]
      · rw [if_neg ht, if_neg (fun h => ht h.symm)]
    rw [hstep]
    cases hq : size_feature_params gpos i with
    | some p =>
      constructor
      · intro h
        exact absurd h (by simp)
      · intro h
        have := h i (Nat.le_refl i) (by omega)
        rw [hq] at this
        exact absurd this (by simp)
    | none =>
      simp only
      rw [ih (i + 1)]
      constructor
      · intro h j h1 h2
        by_cases hji : j = i
        · rw [hji]
          exact hq
        · exact h j (by omega) (by omega)
      · intro h j h1 h2
        exact h j (by omega) (by omega)

/-- The loop of `hb_ot_layout_get_size_params` returns the size parameters of the first
feature in its range that has a `size` tag and a nonzero design size. -/
theorem hb_ot_layout_get_size_params_loop_first (gpos : OT.GSUBGPOS) :
    ∀ (remaining i k : Nat) (p : OT.FeatureParamsSize),
      i ≤ k → k < i + remaining → size_feature_params gpos k = some p →
      (∀ j, i ≤ j → j < k → size_feature_params gpos j = none) →
      hb_ot_layout_get_size_params.loop gpos i remaining = some p := by
  intro remaining
  induction remaining with
  | zero =>
    intro i k p h1 h2
    omega
  | succ remaining ih =>
    intro i k p h1 h2 hk hall
    have hstep : hb_ot_layout_get_size_params.loop gpos i (remaining + 1) =
        match size_feature_params gpos i with
        | some p => some p
        | none => hb_ot_layout_get_size_params.loop gpos (i + 1) remaining := by
      simp only [hb_ot_layout_get_size_params.loop, size_feature_params,
        OT.Feature.get_feature_params, OT.FeatureParams.get_size_params]
      by_cases ht : HB_TAG 's' 'i' 'z' 'e' = gpos.get_feature_tag i
      · rw [if_pos ht, if_pos ht.symm]
        cases hfp : (gpos.get_feature i).featureParams with
        | none => simp [OT.FeatureParamsSize.Null]
        | some fp =>
          by_cases hd : fp.size.designSize = 0
          · simp [hd]
          · simp [hd]
      · rw [if_neg ht, if_neg (fun h => ht h.symm)]
    rw [hstep]
    by_cases hik : k = i
    · rw [← hik, hk]
    · rw [hall i (Nat.le_refl i) (by omega)]
      exact ih (i + 1) k p (by omega) (by omega) hk (fun j hj1 hj2 => hall j (by omega) hj2)

/-- C39: `hb_ot_layout_get_size_params` returns true if and only if some feature of the
GPOS feature list is tagged `size` and has size parameters with a nonzero `designSize`;
it then outputs the five fields of the first such feature in feature-list order
(earlier `size` features whose `designSize` is 0 are skipped); when there is none it
returns false and sets the five outputs to 0. -/
theorem hb_ot_layout_get_size_params_first (face : hb_face_t)
    (design_size subfamily_id subfamily_name_id range_start range_end : Option Nat) :
    ((hb_ot_layout_get_size_params face design_size subfamily_id subfamily_name_id
        range_start range_end).ret = true ↔
      ∃ i, i < (_get_gpos face).get_feature_count ∧
        (_get_gpos face).get_feature_tag i = HB_TAG 's' 'i' 'z' 'e' ∧
        ∃ fp, ((_get_gpos face).get_feature i).featureParams = some fp ∧
          fp.size.designSize ≠ 0) ∧
    (∀ i fp, i < (_get_gpos face).get_feature_count →
      (_get_gpos face).get_feature_tag i = HB_TAG 's' 'i' 'z' 'e' →
      ((_get_gpos face).get_feature i).featureParams = some fp →
      fp.size.designSize ≠ 0 →
      (∀ j, j < i → size_feature_params (_get_gpos face) j = none) →
      hb_ot_layout_get_size_params face design_size subfamily_id subfamily_name_id
          range_start range_end =
        { ret := true
          design_size := store design_size fp.size.designSize
          subfamily_id := store subfamily_id fp.size.subfamilyID
          subfamily_name_id := store subfamily_name_id fp.size.subfamilyNameID
          range_start := store range_start fp.size.rangeStart
          range_end := store range_end fp.size.rangeEnd }) ∧
    ((∀ j, j < (_get_gpos face).get_feature_count →
        size_feature_params (_get_gpos face) j = none) →
      hb_ot_layout_get_size_params face design_size subfamily_id subfamily_name_id
          range_start range_end =
        { ret := false
          design_size := store design_size 0
          subfamily_id := store subfamily_id 0
          subfamily_name_id := store subfamily_name_id 0
          range_start := store range_start 0
          range_end := store range_end 0 }) := by
  have hsome : ∀ i fp, (_get_gpos face).get_feature_tag i = HB_TAG 's' 'i' 'z' 'e' →
      ((_get_gpos face).get_feature i).featureParams = some fp →
      fp.size.designSize ≠ 0 → size_feature_params (_get_gpos face) i = some fp.size := by
    intro i fp ht hfp hd
    simp [size_feature_params, ht, hfp, hd]
  refine ⟨?_, ?_, ?_⟩
  · constructor
    · intro hret
      by_contra hno
      have hnone : hb_ot_layout_get_size_params.loop (_get_gpos face) 0
          (_get_gpos face).get_feature_count = none := by
        rw [hb_ot_layout_get_size_params_loop_none]
        intro j _ hj
        rw [Nat.zero_add] at hj
        cases hq : size_feature_params (_get_gpos face) j with
        | none => rfl
        | some p =>
          exfalso
          apply hno
          unfold size_feature_params at hq
          split at hq
          · rename_i ht
            split at hq
            · rename_i fp hfp
              split at hq
              · rename_i hd
                exact ⟨j, hj, ht, fp, hfp, hd⟩
              · exact absurd hq (by simp)
            · exact absurd hq (by simp)
          · exact absurd hq (by simp)
      unfold hb_ot_layout_get_size_params at hret
      simp only [hnone] at hret
      exact absurd hret (by simp)
    · rintro ⟨i, hi, ht, fp, hfp, hd⟩
      cases hl : hb_ot_layout_get_size_params.loop (_get_gpos face) 0
          (_get_gpos face).get_feature_count with
      | none =>
        rw [hb_ot_layout_get_size_params_loop_none] at hl
        have := hl i (Nat.zero_le i) (by omega)
        rw [hsome i fp ht hfp hd] at this
        exact absurd this (by simp)
      | some p =>
        unfold hb_ot_layout_get_size_params
        simp only [hl]
  · intro i fp hi ht hfp hd hall
    have hl := hb_ot_layout_get_size_params_loop_first (_get_gpos face)
      (_get_gpos face).get_feature_count 0 i fp.size (Nat.zero_le i) (by omega)
      (hsome i fp ht hfp hd) (fun j _ hj => hall j hj)
    unfold hb_ot_layout_get_size_params
    simp only [hl]
  · intro hall
    have hl : hb_ot_layout_get_size_params.loop (_get_gpos face) 0
        (_get_gpos face).get_feature_count = none := by
      rw [hb_ot_layout_get_size_params_loop_none]
      intro j _ hj
      exact hall j (by omega)
    unfold hb_ot_layout_get_size_params
    simp only [hl]

theorem hb_ot_layout_get_size_params_first_witness :
    hb_ot_layout_get_size_params sizeFace (some 7) (some 7) none (some 7) (some 7) =
      { ret := true
        design_size := some 100
        subfamily_id := some 5
        subfamily_name_id := none
        range_start := some 90
        range_end := some 120 } :=
  (hb_ot_layout_get_size_params_first sizeFace (some 7) (some 7) none (some 7) (some 7)).2.1
    2 _ (by decide) (by decide) rfl (by decide) (by decide)

/-! ## Collecting the lookups of a feature -/

/-- Adding the entries of a buffer to a set. -/
theorem hb_ot_layout_collect_lookups_add_all (lookup_indices : Nat → Nat) (len : Nat)
    (lookup_indexes : hb_set_t) :
    _hb_ot_layout_collect_lookups_lookups.add_all lookup_indices len lookup_indexes
      = lookup_indexes ∪ ((List.range len).map lookup_indices).toFinset := by
  unfold _hb_ot_layout_collect_lookups_lookups.add_all
  generalize List.range len = l
  induction l generalizing lookup_indexes with
  | nil => simp
  | cons a l ih =>
    rw [List.foldl_cons, ih]
    ext x
    simp only [hb_set_add, Finset.mem_union, Finset.mem_insert, List.map_cons,
      List.toFinset_cons]
    tauto

/-- The paging loop of `_hb_ot_layout_collect_lookups_lookups` from `offset`: it ends
within `(total - offset) / 32 + 1` iterations and adds the lookup indices of the
feature from position `offset` on. -/
theorem hb_ot_layout_collect_lookups_lookups_loop_spec (face : hb_face_t)
    (table_tag : hb_tag_t) (feature_index : Nat) :
    ∀ (fuel offset : Nat) (lookup_indices : Nat → Nat) (lookup_indexes : hb_set_t),
      (((get_gsubgpos_table face table_tag).get_feature feature_index).lookupIndex.length
        - offset) / 32 < fuel →
      _hb_ot_layout_collect_lookups_lookups.loop face table_tag feature_index fuel offset
          lookup_indices lookup_indexes
        = some (lookup_indexes ∪
            (((get_gsubgpos_table face table_tag).get_feature feature_index).lookupIndex.drop
              offset).toFinset) := by
  intro fuel
  induction fuel with
  | zero =>
    intro offset lookup_indices lookup_indexes h
    omega
  | succ fuel ih =>
    intro offset lookup_indices lookup_indexes h
    generalize hl : ((get_gsubgpos_table face table_tag).get_feature
      feature_index).lookupIndex = list at h ih ⊢
    have hmap : (List.range (min (list.length - offset) 32)).map
        (fun k => if k < min (list.length - offset) 32 then list.getD (offset + k) 0
          else lookup_indices k)
        = (list.drop offset).take (min (list.length - offset) 32) := by
      by_cases hoff : offset ≤ list.length
      · apply map_range_eq_take_drop
        · omega
        · intro k hk
          rw [if_pos hk]
      · have h0 : min (list.length - offset) 32 = 0 := by omega
        rw [h0]
        rfl
    simp only [_hb_ot_layout_collect_lookups_lookups.loop, hb_ot_layout_feature_get_lookups,
      hb_ot_layout_feature_with_variations_get_lookups, OT.GSUBGPOS.get_feature_variation,
      OT.Feature.get_lookup_indexes, hl, Option.getD_some, Option.map_some',
      hb_ot_layout_collect_lookups_add_all, hmap]
    by_cases hfull : min (list.length - offset) 32 = 32
    · rw [if_pos hfull, ih _ _ _ (by omega), hfull]
      congr 1
      rw [Finset.union_assoc, ← List.toFinset_append, ← List.drop_drop, List.take_append_drop]
    · rw [if_neg hfull]
      congr 2
      rw [List.take_of_length_le]
      rw [List.length_drop]
      omega

/-- The union of the lookup indices of the features of a list. -/
theorem hb_ot_layout_collect_lookups_loop_spec (face : hb_face_t) (table_tag : hb_tag_t)
    (fuel : Nat) :
    ∀ (feature_indexes : List Nat) (lookup_indexes : hb_set_t),
      (∀ feature_index ∈ feature_indexes,
        ((get_gsubgpos_table face table_tag).get_feature feature_index).lookupIndex.length / 32
          < fuel) →
      hb_ot_layout_collect_lookups.loop face table_tag fuel feature_indexes lookup_indexes
        = some (lookup_indexes ∪ feature_indexes.toFinset.biUnion fun feature_index =>
            ((get_gsubgpos_table face table_tag).get_feature
              feature_index).lookupIndex.toFinset) := by
  intro feature_indexes
  induction feature_indexes with
  | nil =>
    intro lookup_indexes _
    simp [hb_ot_layout_collect_lookups.loop]
  | cons feature_index rest ih =>
    intro lookup_indexes h
    have h1 := hb_ot_layout_collect_lookups_lookups_loop_spec face table_tag feature_index fuel
      0 (fun _ => 0) lookup_indexes (by
        rw [Nat.sub_zero]
        exact h feature_index (List.mem_cons_self _ _))
    rw [List.drop_zero] at h1
    rw [hb_ot_layout_collect_lookups.loop, _hb_ot_layout_collect_lookups_lookups, h1]
    simp only
    rw [ih _ (fun f hf => h f (List.mem_cons_of_mem _ hf))]
    congr 1
    rw [List.toFinset_cons, Finset.biUnion_insert, Finset.union_assoc]

/-- C36: with the lookup-index enumeration of a feature following the paged pattern, the
32-entry paging loop of `_hb_ot_layout_collect_lookups_lookups` ends for every feature
(within `total / 32 + 1` iterations, `total` being the number of lookup indices of the
feature) and leaves the output set with exactly the feature's lookup indices added,
every element already in the set staying in place; and `hb_ot_layout_collect_lookups`
leaves the output set with the union of the lookup indices of all the features that
`hb_ot_layout_collect_features` collects added. -/
theorem hb_ot_layout_collect_lookups_union (face : hb_face_t) (table_tag : hb_tag_t)
    (feature_index fuel : Nat) (scripts languages features : Option (List hb_tag_t))
    (lookup_indexes : hb_set_t)
    (hfuel : ((get_gsubgpos_table face table_tag).get_feature
      feature_index).lookupIndex.length / 32 < fuel)
    (hall : ∀ f ∈ hb_ot_layout_collect_features face table_tag scripts languages features ∅,
      ((get_gsubgpos_table face table_tag).get_feature f).lookupIndex.length / 32 < fuel) :
    _hb_ot_layout_collect_lookups_lookups face table_tag feature_index fuel lookup_indexes
      = some (lookup_indexes ∪
          ((get_gsubgpos_table face table_tag).get_feature
            feature_index).lookupIndex.toFinset) ∧
    hb_ot_layout_collect_lookups face table_tag scripts languages features fuel lookup_indexes
      = some (lookup_indexes ∪
          (hb_ot_layout_collect_features face table_tag scripts languages features ∅).biUnion
            fun f => ((get_gsubgpos_table face table_tag).get_feature f).lookupIndex.toFinset)
      := by
  constructor
  · have h1 := hb_ot_layout_collect_lookups_lookups_loop_spec face table_tag feature_index fuel
      0 (fun _ => 0) lookup_indexes (by rw [Nat.sub_zero]; exact hfuel)
    rw [List.drop_zero] at h1
    exact h1
  · unfold hb_ot_layout_collect_lookups
    simp only
    rw [hb_ot_layout_collect_lookups_loop_spec face table_tag fuel _ lookup_indexes
      (fun f hf => hall f ((Finset.mem_sort _).mp hf)), Finset.sort_toFinset]

/-! ## Collecting features -/

/-- Adding the members of a list to a set. -/
theorem hb_set_add_foldl (l : List Nat) (s : hb_set_t) :
    l.foldl hb_set_add s = s ∪ l.toFinset := by
  induction l generalizing s with
  | nil => simp
  | cons a l ih =>
    rw [List.foldl_cons, ih]
    ext x
    simp only [hb_set_add, Finset.mem_union, Finset.mem_insert, List.toFinset_cons]
    tauto

/-- The index cell that `hb_ot_layout_language_find_feature` fills is never left
empty. -/
theorem hb_ot_layout_language_find_feature_index_some (face : hb_face_t) (table_tag : hb_tag_t)
    (script_index language_index : Nat) (feature_tag : hb_tag_t) (v : Nat) :
    ∃ x, (hb_ot_layout_language_find_feature face table_tag script_index language_index
      feature_tag (some v)).index = some x := by
  unfold hb_ot_layout_language_find_feature
  simp only
  split
  · exact ⟨_, rfl⟩
  · exact ⟨_, rfl⟩

/-- The feature loop of `_hb_ot_layout_collect_features_features` only adds to the
set, and what it adds does not depend on the set. -/
theorem hb_ot_layout_collect_features_features_loop_add (face : hb_face_t)
    (table_tag : hb_tag_t) (script_index language_index : Nat) :
    ∀ (features : List hb_tag_t) (s : hb_set_t),
      _hb_ot_layout_collect_features_features.loop face table_tag script_index language_index
          features s
        = s ∪ _hb_ot_layout_collect_features_features.loop face table_tag script_index
            language_index features ∅ := by
  intro features
  induction features with
  | nil =>
    intro s
    simp [_hb_ot_layout_collect_features_features.loop]
  | cons tag rest ih =>
    intro s
    by_cases h0 : tag = 0
    · simp [_hb_ot_layout_collect_features_features.loop, h0]
    · simp only [_hb_ot_layout_collect_features_features.loop, if_neg h0]
      split
      · rw [ih (hb_set_add s _), ih (hb_set_add ∅ _)]
        ext x
        simp only [hb_set_add, Finset.mem_union, Finset.mem_insert, Finset.not_mem_empty,
          or_false]
        tauto
      · exact ih s

/-- What the feature loop of `_hb_ot_layout_collect_features_features` adds: the
indices that `hb_ot_layout_language_find_feature` finds for the tags before the first
zero. -/
theorem hb_ot_layout_collect_features_features_loop_mem (face : hb_face_t)
    (table_tag : hb_tag_t) (script_index language_index : Nat) (x : Nat) :
    ∀ (features : List hb_tag_t),
      x ∈ _hb_ot_layout_collect_features_features.loop face table_tag script_index
          language_index features ∅ ↔
        ∃ tag ∈ features.takeWhile (fun t => decide (t ≠ 0)),
          hb_ot_layout_language_find_feature face table_tag script_index language_index tag
            (some 0) = { ret := true, index := some x } := by
  intro features
  induction features with
  | nil => simp [_hb_ot_layout_collect_features_features.loop]
  | cons tag rest ih =>
    by_cases h0 : tag = 0
    · simp [_hb_ot_layout_collect_features_features.loop, h0]
    · have htw : (tag :: rest).takeWhile (fun t => decide (t ≠ 0))
          = tag :: rest.takeWhile (fun t => decide (t ≠ 0)) := by
        simp [List.takeWhile_cons, h0]
      obtain ⟨y, hy⟩ := hb_ot_layout_language_find_feature_index_some face table_tag
        script_index language_index tag 0
      rw [htw]
      simp only [_hb_ot_layout_collect_features_features.loop, if_neg h0, List.mem_cons,
        exists_eq_or_imp]
      generalize hr : hb_ot_layout_language_find_feature face table_tag script_index
        language_index tag (some 0) = r at hy ⊢
      obtain ⟨ret, index⟩ := r
      simp only at hy
      subst hy
      cases ret with
      | true =>
        simp only [if_true, Option.getD_some]
        rw [hb_ot_layout_collect_features_features_loop_add, Finset.mem_union, ih]
        simp only [hb_set_add, Finset.mem_insert, Finset.not_mem_empty, or_false,
          OT.Found.mk.injEq, true_and, Option.some.injEq]
        constructor
        · rintro (h | h)
          · exact Or.inl h.symm
          · exact Or.inr h
        · rintro (h | h)
          · exact Or.inl h.symm
          · exact Or.inr h
      | false =>
        simp only [Bool.false_eq_true, if_false, OT.Found.mk.injEq, false_and, false_or]
        exact ih

/-- `_hb_ot_layout_collect_features_features` only adds to the set, and what it adds
does not depend on the set. -/
theorem hb_ot_layout_collect_features_features_add (face : hb_face_t) (table_tag : hb_tag_t)
    (script_index language_index : Nat) (features : Option (List hb_tag_t)) (s : hb_set_t) :
    _hb_ot_layout_collect_features_features face table_tag script_index language_index
        features s
      = s ∪ _hb_ot_layout_collect_features_features face table_tag script_index
          language_index features ∅ := by
  cases features with
  | none =>
    simp only [_hb_ot_layout_collect_features_features,
      _hb_ot_layout_language_add_feature_indexes_to, OT.LangSys.add_feature_indexes_to,
      hb_set_add_foldl]
    split
    · ext x
      simp only [hb_set_add, Finset.mem_union, Finset.mem_insert, Finset.not_mem_empty,
        or_false]
      tauto
    · simp
  | some features =>
    exact hb_ot_layout_collect_features_features_loop_add face table_tag script_index
      language_index features s

/-- The loop over all languages only adds to the set, and what it adds does not depend
on the set. -/
theorem hb_ot_layout_collect_features_languages_all_add (face : hb_face_t)
    (table_tag : hb_tag_t) (script_index : Nat) (features : Option (List hb_tag_t)) :
    ∀ (remaining language_index : Nat) (s : hb_set_t),
      _hb_ot_layout_collect_features_languages.all face table_tag script_index features
          language_index remaining s
        = s ∪ _hb_ot_layout_collect_features_languages.all face table_tag script_index
            features language_index remaining ∅ := by
  intro remaining
  induction remaining with
  | zero =>
    intro language_index s
    simp [_hb_ot_layout_collect_features_languages.all]
  | succ remaining ih =>
    intro language_index s
    simp only [_hb_ot_layout_collect_features_languages.all]
    rw [ih (language_index + 1) (_hb_ot_layout_collect_features_features face table_tag
        script_index language_index features s),
      ih (language_index + 1) (_hb_ot_layout_collect_features_features face table_tag
        script_index language_index features ∅),
      hb_ot_layout_collect_features_features_add face table_tag script_index language_index
        features s, Finset.union_assoc]

/-- The loop over the listed languages only adds to the set, and what it adds does not
depend on the set. -/
theorem hb_ot_layout_collect_features_languages_loop_add (face : hb_face_t)
    (table_tag : hb_tag_t) (script_index : Nat) (features : Option (List hb_tag_t)) :
    ∀ (languages : List hb_tag_t) (s : hb_set_t),
      _hb_ot_layout_collect_features_languages.loop face table_tag script_index features
          languages s
        = s ∪ _hb_ot_layout_collect_features_languages.loop face table_tag script_index
            features languages ∅ := by
  intro languages
  induction languages with
  | nil =>
    intro s
    simp [_hb_ot_layout_collect_features_languages.loop]
  | cons tag rest ih =>
    intro s
    by_cases h0 : tag = 0
    · simp [_hb_ot_layout_collect_features_languages.loop, h0]
    · simp only [_hb_ot_layout_collect_features_languages.loop, if_neg h0]
      split
      · rw [ih (_hb_ot_layout_collect_features_features face table_tag script_index _
            features s),
          ih (_hb_ot_layout_collect_features_features face table_tag script_index _
            features ∅),
          hb_ot_layout_collect_features_features_add face table_tag script_index _ features s,
          Finset.union_assoc]
      · exact ih s

/-- `_hb_ot_layout_collect_features_languages` only adds to the set, and what it adds
does not depend on the set. -/
theorem hb_ot_layout_collect_features_languages_add (face : hb_face_t) (table_tag : hb_tag_t)
    (script_index : Nat) (languages features : Option (List hb_tag_t)) (s : hb_set_t) :
    _hb_ot_layout_collect_features_languages face table_tag script_index languages features s
      = s ∪ _hb_ot_layout_collect_features_languages face table_tag script_index languages
          features ∅ := by
  cases languages with
  | none =>
    simp only [_hb_ot_layout_collect_features_languages]
    rw [hb_ot_layout_collect_features_languages_all_add face table_tag script_index features _ _
        (_hb_ot_layout_collect_features_features face table_tag script_index
          HB_OT_LAYOUT_DEFAULT_LANGUAGE_INDEX features s),
      hb_ot_layout_collect_features_languages_all_add face table_tag script_index features _ _
        (_hb_ot_layout_collect_features_features face table_tag script_index
          HB_OT_LAYOUT_DEFAULT_LANGUAGE_INDEX features ∅),
      hb_ot_layout_collect_features_features_add face table_tag script_index _ features s,
      Finset.union_assoc]
  | some languages =>
    simp only [_hb_ot_layout_collect_features_languages]
    rw [hb_ot_layout_collect_features_languages_loop_add face table_tag script_index features _
        (_hb_ot_layout_collect_features_features face table_tag script_index
          HB_OT_LAYOUT_DEFAULT_LANGUAGE_INDEX features s),
      hb_ot_layout_collect_features_languages_loop_add face table_tag script_index features _
        (_hb_ot_layout_collect_features_features face table_tag script_index
          HB_OT_LAYOUT_DEFAULT_LANGUAGE_INDEX features ∅),
      hb_ot_layout_collect_features_features_add face table_tag script_index _ features s,
      Finset.union_assoc]

/-- The features of the default language system are part of what
`_hb_ot_layout_collect_features_languages` collects. -/
theorem hb_ot_layout_collect_features_languages_default (face : hb_face_t)
    (table_tag : hb_tag_t) (script_index : Nat) (languages features : Option (List hb_tag_t))
    (s : hb_set_t) :
    _hb_ot_layout_collect_features_features face table_tag script_index
        HB_OT_LAYOUT_DEFAULT_LANGUAGE_INDEX features s
      ⊆ _hb_ot_layout_collect_features_languages face table_tag script_index languages
          features s := by
  cases languages with
  | none =>
    simp only [_hb_ot_layout_collect_features_languages]
    rw [hb_ot_layout_collect_features_languages_all_add]
    exact Finset.subset_union_left
  | some languages =>
    simp only [_hb_ot_layout_collect_features_languages]
    rw [hb_ot_layout_collect_features_languages_loop_add]
    exact Finset.subset_union_left

/-- The loop over all scripts only adds to the set, and what it adds does not depend on
the set. -/
theorem hb_ot_layout_collect_features_all_add (face : hb_face_t) (table_tag : hb_tag_t)
    (languages features : Option (List hb_tag_t)) :
    ∀ (remaining script_index : Nat) (s : hb_set_t),
      hb_ot_layout_collect_features.all face table_tag languages features script_index
          remaining s
        = s ∪ hb_ot_layout_collect_features.all face table_tag languages features
            script_index remaining ∅ := by
  intro remaining
  induction remaining with
  | zero =>
    intro script_index s
    simp [hb_ot_layout_collect_features.all]
  | succ remaining ih =>
    intro script_index s
    simp only [hb_ot_layout_collect_features.all]
    rw [ih (script_index + 1) (_hb_ot_layout_collect_features_languages face table_tag
        script_index languages features s),
      ih (script_index + 1) (_hb_ot_layout_collect_features_languages face table_tag
        script_index languages features ∅),
      hb_ot_layout_collect_features_languages_add face table_tag script_index languages
        features s, Finset.union_assoc]

/-- The loop over the listed scripts only adds to the set, and what it adds does not
depend on the set. -/
theorem hb_ot_layout_collect_features_loop_add (face : hb_face_t) (table_tag : hb_tag_t)
    (languages features : Option (List hb_tag_t)) :
    ∀ (scripts : List hb_tag_t) (s : hb_set_t),
      hb_ot_layout_collect_features.loop face table_tag languages features scripts s
        = s ∪ hb_ot_layout_collect_features.loop face table_tag languages features scripts ∅
      := by
  intro scripts
  induction scripts with
  | nil =>
    intro s
    simp [hb_ot_layout_collect_features.loop]
  | cons tag rest ih =>
    intro s
    by_cases h0 : tag = 0
    · simp [hb_ot_layout_collect_features.loop, h0]
    · simp only [hb_ot_layout_collect_features.loop, if_neg h0]
      split
      · rw [ih (_hb_ot_layout_collect_features_languages face table_tag _ languages
            features s),
          ih (_hb_ot_layout_collect_features_languages face table_tag _ languages
            features ∅),
          hb_ot_layout_collect_features_languages_add face table_tag _ languages features s,
          Finset.union_assoc]
      · exact ih s

/-- What is collected for a script that the loop over all scripts visits is part of its
result. -/
theorem hb_ot_layout_collect_features_all_visits (face : hb_face_t) (table_tag : hb_tag_t)
    (languages features : Option (List hb_tag_t)) (si : Nat) :
    ∀ (remaining script_index : Nat) (s : hb_set_t),
      script_index ≤ si → si < script_index + remaining →
      _hb_ot_layout_collect_features_languages face table_tag si languages features ∅
        ⊆ hb_ot_layout_collect_features.all face table_tag languages features script_index
            remaining s := by
  intro remaining
  induction remaining with
  | zero =>
    intro script_index s h1 h2
    omega
  | succ remaining ih =>
    intro script_index s h1 h2
    simp only [hb_ot_layout_collect_features.all]
    by_cases heq : si = script_index
    · subst heq
      rw [hb_ot_layout_collect_features_all_add,
        hb_ot_layout_collect_features_languages_add face table_tag si languages features s]
      intro x hx
      simp only [Finset.mem_union]
      exact Or.inl (Or.inr hx)
    · exact ih (script_index + 1) _ (by omega) (by omega)

/-- What is collected for a script that the loop over the listed scripts visits is part
of its result. -/
theorem hb_ot_layout_collect_features_loop_visits (face : hb_face_t) (table_tag : hb_tag_t)
    (languages features : Option (List hb_tag_t)) (tag : hb_tag_t) (si : Nat)
    (hfind : hb_ot_layout_table_find_script face table_tag tag (some 0)
      = { ret := true, index := some si }) :
    ∀ (scripts : List hb_tag_t) (s : hb_set_t),
      tag ∈ scripts.takeWhile (fun t => decide (t ≠ 0)) →
      _hb_ot_layout_collect_features_languages face table_tag si languages features ∅
        ⊆ hb_ot_layout_collect_features.loop face table_tag languages features scripts s := by
  intro scripts
  induction scripts with
  | nil =>
    intro s h
    simp at h
  | cons t rest ih =>
    intro s h
    by_cases h0 : t = 0
    · simp [List.takeWhile_cons, h0] at h
    · have htw : (t :: rest).takeWhile (fun t => decide (t ≠ 0))
          = t :: rest.takeWhile (fun t => decide (t ≠ 0)) := by
        simp [List.takeWhile_cons, h0]
      rw [htw, List.mem_cons] at h
      simp only [hb_ot_layout_collect_features.loop, if_neg h0]
      rcases h with h | h
      · subst h
        rw [hfind]
        simp only [if_true, Option.getD_some]
        rw [hb_ot_layout_collect_features_loop_add,
          hb_ot_layout_collect_features_languages_add face table_tag si languages features s]
        intro x hx
        simp only [Finset.mem_union]
        exact Or.inl (Or.inr hx)
      · exact ih _ h

/-- C37: for every script that `hb_ot_layout_collect_features` visits (every script of
the table when `scripts` is null, otherwise every script that
`hb_ot_layout_table_find_script` finds for a tag listed before the first zero), the
features of the default language system of the script are in the output set, whatever
`languages` is (null, empty, or any list).  The features collected for a language
system are, with a null `features` filter, its required feature when it has one
together with all its listed feature indices, and with a non-null filter exactly the
indices that `hb_ot_layout_language_find_feature` finds for the tags listed before the
first zero. -/
theorem hb_ot_layout_collect_features_default_language (face : hb_face_t)
    (table_tag : hb_tag_t) (languages features : Option (List hb_tag_t))
    (script_index language_index : Nat) (s : hb_set_t) :
    (script_index < (get_gsubgpos_table face table_tag).scriptList.length →
      _hb_ot_layout_collect_features_features face table_tag script_index
          HB_OT_LAYOUT_DEFAULT_LANGUAGE_INDEX features ∅
        ⊆ hb_ot_layout_collect_features face table_tag none languages features s) ∧
    (∀ (scripts : List hb_tag_t) (tag : hb_tag_t),
      tag ∈ scripts.takeWhile (fun t => decide (t ≠ 0)) →
      hb_ot_layout_table_find_script face table_tag tag (some 0)
        = { ret := true, index := some script_index } →
      _hb_ot_layout_collect_features_features face table_tag script_index
          HB_OT_LAYOUT_DEFAULT_LANGUAGE_INDEX features ∅
        ⊆ hb_ot_layout_collect_features face table_tag (some scripts) languages features s) ∧
    (∀ x, x ∈ _hb_ot_layout_collect_features_features face table_tag script_index
          language_index none s ↔
        x ∈ s ∨
        ((((get_gsubgpos_table face table_tag).get_script script_index).get_lang_sys
              language_index).reqFeatureIndex ≠ 0xFFFF ∧
          x = (((get_gsubgpos_table face table_tag).get_script script_index).get_lang_sys
              language_index).reqFeatureIndex) ∨
        x ∈ (((get_gsubgpos_table face table_tag).get_script script_index).get_lang_sys
              language_index).featureIndex) ∧
    (∀ (tags : List hb_tag_t) x,
      x ∈ _hb_ot_layout_collect_features_features face table_tag script_index
          language_index (some tags) s ↔
        x ∈ s ∨ ∃ tag ∈ tags.takeWhile (fun t => decide (t ≠ 0)),
          hb_ot_layout_language_find_feature face table_tag script_index language_index tag
            (some 0) = { ret := true, index := some x }) := by
  refine ⟨?_, ?_, ?_, ?_⟩
  · intro hsi
    refine Finset.Subset.trans
      (hb_ot_layout_collect_features_languages_default face table_tag script_index languages
        features ∅) ?_
    unfold hb_ot_layout_collect_features
    simp only
    exact hb_ot_layout_collect_features_all_visits face table_tag languages features
      script_index _ 0 s (Nat.zero_le _) (by
        rw [Nat.zero_add]
        exact hsi)
  · intro scripts tag htag hfind
    refine Finset.Subset.trans
      (hb_ot_layout_collect_features_languages_default face table_tag script_index languages
        features ∅) ?_
    unfold hb_ot_layout_collect_features
    simp only
    exact hb_ot_layout_collect_features_loop_visits face table_tag languages features tag
      script_index hfind scripts s htag
  · intro x
    simp only [_hb_ot_layout_collect_features_features,
      _hb_ot_layout_language_add_feature_indexes_to, OT.LangSys.add_feature_indexes_to,
      hb_set_add_foldl, hb_ot_layout_language_get_required_feature,
      OT.LangSys.has_required_feature, OT.LangSys.get_required_feature_index, store,
      Option.map_some', Option.getD_some]
    generalize ((get_gsubgpos_table face table_tag).get_script script_index).get_lang_sys
      language_index = l
    by_cases hreq : l.reqFeatureIndex = 0xFFFF
    · simp [hreq]
    · simp only [bne_iff_ne, ne_eq, hreq, not_false_eq_true, if_true, if_false, hb_set_add,
        Finset.mem_union, Finset.mem_insert, List.mem_toFinset, true_and]
      tauto
  · intro tags x
    simp only [_hb_ot_layout_collect_features_features]
    rw [hb_ot_layout_collect_features_features_loop_add, Finset.mem_union,
      hb_ot_layout_collect_features_features_loop_mem]

/-! ## Exact matches only -/

/-- `hb_ot_layout_table_find_script` returns false for a tag that is not a script tag
of the table, whatever fallback script it settles on. -/
theorem hb_ot_layout_table_find_script_absent (face : hb_face_t)
    (table_tag script_tag : hb_tag_t) (script_index : Option Nat)
    (h : script_tag ∉ (get_gsubgpos_table face table_tag).scriptList.map Prod.fst) :
    (hb_ot_layout_table_find_script face table_tag script_tag script_index).ret = false := by
  unfold hb_ot_layout_table_find_script
  simp only [OT.GSUBGPOS.find_script_index, OT.RecordArrayOf.find_index_miss _ _ _ h,
    Bool.false_eq_true, if_false]
  split
  · rfl
  · split
    · rfl
    · split
      · rfl
      · rfl

/-- `hb_ot_layout_script_select_language` with a single tag returns false for a tag
that is not a language tag of the script, whether or not it settles on `dflt`. -/
theorem hb_ot_layout_script_select_language_absent (face : hb_face_t) (table_tag : hb_tag_t)
    (script_index : Nat) (language_tag : hb_tag_t) (language_index : Option Nat)
    (h : language_tag ∉
      ((get_gsubgpos_table face table_tag).get_script script_index).langSys.map Prod.fst) :
    (hb_ot_layout_script_select_language face table_tag script_index [language_tag]
      language_index).ret = false := by
  unfold hb_ot_layout_script_select_language
  rw [hb_ot_layout_script_select_language_body_cons_miss _ _ _ _ h,
    hb_ot_layout_script_select_language_body_nil]
  split <;> rfl

/-- The loop over the listed scripts does the same on the list and on the list cut at
its first zero and stripped of the tags that the table does not have. -/
theorem hb_ot_layout_collect_features_loop_exact (face : hb_face_t) (table_tag : hb_tag_t)
    (languages features : Option (List hb_tag_t)) :
    ∀ (scripts : List hb_tag_t) (s : hb_set_t),
      hb_ot_layout_collect_features.loop face table_tag languages features scripts s
        = hb_ot_layout_collect_features.loop face table_tag languages features
            ((scripts.takeWhile (fun t => decide (t ≠ 0))).filter (fun t =>
              decide (t ∈ (get_gsubgpos_table face table_tag).scriptList.map Prod.fst))) s := by
  intro scripts
  induction scripts with
  | nil =>
    intro s
    rfl
  | cons tag rest ih =>
    intro s
    by_cases h0 : tag = 0
    · simp [hb_ot_layout_collect_features.loop, h0]
    · have htw : (tag :: rest).takeWhile (fun t => decide (t ≠ 0))
          = tag :: rest.takeWhile (fun t => decide (t ≠ 0)) := by
        simp [List.takeWhile_cons, h0]
      rw [htw]
      by_cases hin : tag ∈ (get_gsubgpos_table face table_tag).scriptList.map Prod.fst
      · rw [List.filter_cons_of_pos (by simpa using hin)]
        simp only [hb_ot_layout_collect_features.loop, if_neg h0]
        exact ih _
      · rw [List.filter_cons_of_neg (by simpa using hin)]
        simp only [hb_ot_layout_collect_features.loop, if_neg h0,
          hb_ot_layout_table_find_script_absent face table_tag tag (some 0) hin,
          Bool.false_eq_true, if_false]
        exact ih s

/-- The loop over the listed languages does the same on the list and on the list cut at
its first zero and stripped of the tags that the script does not have. -/
theorem hb_ot_layout_collect_features_languages_loop_exact (face : hb_face_t)
    (table_tag : hb_tag_t) (script_index : Nat) (features : Option (List hb_tag_t)) :
    ∀ (languages : List hb_tag_t) (s : hb_set_t),
      _hb_ot_layout_collect_features_languages.loop face table_tag script_index features
          languages s
        = _hb_ot_layout_collect_features_languages.loop face table_tag script_index features
            ((languages.takeWhile (fun t => decide (t ≠ 0))).filter (fun t =>
              decide (t ∈ ((get_gsubgpos_table face table_tag).get_script
                script_index).langSys.map Prod.fst))) s := by
  intro languages
  induction languages with
  | nil =>
    intro s
    rfl
  | cons tag rest ih =>
    intro s
    by_cases h0 : tag = 0
    · simp [_hb_ot_layout_collect_features_languages.loop, h0]
    · have htw : (tag :: rest).takeWhile (fun t => decide (t ≠ 0))
          = tag :: rest.takeWhile (fun t => decide (t ≠ 0)) := by
        simp [List.takeWhile_cons, h0]
      rw [htw]
      by_cases hin : tag ∈
          ((get_gsubgpos_table face table_tag).get_script script_index).langSys.map Prod.fst
      · rw [List.filter_cons_of_pos (by simpa using hin)]
        simp only [_hb_ot_layout_collect_features_languages.loop, if_neg h0]
        exact ih _
      · rw [List.filter_cons_of_neg (by simpa using hin)]
        simp only [_hb_ot_layout_collect_features_languages.loop, if_neg h0,
          hb_ot_layout_script_select_language_absent face table_tag script_index tag (some 0)
            hin,
          Bool.false_eq_true, if_false]
        exact ih s

/-- C38: `hb_ot_layout_collect_features` uses only exact tag matches for listed scripts
and languages.  A listed script tag that the table does not have contributes nothing:
the call does the same as on the script list cut at its first zero and stripped of the
absent tags, whether or not the table has a `DFLT`, `dflt` or `latn` script that
`hb_ot_layout_table_find_script` falls back to.  A listed language tag that the script
does not have contributes nothing beyond the default language system: the collection
for the script does the same as on the language list cut at its first zero and stripped
of the absent tags, and for a list of absent tags only it collects the default language
system alone, whether or not the script has a `dflt` language system.  The call only
adds elements to the output set. -/
theorem hb_ot_layout_collect_features_exact_match (face : hb_face_t) (table_tag : hb_tag_t)
    (scripts languages : List hb_tag_t) (languages_opt features : Option (List hb_tag_t))
    (scripts_opt : Option (List hb_tag_t)) (script_index : Nat) (s : hb_set_t) :
    hb_ot_layout_collect_features face table_tag (some scripts) languages_opt features s
      = hb_ot_layout_collect_features face table_tag
          (some ((scripts.takeWhile (fun t => decide (t ≠ 0))).filter (fun t =>
            decide (t ∈ (get_gsubgpos_table face table_tag).scriptList.map Prod.fst))))
          languages_opt features s ∧
    _hb_ot_layout_collect_features_languages face table_tag script_index (some languages)
        features s
      = _hb_ot_layout_collect_features_languages face table_tag script_index
          (some ((languages.takeWhile (fun t => decide (t ≠ 0))).filter (fun t =>
            decide (t ∈ ((get_gsubgpos_table face table_tag).get_script
              script_index).langSys.map Prod.fst))))
          features s ∧
    ((∀ t ∈ languages.takeWhile (fun t => decide (t ≠ 0)),
        t ∉ ((get_gsubgpos_table face table_tag).get_script script_index).langSys.map
          Prod.fst) →
      _hb_ot_layout_collect_features_languages face table_tag script_index (some languages)
          features s
        = _hb_ot_layout_collect_features_features face table_tag script_index
            HB_OT_LAYOUT_DEFAULT_LANGUAGE_INDEX features s) ∧
    ((∀ t ∈ scripts.takeWhile (fun t => decide (t ≠ 0)),
        t ∉ (get_gsubgpos_table face table_tag).scriptList.map Prod.fst) →
      hb_ot_layout_collect_features face table_tag (some scripts) languages_opt features s
        = s) ∧
    s ⊆ hb_ot_layout_collect_features face table_tag scripts_opt languages_opt features s := by
  have hS := hb_ot_layout_collect_features_loop_exact face table_tag languages_opt features
    scripts s
  have hL := fun s' => hb_ot_layout_collect_features_languages_loop_exact face table_tag
    script_index features languages s'
  refine ⟨?_, ?_, ?_, ?_, ?_⟩
  · simp only [hb_ot_layout_collect_features]
    rw [hS]
  · simp only [_hb_ot_layout_collect_features_languages]
    rw [hL]
  · intro hall
    simp only [_hb_ot_layout_collect_features_languages]
    rw [hL, List.filter_eq_nil_iff.mpr (by
      intro t ht
      simpa using hall t ht)]
    rfl
  · intro hall
    simp only [hb_ot_layout_collect_features]
    rw [hS, List.filter_eq_nil_iff.mpr (by
      intro t ht
      simpa using hall t ht)]
    rfl
  · cases scripts_opt with
    | none =>
      simp only [hb_ot_layout_collect_features]
      rw [hb_ot_layout_collect_features_all_add]
      exact Finset.subset_union_left
    | some l =>
      simp only [hb_ot_layout_collect_features]
      rw [hb_ot_layout_collect_features_loop_add]
      exact Finset.subset_union_left

theorem hb_ot_layout_collect_lookups_union_witness :
    _hb_ot_layout_collect_lookups_lookups collectFace HB_OT_TAG_GSUB 1 2 {100}
      = some ({100} ∪
          ((get_gsubgpos_table collectFace HB_OT_TAG_GSUB).get_feature 1).lookupIndex.toFinset) ∧
    hb_ot_layout_collect_lookups collectFace HB_OT_TAG_GSUB none none none 2 {100}
      = some ({100} ∪
          (hb_ot_layout_collect_features collectFace HB_OT_TAG_GSUB none none none ∅).biUnion
            fun f =>
              ((get_gsubgpos_table collectFace HB_OT_TAG_GSUB).get_feature f).lookupIndex.toFinset)
      :=
  hb_ot_layout_collect_lookups_union collectFace HB_OT_TAG_GSUB 1 2 none none none {100}
    (by decide) (by decide)

theorem hb_ot_layout_collect_features_default_language_witness :
    _hb_ot_layout_collect_features_features collectFace HB_OT_TAG_GSUB 1
        HB_OT_LAYOUT_DEFAULT_LANGUAGE_INDEX none ∅
      ⊆ hb_ot_layout_collect_features collectFace HB_OT_TAG_GSUB
          (some [HB_TAG 'l' 'a' 't' 'n', 0]) (some [HB_TAG 'T' 'R' 'K' ' ', 0]) none {7} :=
  (hb_ot_layout_collect_features_default_language collectFace HB_OT_TAG_GSUB
    (some [HB_TAG 'T' 'R' 'K' ' ', 0]) none 1 0 {7}).2.1
    [HB_TAG 'l' 'a' 't' 'n', 0] (HB_TAG 'l' 'a' 't' 'n') (by decide) (by decide)

theorem hb_ot_layout_collect_features_exact_match_witness :
    _hb_ot_layout_collect_features_languages collectFace HB_OT_TAG_GSUB 1
        (some [HB_TAG 'A' 'R' 'A' ' ', 0]) none ∅
      = _hb_ot_layout_collect_features_features collectFace HB_OT_TAG_GSUB 1
          HB_OT_LAYOUT_DEFAULT_LANGUAGE_INDEX none ∅ ∧
    hb_ot_layout_collect_features collectFace HB_OT_TAG_GSUB
        (some [HB_TAG 'a' 'r' 'a' 'b', 0]) none none ∅ = ∅ :=
  ⟨(hb_ot_layout_collect_features_exact_match collectFace HB_OT_TAG_GSUB
      [HB_TAG 'a' 'r' 'a' 'b', 0] [HB_TAG 'A' 'R' 'A' ' ', 0] none none none 1 ∅).2.2.1
      (by decide),
   (hb_ot_layout_collect_features_exact_match collectFace HB_OT_TAG_GSUB
      [HB_TAG 'a' 'r' 'a' 'b', 0] [HB_TAG 'A' 'R' 'A' ' ', 0] none none none 1 ∅).2.2.2.1
      (by decide)⟩

